import Mathlib

/-!
# k8s-oci-operator: reserved public IP reconcilers

A shallow embedding of `api/v1alpha1/reservedip_types.go`,
`controllers/reservedip_controller.go` and
`controllers/reservedip_association_controller.go`.

* Go structs become Lean structures with the Go field names; a Go pointer that may be
  nil becomes an `Option`.
* A reconcile pass is a function on an explicit run state: the object held in memory and
  the history of calls made to the outside world (cluster store, cloud network client,
  event recorder), newest call first.  Log lines are not modelled.
* What the outside world answers is a parameter (`Env`): every call is answered as a
  function of the request and of the number of calls made before it in the pass, so two
  calls with the same request may be answered differently.
* A Go `error` is `Option GoErr` (`none` for nil); a nil dereference is the `panic` flow.
-/

namespace OciOperator

/-! ## Go library behaviour used by the controllers -/

/-- Test whether the first list of characters starts the second one. -/
def startsWithChars : List Char → List Char → Bool
  | [], _ => true
  | _ :: _, [] => false
  | p :: ps, c :: cs => p == c && startsWithChars ps cs

/-- Test whether `sub` occurs as a contiguous block of `s`. -/
def containsChars (sub : List Char) : List Char → Bool
  | [] => startsWithChars sub []
  | c :: cs => startsWithChars sub (c :: cs) || containsChars sub cs

/-- Go `strings.Contains(s, substr)`. -/
def stringsContains (s substr : String) : Bool :=
  containsChars substr.toList s.toList

/-- A non-nil Go `error`: its `Error()` text, and whether
`apierrors.IsNotFound` holds of it (what `client.IgnoreNotFound` tests). -/
structure GoErr where
  msg : String
  apiNotFound : Bool := false
  deriving DecidableEq, Repr

/-- A Go `error` value; `none` is nil. -/
abbrev GoError := Option GoErr

/-- Go `fmt.Errorf` with the text already formatted. -/
def fmtErrorf (text : String) : GoErr := { msg := text }

/-- Go `client.IgnoreNotFound(err)`. -/
def ignoreNotFound : GoError → GoError
  | none => none
  | some e => if e.apiNotFound then none else some e

/-- A Go `map[string]string`: `none` is the nil map, `some kvs` a non-nil map whose
entries are the first binding of each key in `kvs`. -/
abbrev GoMap := Option (List (String × String))

/-- Look a key up in the entries of a non-nil map. -/
def mapLookup (k : String) : List (String × String) → Option String
  | [] => none
  | (k', v) :: rest => if k' = k then some v else mapLookup k rest

/-- Number of keys of a non-nil map. -/
def mapLen (kvs : List (String × String)) : Nat :=
  (kvs.map Prod.fst).dedup.length

/-- Go `reflect.DeepEqual` on two `map[string]string` values: both nil, or both non-nil
with the same number of keys and the same value at every key. A nil map and an empty
non-nil map are not deeply equal. -/
def deepEqualMap : GoMap → GoMap → Bool
  | none, none => true
  | some a, some b =>
      mapLen a == mapLen b && a.all (fun kv => mapLookup kv.1 a == mapLookup kv.1 b)
  | _, _ => false

/-! ## api/v1alpha1/reservedip_types.go -/

/-- Go struct `ReservedIPAssignment`. -/
structure ReservedIPAssignment where
  PodName : String := ""
  PrivateIPAddress : String := ""
  deriving DecidableEq, Repr

/-- Go method `ReservedIPAssignment.MatchesSpec`. -/
def ReservedIPAssignment.MatchesSpec (r spec : ReservedIPAssignment) : Bool :=
  if spec.PodName == "" then
    spec.PrivateIPAddress == r.PrivateIPAddress
  else
    spec.PodName == r.PodName

/-- Go struct `ReservedIPSpec`. -/
structure ReservedIPSpec where
  Assignment : Option ReservedIPAssignment := none
  PublicIPPoolID : String := ""
  PublicIPAddress : String := ""
  Tags : Option GoMap := none
  deriving DecidableEq, Repr

/-- Go struct `ReservedIPStatus`. -/
structure ReservedIPStatus where
  State : String := ""
  OCID : String := ""
  PublicIPAddress : String := ""
  Assignment : Option ReservedIPAssignment := none
  PrivateIPAddressID : String := ""
  EphemeralIPWasUnassigned : Bool := false
  deriving DecidableEq, Repr

/-- Go struct `ReservedIP`, with the parts of `ObjectMeta` the controllers read:
`Namespace`, `Name`, `UID`, `Finalizers`, and `DeletionTimestamp.IsZero()`. -/
structure ReservedIP where
  Namespace : String := ""
  Name : String := ""
  UID : String := ""
  DeletionTimestampIsZero : Bool := true
  Finalizers : List String := []
  Spec : ReservedIPSpec := {}
  Status : ReservedIPStatus := {}
  deriving DecidableEq, Repr

/-- Modelled from the spec: Go struct `ReservedIPAssociationSpec`, whose declaration is
not among the source files: a reference to a reserved-address resource by name and an
assignment descriptor. The controller assigns the descriptor to `ReservedIP.Spec.Assignment`,
so it is a pointer to a `ReservedIPAssignment`. -/
structure ReservedIPAssociationSpec where
  ReservedIPName : String := ""
  Assignment : Option ReservedIPAssignment := none
  deriving DecidableEq, Repr

/-- Modelled from the spec: Go struct `ReservedIPAssociation`, whose declaration is not
among the source files, with the parts of `ObjectMeta` the controller reads. -/
structure ReservedIPAssociation where
  Namespace : String := ""
  Name : String := ""
  DeletionTimestampIsZero : Bool := true
  Finalizers : List String := []
  Spec : ReservedIPAssociationSpec := {}
  deriving DecidableEq, Repr

/-! ## The outside world: cloud network client and cluster store -/

/-- Go enum `ocicore.PublicIpLifetimeEnum` (and `CreatePublicIpDetailsLifetimeEnum`). -/
inductive Lifetime where
  | Ephemeral
  | Reserved
  deriving DecidableEq, Repr

/-- The fields of the cloud object `ocicore.PublicIp` that the controller reads. The
client decodes `Id` and `IpAddress` into freshly allocated strings and hands out
pointers to them; the strings themselves are kept here. -/
structure PublicIp where
  Id : String := ""
  IpAddress : String := ""
  FreeformTags : GoMap := none
  Lifetime : Lifetime := Lifetime.Reserved
  AssignedEntityId : Option String := none
  deriving DecidableEq, Repr

/-- Go struct `ocicore.CreatePublicIpRequest` with its `CreatePublicIpDetails`; a field
the controller leaves unset is `none`. -/
structure CreatePublicIpRequest where
  CompartmentId : String := ""
  DisplayName : Option String := none
  Lifetime : Lifetime
  PrivateIpId : Option String := none
  PublicIpPoolId : Option String := none
  FreeformTags : GoMap := none
  OpcRetryToken : Option String := none
  deriving DecidableEq, Repr

/-- Go struct `ocicore.UpdatePublicIpRequest` with its `UpdatePublicIpDetails`; a field
the controller leaves unset is `none`. Setting `PrivateIpId` to the empty string
detaches the address, setting it to an identifier binds it. -/
structure UpdatePublicIpRequest where
  PublicIpId : String := ""
  FreeformTags : GoMap := none
  PrivateIpId : Option String := none
  deriving DecidableEq, Repr

/-- The fields of `ocicore.Subnet` that the controller reads. -/
structure Subnet where
  Id : String := ""
  CidrBlock : String := ""
  deriving DecidableEq, Repr

/-- The fields of `ocicore.PrivateIp` that the controller reads. -/
structure PrivateIp where
  Id : String := ""
  deriving DecidableEq, Repr

/-- Result of a call that yields a value or a Go error. -/
inductive Answer (α : Type) where
  | ok (a : α)
  | fail (e : GoErr)
  deriving DecidableEq, Repr

/-- One call made by a reconcile pass, with the request sent and the answer received. -/
inductive Event where
  | storeGet (ns name : String) (res : Answer ReservedIP)
  | storeGetPod (ns name : String) (res : Answer String)
  | storeUpdate (obj : ReservedIP) (err : GoError)
  | storeGetAssociation (ns name : String) (res : Answer ReservedIPAssociation)
  | storeUpdateAssociation (obj : ReservedIPAssociation) (err : GoError)
  | storeStatusUpdate (status : ReservedIPStatus) (err : GoError)
  | recorderEvent (eventtype reason message : String)
  | createPublicIp (req : CreatePublicIpRequest) (res : Answer PublicIp)
  | getPublicIp (publicIpId : String) (res : Answer PublicIp)
  | updatePublicIp (req : UpdatePublicIpRequest) (err : GoError)
  | deletePublicIp (publicIpId : String) (err : GoError)
  | getPublicIpByPrivateIpId (privateIpId : String) (res : Answer PublicIp)
  | listSubnets (compartmentId vcnId : String) (res : Answer (List Subnet))
  | listPrivateIps (ipAddress subnetId : String) (res : Answer (List PrivateIp))
  deriving DecidableEq, Repr

/-- What the outside world answers. The first argument of every call is the number of
calls the pass has made before it. `cidrContains block ip` stands for Go
`net.ParseCIDR(block)` followed by `cidr.Contains(net.ParseIP(ip))`: the parse error, or
whether the block contains the address. -/
structure Env where
  storeGet : Nat → String → String → Answer ReservedIP
  storeGetPod : Nat → String → String → Answer String
  storeUpdate : Nat → ReservedIP → GoError
  storeGetAssociation : Nat → String → String → Answer ReservedIPAssociation
  storeUpdateAssociation : Nat → ReservedIPAssociation → GoError
  storeStatusUpdate : Nat → ReservedIP → GoError
  createPublicIp : Nat → CreatePublicIpRequest → Answer PublicIp
  getPublicIp : Nat → String → Answer PublicIp
  updatePublicIp : Nat → UpdatePublicIpRequest → GoError
  deletePublicIp : Nat → String → GoError
  getPublicIpByPrivateIpId : Nat → String → Answer PublicIp
  listSubnets : Nat → String → String → Answer (List Subnet)
  listPrivateIps : Nat → String → String → Answer (List PrivateIp)
  cidrContains : String → String → Answer Bool

/-- Go struct `ReservedIPReconciler`: its configuration fields, and the package constant
`finalizerName`, whose declaration is not among the source files and is taken as a
parameter. -/
structure ReservedIPReconciler where
  CompartmentID : String := ""
  VcnID : String := ""
  ReservedIPNamePrefix : String := ""
  finalizerName : String

/-- Modelled from the spec: the helper `containsString` is called by both controllers
but its body is not among the source files; it is the membership test of the finalizer
bookkeeping. -/
def containsString (slice : List String) (s : String) : Bool :=
  slice.any (fun item => item == s)

/-- Modelled from the spec: the helper `removeString` is called by both controllers but
its body is not among the source files; it drops every occurrence of the finalizer. -/
def removeString (slice : List String) (s : String) : List String :=
  slice.filter (fun item => !(item == s))

/-! ## Running a pass -/

/-- Where a Go `*string` points: at the field `Status.OCID` of the object being
reconciled (`&reservedIP.Status.OCID`), or at a string the cloud client allocated while
decoding the answer to call number `call`. -/
inductive StrAddr where
  | statusOCID
  | response (call : Nat)
  deriving DecidableEq, Repr

/-- How a piece of Go code ends: it falls through to the next statement with a value, it
returns from the enclosing function, or it panics. -/
inductive Flow (ρ α : Type) where
  | next (a : α)
  | ret (r : ρ)
  | panic
  deriving DecidableEq, Repr

/-- The state of a pass: the object in memory and the calls made so far, newest first. -/
structure Run where
  obj : ReservedIP
  trace : List Event := []
  deriving DecidableEq, Repr

/-- A piece of Go code inside a function whose return type is `ρ`. -/
def Pass (ρ α : Type) : Type := Run → Flow ρ α × Run

/-- Sequencing: a return or a panic skips what follows. -/
def Pass.bind {ρ α β : Type} (m : Pass ρ α) (f : α → Pass ρ β) : Pass ρ β := fun s =>
  match m s with
  | (Flow.next a, s1) => f a s1
  | (Flow.ret r, s1) => (Flow.ret r, s1)
  | (Flow.panic, s1) => (Flow.panic, s1)

/-- An expression without effect. -/
def Pass.pure {ρ α : Type} (a : α) : Pass ρ α := fun s => (Flow.next a, s)

instance (ρ : Type) : Monad (Pass ρ) where
  pure := Pass.pure
  bind := Pass.bind

/-- Go `return r`. -/
def ret {ρ α : Type} (r : ρ) : Pass ρ α := fun s => (Flow.ret r, s)

/-- A nil pointer dereference. -/
def nilDeref {ρ α : Type} : Pass ρ α := fun s => (Flow.panic, s)

/-- Read the object in memory. -/
def getObj {ρ : Type} : Pass ρ ReservedIP := fun s => (Flow.next s.obj, s)

/-- Assign to fields of the object in memory. -/
def modifyObj {ρ : Type} (f : ReservedIP → ReservedIP) : Pass ρ Unit := fun s =>
  (Flow.next (), { s with obj := f s.obj })

/-- Assign to fields of the status of the object in memory. -/
def modifyStatus {ρ : Type} (f : ReservedIPStatus → ReservedIPStatus) : Pass ρ Unit :=
  modifyObj (fun o => { o with Status := f o.Status })

/-- Call a Go function with return type `ρ` from code of a function with return type
`σ`: the value returned is the value of the call; a panic propagates. -/
def call {ρ σ : Type} (body : Pass ρ Empty) : Pass σ ρ := fun s =>
  match body s with
  | (Flow.next e, _) => nomatch e
  | (Flow.ret r, s1) => (Flow.next r, s1)
  | (Flow.panic, s1) => (Flow.panic, s1)

/-- Go `if cond { body }` where nothing is returned by falling through. -/
def goIf {ρ : Type} (cond : Bool) (body : Pass ρ Unit) : Pass ρ Unit :=
  if cond then body else Pass.pure ()

/-- Go `if err != nil { return err }`. -/
def returnIfErr (err : GoError) : Pass GoError Unit :=
  if err.isSome then ret err else Pass.pure ()

/-- Go `r.Status().Update(ctx, reservedIP)`: the status of the object in memory is sent
to the store, which accepts it or answers with an error; the object in memory keeps the
values the pass gave it. -/
def statusUpdate {ρ : Type} (env : Env) : Pass ρ GoError := fun s =>
  let err := env.storeStatusUpdate s.trace.length s.obj
  (Flow.next err, { s with trace := Event.storeStatusUpdate s.obj.Status err :: s.trace })

/-- Go `r.Update(ctx, reservedIP)`: the object in memory is sent to the store, which
accepts it or answers with an error. -/
def storeUpdate {ρ : Type} (env : Env) : Pass ρ GoError := fun s =>
  let err := env.storeUpdate s.trace.length s.obj
  (Flow.next err, { s with trace := Event.storeUpdate s.obj err :: s.trace })

/-- Go `r.Recorder.Event(reservedIP, eventtype, reason, message)`. -/
def recorderEvent {ρ : Type} (eventtype reason message : String) : Pass ρ Unit := fun s =>
  (Flow.next (), { s with trace := Event.recorderEvent eventtype reason message :: s.trace })

/-- Go `r.Get(ctx, key, pod)` followed by reading `pod.Status.PodIP`. -/
def storeGetPod {ρ : Type} (env : Env) (ns name : String) : Pass ρ (Answer String) := fun s =>
  let res := env.storeGetPod s.trace.length ns name
  (Flow.next res, { s with trace := Event.storeGetPod ns name res :: s.trace })

/-- Go `r.VNC.CreatePublicIp`. -/
def vncCreatePublicIp {ρ : Type} (env : Env) (req : CreatePublicIpRequest) :
    Pass ρ (Answer PublicIp) := fun s =>
  let res := env.createPublicIp s.trace.length req
  (Flow.next res, { s with trace := Event.createPublicIp req res :: s.trace })

/-- Go `r.VNC.GetPublicIp`. -/
def vncGetPublicIp {ρ : Type} (env : Env) (publicIpId : String) :
    Pass ρ (Answer PublicIp) := fun s =>
  let res := env.getPublicIp s.trace.length publicIpId
  (Flow.next res, { s with trace := Event.getPublicIp publicIpId res :: s.trace })

/-- Go `r.VNC.UpdatePublicIp`. -/
def vncUpdatePublicIp {ρ : Type} (env : Env) (req : UpdatePublicIpRequest) :
    Pass ρ GoError := fun s =>
  let err := env.updatePublicIp s.trace.length req
  (Flow.next err, { s with trace := Event.updatePublicIp req err :: s.trace })

/-- Go `r.VNC.DeletePublicIp`. -/
def vncDeletePublicIp {ρ : Type} (env : Env) (publicIpId : String) : Pass ρ GoError := fun s =>
  let err := env.deletePublicIp s.trace.length publicIpId
  (Flow.next err, { s with trace := Event.deletePublicIp publicIpId err :: s.trace })

/-- Go `r.VNC.GetPublicIpByPrivateIpId`: the answer, and where the `Id` pointer of the
decoded answer points. -/
def vncGetPublicIpByPrivateIpId {ρ : Type} (env : Env) (privateIpId : String) :
    Pass ρ (Answer PublicIp × StrAddr) := fun s =>
  let res := env.getPublicIpByPrivateIpId s.trace.length privateIpId
  (Flow.next (res, StrAddr.response s.trace.length),
    { s with trace := Event.getPublicIpByPrivateIpId privateIpId res :: s.trace })

/-- Go `r.VNC.ListSubnets`. -/
def vncListSubnets {ρ : Type} (env : Env) (compartmentId vcnId : String) :
    Pass ρ (Answer (List Subnet)) := fun s =>
  let res := env.listSubnets s.trace.length compartmentId vcnId
  (Flow.next res, { s with trace := Event.listSubnets compartmentId vcnId res :: s.trace })

/-- Go `r.VNC.ListPrivateIps`. -/
def vncListPrivateIps {ρ : Type} (env : Env) (ipAddress subnetId : String) :
    Pass ρ (Answer (List PrivateIp)) := fun s =>
  let res := env.listPrivateIps s.trace.length ipAddress subnetId
  (Flow.next res, { s with trace := Event.listPrivateIps ipAddress subnetId res :: s.trace })

/-! ## controllers/reservedip_controller.go -/

/-- Go `reconcileTags`. -/
def reconcileTags (env : Env) (existingTags : GoMap) : Pass GoError Empty := do
  let reservedIP ← getObj
  match reservedIP.Spec.Tags with
  | some tags =>
    if !deepEqualMap tags existingTags then
      ret (← vncUpdatePublicIp env
        { PublicIpId := reservedIP.Status.OCID, FreeformTags := tags })
    else
      ret none
  | none => ret none

/-- The request that Go `allocateReservedIP` builds in its local variable `input`. -/
def allocateReservedIP.input (r : ReservedIPReconciler) (reservedIP : ReservedIP) :
    CreatePublicIpRequest :=
  let displayName := r.ReservedIPNamePrefix ++ "-" ++ reservedIP.Namespace ++ "-" ++
    reservedIP.Name ++ "-" ++ reservedIP.UID
  let input : CreatePublicIpRequest :=
    { CompartmentId := r.CompartmentID
      DisplayName := some displayName
      Lifetime := Lifetime.Reserved
      OpcRetryToken := some reservedIP.UID }
  let input : CreatePublicIpRequest :=
    match reservedIP.Spec.Tags with
    | some tags => { input with FreeformTags := tags }
    | none => input
  if reservedIP.Spec.PublicIPPoolID != "" then
    { input with PublicIpPoolId := some reservedIP.Spec.PublicIPPoolID }
  else input

/-- Go `allocateReservedIP`. -/
def allocateReservedIP (r : ReservedIPReconciler) (env : Env) : Pass GoError Empty := do
  let reservedIP ← getObj
  match ← vncCreatePublicIp env (allocateReservedIP.input r reservedIP) with
  | Answer.fail err => ret (some err)
  | Answer.ok resp =>
    modifyStatus fun st =>
      { st with State := "allocated", OCID := resp.Id, PublicIPAddress := resp.IpAddress }
    returnIfErr (← statusUpdate env)
    ret (← call (reconcileTags env resp.FreeformTags))

/-- The request that Go `assignEphemeralIP` builds in its local variable `input`. -/
def assignEphemeralIP.input (r : ReservedIPReconciler) (reservedIP : ReservedIP) :
    CreatePublicIpRequest :=
  { CompartmentId := r.CompartmentID
    PrivateIpId := some reservedIP.Status.PrivateIPAddressID
    Lifetime := Lifetime.Ephemeral }

/-- Go `assignEphemeralIP`. -/
def assignEphemeralIP (r : ReservedIPReconciler) (env : Env) : Pass GoError Empty := do
  let reservedIP ← getObj
  match ← vncCreatePublicIp env (assignEphemeralIP.input r reservedIP) with
  | Answer.fail err => ret (some err)
  | Answer.ok _ =>
    modifyStatus fun st => { st with EphemeralIPWasUnassigned := false }
    returnIfErr (← statusUpdate env)
    ret none

/-- Go `releaseReservedIP`. An error of the delete call whose text contains
`NotAuthorizedOrNotFound` is only logged. -/
def releaseReservedIP (r : ReservedIPReconciler) (env : Env) : Pass GoError Empty := do
  let eip ← getObj
  let err ← vncDeletePublicIp env eip.Status.OCID
  (match err with
    | some e => goIf (!stringsContains e.msg "NotAuthorizedOrNotFound") (ret (some e))
    | none => Pass.pure ())
  goIf (← getObj).Status.EphemeralIPWasUnassigned do
    ret (← call (assignEphemeralIP r env))
  ret none

/-- Go `getPodPrivateIP`. -/
def getPodPrivateIP (env : Env) (ns podName : String) : Pass (String × GoError) Empty := do
  match ← storeGetPod env ns podName with
  | Answer.fail err => ret ("", some err)
  | Answer.ok podIP => ret (podIP, none)

/-- The loop over `subnets.Items` in Go `getPrivateIPID`; falling through means that no
subnet gave the identifier. -/
def getPrivateIPID.scan (env : Env) (privateIP : String) :
    List Subnet → Pass (String × GoError) Unit
  | [] => Pass.pure ()
  | subnet :: rest =>
    match env.cidrContains subnet.CidrBlock privateIP with
    | Answer.fail err => ret ("", some err)
    | Answer.ok false => getPrivateIPID.scan env privateIP rest
    | Answer.ok true => do
      match ← vncListPrivateIps env privateIP subnet.Id with
      | Answer.fail err => ret ("", some err)
      | Answer.ok [item] => ret (item.Id, none)
      | Answer.ok _ => getPrivateIPID.scan env privateIP rest

/-- Go `getPrivateIPID`. -/
def getPrivateIPID (r : ReservedIPReconciler) (env : Env) (privateIP : String) :
    Pass (String × GoError) Empty := do
  match ← vncListSubnets env r.CompartmentID r.VcnID with
  | Answer.fail err => ret ("", some err)
  | Answer.ok subnets =>
    getPrivateIPID.scan env privateIP subnets
    ret ("", some (fmtErrorf
      ("Private IP " ++ privateIP ++ " not found in VCN " ++ r.VcnID)))

/-- The part of Go `assignReservedIP` that resolves the private address: the literal of
the spec, or the current address of the pod the spec names. -/
def assignReservedIP.resolve (env : Env) (ns : String) (assignment : ReservedIPAssignment) :
    Pass GoError String :=
  if assignment.PodName != "" then do
    let (podIP, err) ← call (getPodPrivateIP env ns assignment.PodName)
    returnIfErr err
    Pass.pure podIP
  else
    Pass.pure assignment.PrivateIPAddress

/-- The part of Go `assignReservedIP` that looks at the public address already bound to
the private address: `res` is the answer of `GetPublicIpByPrivateIpId` and `idAddr` is
where `publicIP.Id` points, which is compared with `&reservedIP.Status.OCID`. -/
def assignReservedIP.makeRoom (env : Env) (res : Answer PublicIp) (idAddr : StrAddr) :
    Pass GoError Unit :=
  match res with
  | Answer.fail err =>
    goIf (!stringsContains err.msg "NotAuthorizedOrNotFound") (ret (some err))
  | Answer.ok publicIP => do
    goIf (idAddr == StrAddr.statusOCID) (ret none)
    if publicIP.Lifetime == Lifetime.Ephemeral then do
      modifyStatus fun st => { st with EphemeralIPWasUnassigned := true }
      returnIfErr (← statusUpdate env)
      returnIfErr (← vncDeletePublicIp env publicIP.Id)
    else do
      returnIfErr (← vncUpdatePublicIp env
        { PublicIpId := publicIP.Id, PrivateIpId := some "" })

/-- The error that Go `assignReservedIP` returns for a descriptor that does not have
exactly one selector set. -/
def validationError : GoErr :=
  fmtErrorf "exactly one of spec.assignment.\x7bpodName,privateIPAddress\x7d needs to be defined"

/-- Go `assignReservedIP`. `Status.Assignment = Spec.Assignment` copies the pointer, so
the write of `PrivateIPAddress` that follows it lands in the one descriptor that both
fields then point at. -/
def assignReservedIP (r : ReservedIPReconciler) (env : Env) : Pass GoError Empty := do
  let reservedIP ← getObj
  match reservedIP.Spec.Assignment with
  | none => nilDeref
  | some assignment =>
    goIf ((assignment.PodName == "") == (assignment.PrivateIPAddress == ""))
      (ret (some validationError))
    let privateIP ← assignReservedIP.resolve env reservedIP.Namespace assignment
    let (privateIPID, err) ← call (getPrivateIPID r env privateIP)
    returnIfErr err
    let (res, idAddr) ← vncGetPublicIpByPrivateIpId env privateIPID
    assignReservedIP.makeRoom env res idAddr
    returnIfErr (← vncUpdatePublicIp env
      { PublicIpId := (← getObj).Status.OCID, PrivateIpId := some privateIPID })
    modifyObj fun o =>
      { o with
        Spec := { o.Spec with
          Assignment := some { assignment with PrivateIPAddress := privateIP } }
        Status := { o.Status with
          State := "assigned"
          Assignment := some { assignment with PrivateIPAddress := privateIP }
          PrivateIPAddressID := privateIPID } }
    returnIfErr (← statusUpdate env)
    ret none

/-- Go `unassignReservedIP`. -/
def unassignReservedIP (r : ReservedIPReconciler) (env : Env) : Pass GoError Empty := do
  returnIfErr (← vncUpdatePublicIp env
    { PublicIpId := (← getObj).Status.OCID, PrivateIpId := some "" })
  goIf (← getObj).Status.EphemeralIPWasUnassigned do
    returnIfErr (← call (assignEphemeralIP r env))
  modifyStatus fun st =>
    { st with State := "allocated", Assignment := none, PrivateIPAddressID := "" }
  returnIfErr (← statusUpdate env)
  ret none

/-- The branch of Go `handleRequest` for an object in state `assigned`: the value of the
local variable `changed`. -/
def handleRequest.assignedChanged (addr : PublicIp) : Pass GoError Bool := do
  match (← getObj).Spec.Assignment with
  | none =>
    modifyStatus fun st => { st with State := "unassigning" }
    Pass.pure true
  | some specAssignment =>
    match (← getObj).Status.Assignment with
    | none => nilDeref
    | some statusAssignment =>
      if !statusAssignment.MatchesSpec specAssignment || addr.AssignedEntityId.isNone then do
        modifyStatus fun st => { st with State := "reassigning" }
        Pass.pure true
      else
        Pass.pure false

/-- The part of Go `handleRequest` that follows the reconciliation of the tags: the state
transitions, for the cloud object `addr` that `GetPublicIp` answered with. -/
def handleRequest.transitions (r : ReservedIPReconciler) (env : Env) (addr : PublicIp) :
    Pass GoError Unit := do
  goIf ((← getObj).Status.State == "allocated") do
    match (← getObj).Spec.Assignment with
    | some assignment =>
      goIf (assignment.PodName != "" || assignment.PrivateIPAddress != "") do
        modifyStatus fun st => { st with State := "assigning" }
        returnIfErr (← statusUpdate env)
        recorderEvent "Normal" "Assigning" "Reserved IP assigned"
    | none => Pass.pure ()
  goIf ((← getObj).Status.State == "assigned") do
    let changed ← handleRequest.assignedChanged addr
    goIf changed do
      returnIfErr (← statusUpdate env)
  goIf ((← getObj).Status.State == "assigning") do
    goIf (← getObj).Spec.Assignment.isNone do
      modifyStatus fun st => { st with State := "allocated" }
      returnIfErr (← statusUpdate env)
  goIf ((← getObj).Status.State == "assigning" || (← getObj).Status.State == "reassigning") do
    match (← getObj).Spec.Assignment with
    | some assignment =>
      goIf (assignment.PodName != "" || assignment.PrivateIPAddress != "") do
        ret (← call (assignReservedIP r env))
    | none => Pass.pure ()
  goIf ((← getObj).Status.State == "unassigning") do
    ret (← call (unassignReservedIP r env))

/-- The branch of Go `handleRequest` for an object that is not being deleted. -/
def handleRequest.live (r : ReservedIPReconciler) (env : Env) : Pass GoError Unit := do
  goIf (!containsString (← getObj).Finalizers r.finalizerName) do
    modifyObj fun o => { o with Finalizers := o.Finalizers ++ [r.finalizerName] }
    ret (← storeUpdate env)
  goIf ((← getObj).Status.State == "") do
    modifyStatus fun st => { st with State := "allocating" }
    returnIfErr (← statusUpdate env)
  goIf ((← getObj).Status.State == "allocating") do
    returnIfErr (← call (allocateReservedIP r env))
    recorderEvent "Normal" "Allocating" "Reserved IP allocated"
  match ← vncGetPublicIp env (← getObj).Status.OCID with
  | Answer.fail err => ret (some err)
  | Answer.ok addr =>
    returnIfErr (← call (reconcileTags env addr.FreeformTags))
    handleRequest.transitions r env addr

/-- The branch of Go `handleRequest` for an object that is being deleted. -/
def handleRequest.deleting (r : ReservedIPReconciler) (env : Env) : Pass GoError Unit := do
  goIf (containsString (← getObj).Finalizers r.finalizerName) do
    goIf ((← getObj).Status.OCID != "") do
      goIf ((← getObj).Status.State != "releasing") do
        modifyStatus fun st => { st with State := "releasing" }
        returnIfErr (← statusUpdate env)
      goIf ((← getObj).Status.State == "releasing") do
        returnIfErr (← call (releaseReservedIP r env))
    modifyObj fun o => { o with Finalizers := removeString o.Finalizers r.finalizerName }
    ret (← storeUpdate env)

/-- Go `handleRequest`; the `ctrl.Result` it returns is always empty and is left out. -/
def handleRequest (r : ReservedIPReconciler) (env : Env) : Pass GoError Empty := do
  let reservedIP ← getObj
  (if reservedIP.DeletionTimestampIsZero then
    handleRequest.live r env
  else
    handleRequest.deleting r env)
  ret none

/-- Go `ReservedIPReconciler.Reconcile` for the request `ns/name`: how the pass ends and
the calls it made, newest first. -/
def Reconcile (r : ReservedIPReconciler) (env : Env) (ns name : String) :
    Flow GoError Empty × List Event :=
  match env.storeGet 0 ns name with
  | Answer.fail err =>
    (Flow.ret (ignoreNotFound (some err)), [Event.storeGet ns name (Answer.fail err)])
  | Answer.ok reservedIP =>
    match handleRequest r env
      { obj := reservedIP, trace := [Event.storeGet ns name (Answer.ok reservedIP)] } with
    | (Flow.ret (some err), s) =>
      (Flow.ret (some err), Event.recorderEvent "Warning" "ReconcileError" err.msg :: s.trace)
    | (res, s) => (res, s.trace)

/-- Run `handleRequest` on an object just fetched from the store. -/
def runHandleRequest (r : ReservedIPReconciler) (env : Env) (reservedIP : ReservedIP) :
    Flow GoError Empty × Run :=
  handleRequest r env { obj := reservedIP }

/-! ## controllers/reservedip_association_controller.go -/

/-- The branch of Go `ReservedIPAssociationReconciler.Reconcile` for an association that
is not being deleted and does not carry the finalizer yet; `trace` holds the calls made
so far. -/
def ReservedIPAssociationReconciler.bind (finalizerName : String) (env : Env) (ns : String)
    (reservedIPAssociation : ReservedIPAssociation) (trace : List Event) :
    Flow GoError Empty × List Event :=
  let reservedIPAssociation : ReservedIPAssociation :=
    { reservedIPAssociation with
      Finalizers := reservedIPAssociation.Finalizers ++ [finalizerName] }
  let res := env.storeGet trace.length ns reservedIPAssociation.Spec.ReservedIPName
  let trace := Event.storeGet ns reservedIPAssociation.Spec.ReservedIPName res :: trace
  match res with
  | Answer.fail err => (Flow.ret (some err), trace)
  | Answer.ok reservedIP =>
    if reservedIP.Spec.Assignment.isNone && reservedIP.Status.State == "allocated" then
      let reservedIP : ReservedIP :=
        { reservedIP with
          Spec := { reservedIP.Spec with Assignment := reservedIPAssociation.Spec.Assignment } }
      let err := env.storeUpdate trace.length reservedIP
      let trace := Event.storeUpdate reservedIP err :: trace
      if err.isSome then
        (Flow.ret err, trace)
      else
        let err := env.storeUpdateAssociation trace.length reservedIPAssociation
        (Flow.ret err, Event.storeUpdateAssociation reservedIPAssociation err :: trace)
    else
      (Flow.ret (some (fmtErrorf
        "Cannot assign ReservedIP because it isn\x27t in allocated state.")), trace)

/-- The branch of Go `ReservedIPAssociationReconciler.Reconcile` for an association that
is being deleted and carries the finalizer; `trace` holds the calls made so far. -/
def ReservedIPAssociationReconciler.unbind (finalizerName : String) (env : Env) (ns : String)
    (reservedIPAssociation : ReservedIPAssociation) (trace : List Event) :
    Flow GoError Empty × List Event :=
  let res := env.storeGet trace.length ns reservedIPAssociation.Spec.ReservedIPName
  let trace := Event.storeGet ns reservedIPAssociation.Spec.ReservedIPName res :: trace
  match res with
  | Answer.fail err => (Flow.ret (some err), trace)
  | Answer.ok reservedIP =>
    let dropFinalizer (trace : List Event) : Flow GoError Empty × List Event :=
      let reservedIPAssociation : ReservedIPAssociation :=
        { reservedIPAssociation with
          Finalizers := removeString reservedIPAssociation.Finalizers finalizerName }
      let err := env.storeUpdateAssociation trace.length reservedIPAssociation
      (Flow.ret err, Event.storeUpdateAssociation reservedIPAssociation err :: trace)
    match reservedIP.Status.Assignment with
    | none => dropFinalizer trace
    | some statusAssignment =>
      match reservedIPAssociation.Spec.Assignment with
      | none => (Flow.panic, trace)
      | some assignment =>
        if statusAssignment.PodName == assignment.PodName then
          let reservedIP : ReservedIP :=
            { reservedIP with Spec := { reservedIP.Spec with Assignment := none } }
          let err := env.storeUpdate trace.length reservedIP
          let trace := Event.storeUpdate reservedIP err :: trace
          if err.isSome then (Flow.ret err, trace) else dropFinalizer trace
        else
          dropFinalizer trace

/-- Go `ReservedIPAssociationReconciler.Reconcile` for the request `ns/name`: how the
pass ends and the calls it made, newest first. The package constant `finalizerName` is a
parameter. -/
def ReservedIPAssociationReconciler.Reconcile (finalizerName : String) (env : Env)
    (ns name : String) : Flow GoError Empty × List Event :=
  let res := env.storeGetAssociation 0 ns name
  let trace := [Event.storeGetAssociation ns name res]
  match res with
  | Answer.fail err => (Flow.ret (ignoreNotFound (some err)), trace)
  | Answer.ok reservedIPAssociation =>
    if reservedIPAssociation.DeletionTimestampIsZero then
      if !containsString reservedIPAssociation.Finalizers finalizerName then
        ReservedIPAssociationReconciler.bind finalizerName env ns reservedIPAssociation trace
      else
        (Flow.ret none, trace)
    else
      if containsString reservedIPAssociation.Finalizers finalizerName then
        ReservedIPAssociationReconciler.unbind finalizerName env ns reservedIPAssociation trace
      else
        (Flow.ret none, trace)

/-! ## Specification vocabulary -/

/-- The state that the store holds in `status.state` after the calls of a trace (newest
first), when it held `s0` before the pass: the state of the newest status write that the
store accepted. -/
def storedState (s0 : String) : List Event → String
  | [] => s0
  | Event.storeStatusUpdate status none :: _ => status.State
  | _ :: older => storedState s0 older

/-- The edges of the state graph: the nine edges between live states, and the edge from
any state to `releasing` for an object that is being deleted. -/
def graphEdge (deleting : Bool) (s t : String) : Bool :=
  (s == "" && t == "allocating") ||
  (s == "allocating" && t == "allocated") ||
  (s == "allocated" && t == "assigning") ||
  (s == "assigning" && t == "allocated") ||
  (s == "assigning" && t == "assigned") ||
  (s == "assigned" && t == "reassigning") ||
  (s == "reassigning" && t == "assigned") ||
  (s == "assigned" && t == "unassigning") ||
  (s == "unassigning" && t == "allocated") ||
  (deleting && t == "releasing")

/-- Every status write of the trace, accepted by the store or not, carries the state the
store holds at that moment or a state one edge away from it. -/
def writesFollowGraph (deleting : Bool) (s0 : String) : List Event → Prop
  | [] => True
  | Event.storeStatusUpdate status _ :: older =>
      (status.State = storedState s0 older ∨
        graphEdge deleting (storedState s0 older) status.State = true) ∧
      writesFollowGraph deleting s0 older
  | _ :: older => writesFollowGraph deleting s0 older

/-- The calls that only look something up: pod, subnets, private addresses. -/
def Event.isLookup : Event → Bool
  | Event.storeGetPod _ _ _ => true
  | Event.listSubnets _ _ _ => true
  | Event.listPrivateIps _ _ _ => true
  | _ => false

/-- From a run state that satisfies `pre`, the code ends in a flow and a run state that
satisfy `post`. -/
def Pass.sat {ρ α : Type} (m : Pass ρ α) (pre : Run → Prop)
    (post : Flow ρ α → Run → Prop) : Prop :=
  ∀ s, pre s → post (m s).1 (m s).2

/-- The writes so far follow the graph and the state in memory is the state the store
holds. -/
def Inv (deleting : Bool) (s0 : String) (s : Run) : Prop :=
  writesFollowGraph deleting s0 s.trace ∧ storedState s0 s.trace = s.obj.Status.State

/-- Postcondition of a piece of code of the reserved-address reconciler: `Inv` and `N`
when it falls through, `Inv` and `R` when it returns nil, and the writes follow the graph
when it returns an error or panics. -/
def Keeps (deleting : Bool) (s0 : String) (N R : Run → Prop) {α : Type} :
    Flow GoError α → Run → Prop
  | Flow.next _ => fun s => Inv deleting s0 s ∧ N s
  | Flow.ret none => fun s => Inv deleting s0 s ∧ R s
  | _ => fun s => writesFollowGraph deleting s0 s.trace

/-- The run state `s1` is reached from `s` by lookups only: the object in memory is the
same and the trace grew by lookup calls. -/
def Run.lookupsFrom (s s1 : Run) : Prop :=
  s1.obj = s.obj ∧
    ∃ evs : List Event, s1.trace = evs ++ s.trace ∧ ∀ e ∈ evs, e.isLookup = true

/-- The object is in a state from which `assignReservedIP` is called. -/
def Run.assignable (s : Run) : Prop :=
  s.obj.Status.State = "assigning" ∨ s.obj.Status.State = "reassigning"


/-- An environment in which every call succeeds: one subnet that contains every address
and lists one private address `ocid.privateip`, no public address bound to it, pods at
`10.0.0.7`, and a created or fetched public address `ocid.publicip.R`. -/
def Env.allOk : Env where
  storeGet := fun _ _ _ => Answer.ok {}
  storeGetPod := fun _ _ _ => Answer.ok "10.0.0.7"
  storeUpdate := fun _ _ => none
  storeGetAssociation := fun _ _ _ => Answer.ok {}
  storeUpdateAssociation := fun _ _ => none
  storeStatusUpdate := fun _ _ => none
  createPublicIp := fun _ _ => Answer.ok { Id := "ocid.publicip.R", IpAddress := "192.0.2.1" }
  getPublicIp := fun _ _ => Answer.ok { Id := "ocid.publicip.R", IpAddress := "192.0.2.1" }
  updatePublicIp := fun _ _ => none
  deletePublicIp := fun _ _ => none
  getPublicIpByPrivateIpId := fun _ _ => Answer.fail { msg := "NotAuthorizedOrNotFound" }
  listSubnets := fun _ _ _ => Answer.ok [{ Id := "ocid.subnet", CidrBlock := "10.0.0.0/24" }]
  listPrivateIps := fun _ _ _ => Answer.ok [{ Id := "ocid.privateip" }]
  cidrContains := fun _ _ => Answer.ok true

/-- A reconciler configuration with finalizer name `fin`. -/
def exampleReconciler : ReservedIPReconciler := { finalizerName := "fin" }

/-- A run that starts on an object in state `assigning` whose spec names the pod `w1`. -/
def exampleAssigning : Run :=
  { obj :=
      { Namespace := "default", Name := "ip-a", UID := "uid-1", Finalizers := ["fin"]
        Spec := { Assignment := some { PodName := "w1" } }
        Status := { State := "assigning", OCID := "ocid.publicip.R",
                    PublicIPAddress := "192.0.2.1" } } }

/-- The world after `ocid.publicip.R` was bound to the private address: the lookup by
private address answers with that reserved address. -/
def Env.ownBound : Env :=
  { Env.allOk with
    getPublicIpByPrivateIpId := fun _ _ =>
      Answer.ok { Id := "ocid.publicip.R", IpAddress := "192.0.2.1",
                  Lifetime := Lifetime.Reserved, AssignedEntityId := some "ocid.privateip" } }

/-- The world in which the private address holds the ephemeral public address
`ocid.publicip.E`. -/
def Env.ephemeralBound : Env :=
  { Env.allOk with
    getPublicIpByPrivateIpId := fun _ _ =>
      Answer.ok { Id := "ocid.publicip.E", IpAddress := "192.0.2.9",
                  Lifetime := Lifetime.Ephemeral, AssignedEntityId := some "ocid.privateip" } }

/-- The object of `exampleAssigning` as `handleRequest` hands it to `unassignReservedIP`
in a later pass, after an assign that evicted an ephemeral address and after the
assignment was removed from the spec. -/
def exampleEvicted : ReservedIP :=
  { Namespace := "default", Name := "ip-a", UID := "uid-1", Finalizers := ["fin"]
    Spec := {}
    Status := { State := "unassigning", OCID := "ocid.publicip.R",
                PublicIPAddress := "192.0.2.1"
                Assignment := some { PodName := "w1", PrivateIPAddress := "10.0.0.7" }
                PrivateIPAddressID := "ocid.privateip"
                EphemeralIPWasUnassigned := true } }

/-- An error named by `NotAuthorizedOrNotFound` or no error at all. -/
def goneOrDeleted (derr : GoError) : Prop :=
  derr = none ∨ ∃ e, derr = some e ∧ stringsContains e.msg "NotAuthorizedOrNotFound" = true

/-- What the deletion branch promises about the release of the address `ocid` of an object
with eviction flag `flag` and finalizers `finalizers`: `started` (the pass gets as far as the
release) gives the delete call; a delete that succeeded or found nothing, with the ephemeral
address restored when the flag is set, gives the store update that drops the finalizer, whose
error is returned; a delete that failed otherwise gives that error and no store update; and a
store update is only made after a delete that succeeded or found nothing. -/
def ReleaseSpec (r : ReservedIPReconciler) (env : Env) (ocid : String) (flag : Bool)
    (finalizers : List String) (started : Prop) {α : Type} (res : Flow GoError α × Run) : Prop :=
  (started → ∃ derr, Event.deletePublicIp ocid derr ∈ res.2.trace) ∧
    (∀ derr, Event.deletePublicIp ocid derr ∈ res.2.trace → goneOrDeleted derr →
      (flag = true →
        (∀ n req, ∃ a, env.createPublicIp n req = Answer.ok a) ∧
        (∀ n o, env.storeStatusUpdate n o = none)) →
      ∃ finalObj uerr, Event.storeUpdate finalObj uerr ∈ res.2.trace ∧
        finalObj.Finalizers = removeString finalizers r.finalizerName ∧
        res.1 = Flow.ret uerr) ∧
    (∀ e, Event.deletePublicIp ocid (some e) ∈ res.2.trace →
      stringsContains e.msg "NotAuthorizedOrNotFound" = false →
      res.1 = Flow.ret (some e) ∧ ∀ o uerr, Event.storeUpdate o uerr ∉ res.2.trace) ∧
    (∀ o uerr, Event.storeUpdate o uerr ∈ res.2.trace →
      ∃ derr, Event.deletePublicIp ocid derr ∈ res.2.trace ∧ goneOrDeleted derr)

/-- An object that is being deleted: it carries the finalizer, it is assigned and its
address is `ocid.publicip.R`. -/
def exampleDeleting : ReservedIP :=
  { Namespace := "default", Name := "ip-a", UID := "uid-1", DeletionTimestampIsZero := false
    Finalizers := ["fin"]
    Status := { State := "assigned", OCID := "ocid.publicip.R", PublicIPAddress := "192.0.2.1"
                Assignment := some { PodName := "w1", PrivateIPAddress := "10.0.0.7" }
                PrivateIPAddressID := "ocid.privateip" } }

/-- The world in which the store refuses every status write with a conflict. -/
def Env.statusRefused : Env :=
  { Env.allOk with storeStatusUpdate := fun _ _ => some { msg := "Conflict" } }

/-- A run that starts on an object in state `allocating` with no OCID. -/
def exampleAllocating : Run :=
  { obj :=
      { Namespace := "default", Name := "ip-a", UID := "uid-1", Finalizers := ["fin"]
        Status := { State := "allocating" } } }

/-- The run of `exampleAllocating` after a crash: the object is fetched again, still in
state `allocating` with no OCID, and meanwhile its spec asks for tags and a pool. -/
def exampleAllocatingAgain : Run :=
  { obj :=
      { Namespace := "default", Name := "ip-a", UID := "uid-1", Finalizers := ["fin"]
        Spec := { Tags := some (some [("team", "net")]), PublicIPPoolID := "ocid.pool" }
        Status := { State := "allocating" } } }

/-- The calls that bind or detach a public address (an update that sets `PrivateIpId`) or
delete one. -/
def Event.isBindDetachOrDelete : Event → Bool
  | Event.updatePublicIp req _ => req.PrivateIpId.isSome
  | Event.deletePublicIp _ _ => true
  | _ => false

/-- The conclusion of the theorem on invalid descriptors, for a run result. -/
def InvalidSpec (r : ReservedIPReconciler) (env : Env) (reservedIP : ReservedIP)
    (a : ReservedIPAssignment) (res : Flow GoError Empty × Run) : Prop :=
  (∀ e ∈ res.2.trace, e.isBindDetachOrDelete = false) ∧
    (∀ st err, Event.storeStatusUpdate st err ∉ res.2.trace) ∧
    res.2.obj.Status = reservedIP.Status ∧
    (containsString reservedIP.Finalizers r.finalizerName = true →
      (∃ addr, env.getPublicIp 0 reservedIP.Status.OCID = Answer.ok addr) →
      (∀ n req, env.updatePublicIp n req = none) →
      (a.PodName ≠ "" → res.1 = Flow.ret (some validationError)) ∧
      (a.PodName = "" → res.1 = Flow.ret none))

/-- An object in state `assigning` whose spec descriptor has both selectors set. -/
def exampleBothSelectors : ReservedIP :=
  { Namespace := "default", Name := "ip-a", UID := "uid-1", Finalizers := ["fin"]
    Spec := { Assignment := some { PodName := "w1", PrivateIPAddress := "10.0.0.7" } }
    Status := { State := "assigning", OCID := "ocid.publicip.R",
                PublicIPAddress := "192.0.2.1" } }

/-- An object in state `assigning` whose spec descriptor has neither selector set. -/
def exampleNoSelector : ReservedIP :=
  { Namespace := "default", Name := "ip-a", UID := "uid-1", Finalizers := ["fin"]
    Spec := { Assignment := some { PodName := "", PrivateIPAddress := "" } }
    Status := { State := "assigning", OCID := "ocid.publicip.R",
                PublicIPAddress := "192.0.2.1" } }

/-- A live association without finalizer that asks to bind `ip-a` to pod `w1`. -/
def exampleAssociation : ReservedIPAssociation :=
  { Namespace := "default", Name := "assoc-a"
    Spec := { ReservedIPName := "ip-a", Assignment := some { PodName := "w1" } } }

/-- An allocated reserved address with the finalizer and no assignment. -/
def exampleAllocated : ReservedIP :=
  { Namespace := "default", Name := "ip-a", UID := "uid-1", Finalizers := ["fin"]
    Status := { State := "allocated", OCID := "ocid.publicip.R",
                PublicIPAddress := "192.0.2.1" } }

/-- The world that holds `exampleAssociation` and `exampleAllocated` and accepts every
write. -/
def Env.binding : Env :=
  { Env.allOk with
    storeGetAssociation := fun _ _ _ => Answer.ok exampleAssociation
    storeGet := fun _ _ _ => Answer.ok exampleAllocated }

/-- The world of `Env.binding` in which the store refuses the update of the reserved
address. -/
def Env.bindingRefused : Env :=
  { Env.binding with storeUpdate := fun _ _ => some { msg := "Conflict" } }

/-- An association that is being deleted, carries the finalizer, and asked to bind `ip-a`
to the private address `10.0.0.5`. -/
def exampleAddressAssociation : ReservedIPAssociation :=
  { Namespace := "default", Name := "assoc-b", DeletionTimestampIsZero := false
    Finalizers := ["fin"]
    Spec := { ReservedIPName := "ip-a", Assignment := some { PrivateIPAddress := "10.0.0.5" } } }

/-- A reserved address that has since been assigned to another private address,
`10.0.0.9`. -/
def exampleReassigned : ReservedIP :=
  { Namespace := "default", Name := "ip-a", UID := "uid-1", Finalizers := ["fin"]
    Spec := { Assignment := some { PrivateIPAddress := "10.0.0.9" } }
    Status := { State := "assigned", OCID := "ocid.publicip.R", PublicIPAddress := "192.0.2.1"
                Assignment := some { PrivateIPAddress := "10.0.0.9" }
                PrivateIPAddressID := "ocid.privateip.9" } }

/-- The world that holds `exampleAddressAssociation` and `exampleReassigned` and accepts
every write. -/
def Env.unbinding : Env :=
  { Env.allOk with
    storeGetAssociation := fun _ _ _ => Answer.ok exampleAddressAssociation
    storeGet := fun _ _ _ => Answer.ok exampleReassigned }

/-- The error of a store lookup that finds no object under the name. -/
def storeNotFound : GoErr :=
  { msg := "reservedips.oci.k8s.logmein.com ip-a not found", apiNotFound := true }

/-- The world that holds `exampleAddressAssociation` after the reserved address `ip-a` was
deleted: the lookup of `ip-a` reports not found. -/
def Env.targetGone : Env :=
  { Env.allOk with
    storeGetAssociation := fun _ _ _ => Answer.ok exampleAddressAssociation
    storeGet := fun _ _ _ => Answer.fail storeNotFound }

/-- An association that is being deleted, carries the finalizer, and asked to bind `ip-a`
to the pod `w1`. -/
def examplePodAssociation : ReservedIPAssociation :=
  { Namespace := "default", Name := "assoc-c", DeletionTimestampIsZero := false
    Finalizers := ["fin"]
    Spec := { ReservedIPName := "ip-a", Assignment := some { PodName := "w1" } } }

/-- A reserved address that has since been assigned to another pod, `w2`. -/
def exampleOtherPod : ReservedIP :=
  { Namespace := "default", Name := "ip-a", UID := "uid-1", Finalizers := ["fin"]
    Spec := { Assignment := some { PodName := "w2" } }
    Status := { State := "assigned", OCID := "ocid.publicip.R", PublicIPAddress := "192.0.2.1"
                Assignment := some { PodName := "w2", PrivateIPAddress := "10.0.0.8" }
                PrivateIPAddressID := "ocid.privateip.8" } }

/-- The world that holds `examplePodAssociation` and `exampleOtherPod` and accepts every
write. -/
def Env.otherPod : Env :=
  { Env.allOk with
    storeGetAssociation := fun _ _ _ => Answer.ok examplePodAssociation
    storeGet := fun _ _ _ => Answer.ok exampleOtherPod }

/-- The error with which the cloud reports that a public address does not exist. -/
def cloudNotFound : GoErr :=
  { msg := "Service error:NotAuthorizedOrNotFound. resource not found. http status code: 404" }

/-- The world that holds `exampleAllocated` after its cloud address was released behind
the back of the operator: `GetPublicIp` reports not found. -/
def Env.addressGone : Env :=
  { Env.allOk with
    storeGet := fun _ _ _ => Answer.ok exampleAllocated
    getPublicIp := fun _ _ => Answer.fail cloudNotFound }

/-- The tag set that a Go map holds: the value at each key. A nil map holds no tag. -/
def tagSet : GoMap → String → Option String
  | none, _ => none
  | some kvs, k => mapLookup k kvs

/-- The tag set that the spec of an object asks for, an absent tag set counting as the
empty set. -/
def specTagSet (reservedIP : ReservedIP) : String → Option String :=
  match reservedIP.Spec.Tags with
  | none => fun _ => none
  | some tags => tagSet tags

/-- An allocated reserved address whose spec has no tag set. -/
def exampleUntagged : Run := { obj := exampleAllocated }

/-- An allocated reserved address whose spec asks for the empty tag set. -/
def exampleEmptyTags : Run :=
  { obj := { exampleAllocated with Spec := { Tags := some (some []) } } }

/-- An allocated reserved address whose spec asks for the tag `team=net`. -/
def exampleTagged : Run :=
  { obj := { exampleAllocated with Spec := { Tags := some (some [("team", "net")]) } } }

/-- The property of a status that the `assigned` branch of `handleRequest` relies on: in
state `assigned` the realized assignment is present. -/
def AssignedHasAssignment (st : ReservedIPStatus) : Prop :=
  st.State = "assigned" → st.Assignment.isSome = true

/-- The statuses that the store can come to hold through the reserved-address reconciler:
the status of a new object, and every status that a pass of `handleRequest` writes and the
store accepts, when the pass runs on an object that holds a reachable status, with any
spec and metadata, under any answers of the outside world. -/
inductive ReachableStatus (r : ReservedIPReconciler) : ReservedIPStatus → Prop where
  | init : ReachableStatus r {}
  | write (env : Env) (reservedIP : ReservedIP) (status : ReservedIPStatus)
      (before : ReachableStatus r reservedIP.Status)
      (accepted : Event.storeStatusUpdate status none ∈
        (runHandleRequest r env reservedIP).2.trace) :
      ReachableStatus r status

/-- The status in memory and every status written so far have the realized assignment
present when their state is `assigned`. -/
def Run.sound (s : Run) : Prop :=
  AssignedHasAssignment s.obj.Status ∧
    ∀ st err, Event.storeStatusUpdate st err ∈ s.trace → AssignedHasAssignment st

/-- Postcondition of a piece of code: it did not panic, and the run state is sound. -/
def Sound {ρ α : Type} (fl : Flow ρ α) (s : Run) : Prop :=
  fl ≠ Flow.panic ∧ s.sound

/-- A new object with the finalizer and no spec assignment. -/
def exampleNew : ReservedIP :=
  { Namespace := "default", Name := "ip-a", UID := "uid-1", Finalizers := ["fin"] }

/-- The object of `exampleNew` after its allocation, with a spec that names the pod
`w1`. -/
def exampleAllocatedForPod : ReservedIP :=
  { exampleNew with
    Spec := { Assignment := some { PodName := "w1" } }
    Status := { State := "allocated", OCID := "ocid.publicip.R",
                PublicIPAddress := "192.0.2.1" } }

/-- The status of `exampleAllocatedForPod` after its assignment to the pod `w1`. -/
def exampleAssignedStatus : ReservedIPStatus :=
  { State := "assigned", OCID := "ocid.publicip.R", PublicIPAddress := "192.0.2.1"
    Assignment := some { PodName := "w1", PrivateIPAddress := "10.0.0.7" }
    PrivateIPAddressID := "ocid.privateip" }

/-- The scan of the subnets passes over the subnet `x` for the address `privateIP`: its
block does not contain the address, or it contains it and the subnet lists a number of
private addresses other than one. -/
def Env.passesOver (env : Env) (privateIP : String) (x : Subnet) : Prop :=
  env.cidrContains x.CidrBlock privateIP = Answer.ok false ∨
    (env.cidrContains x.CidrBlock privateIP = Answer.ok true ∧
      ∀ n, ∃ items, env.listPrivateIps n privateIP x.Id = Answer.ok items ∧ items.length ≠ 1)

/-- The world in which every call answers without error and the subnet lists no private
address object for the address of the pod. -/
def Env.notListed : Env :=
  { Env.allOk with listPrivateIps := fun _ _ _ => Answer.ok [] }

/-- A cloud whose create is idempotent per retry token and not otherwise: a create with a
token is answered with the address the token names, a create without a token with an
address that depends on the private address it is for. -/
def Env.idempotent : Env :=
  { Env.allOk with
    createPublicIp := fun _ req =>
      match req.OpcRetryToken with
      | some token => Answer.ok { Id := "ocid.publicip." ++ token, IpAddress := "192.0.2.1" }
      | none =>
        Answer.ok { Id := "ocid.ephemeral." ++ req.PrivateIpId.getD "", IpAddress := "192.0.2.9" } }

/-! ## Symbolic execution -/

@[simp] theorem bind_eq {ρ α β : Type} (m : Pass ρ α) (f : α → Pass ρ β) :
    (m >>= f) = Pass.bind m f := rfl

@[simp] theorem Pass.bind_apply {ρ α β : Type} (m : Pass ρ α) (f : α → Pass ρ β) (s : Run) :
    Pass.bind m f s =
      match m s with
      | (Flow.next a, s1) => f a s1
      | (Flow.ret r, s1) => (Flow.ret r, s1)
      | (Flow.panic, s1) => (Flow.panic, s1) := rfl

@[simp] theorem Pass.pure_apply {ρ α : Type} (a : α) (s : Run) :
    (Pass.pure a : Pass ρ α) s = (Flow.next a, s) := rfl

@[simp] theorem pure_eq {ρ α : Type} (a : α) : (pure a : Pass ρ α) = Pass.pure a := rfl

@[simp] theorem ret_apply {ρ α : Type} (r : ρ) (s : Run) :
    (ret r : Pass ρ α) s = (Flow.ret r, s) := rfl

@[simp] theorem nilDeref_apply {ρ α : Type} (s : Run) :
    (nilDeref : Pass ρ α) s = (Flow.panic, s) := rfl

@[simp] theorem getObj_apply {ρ : Type} (s : Run) :
    (getObj : Pass ρ ReservedIP) s = (Flow.next s.obj, s) := rfl

@[simp] theorem modifyObj_apply {ρ : Type} (f : ReservedIP → ReservedIP) (s : Run) :
    (modifyObj f : Pass ρ Unit) s = (Flow.next (), { s with obj := f s.obj }) := rfl

@[simp] theorem modifyStatus_apply {ρ : Type} (f : ReservedIPStatus → ReservedIPStatus) (s : Run) :
    (modifyStatus f : Pass ρ Unit) s =
      (Flow.next (), { s with obj := { s.obj with Status := f s.obj.Status } }) := rfl

@[simp] theorem goIf_apply {ρ : Type} (c : Bool) (body : Pass ρ Unit) (s : Run) :
    goIf c body s = if c then body s else (Flow.next (), s) := by
  cases c <;> rfl

@[simp] theorem returnIfErr_apply (err : GoError) (s : Run) :
    returnIfErr err s =
      match err with
      | some e => (Flow.ret (some e), s)
      | none => (Flow.next (), s) := by
  cases err <;> rfl

@[simp] theorem statusUpdate_apply {ρ : Type} (env : Env) (s : Run) :
    (statusUpdate env : Pass ρ GoError) s =
      (Flow.next (env.storeStatusUpdate s.trace.length s.obj),
        { s with trace := Event.storeStatusUpdate s.obj.Status (env.storeStatusUpdate s.trace.length s.obj) :: s.trace }) := rfl

@[simp] theorem storeUpdate_apply {ρ : Type} (env : Env) (s : Run) :
    (storeUpdate env : Pass ρ GoError) s =
      (Flow.next (env.storeUpdate s.trace.length s.obj),
        { s with trace := Event.storeUpdate s.obj (env.storeUpdate s.trace.length s.obj) :: s.trace }) := rfl

@[simp] theorem recorderEvent_apply {ρ : Type} (t rs m : String) (s : Run) :
    (recorderEvent t rs m : Pass ρ Unit) s =
      (Flow.next (), { s with trace := Event.recorderEvent t rs m :: s.trace }) := rfl

@[simp] theorem storeGetPod_apply {ρ : Type} (env : Env) (ns name : String) (s : Run) :
    (storeGetPod env ns name : Pass ρ (Answer String)) s =
      (Flow.next (env.storeGetPod s.trace.length ns name),
        { s with trace := Event.storeGetPod ns name (env.storeGetPod s.trace.length ns name) :: s.trace }) := rfl

@[simp] theorem vncCreatePublicIp_apply {ρ : Type} (env : Env) (req : CreatePublicIpRequest)
    (s : Run) :
    (vncCreatePublicIp env req : Pass ρ (Answer PublicIp)) s =
      (Flow.next (env.createPublicIp s.trace.length req),
        { s with trace := Event.createPublicIp req (env.createPublicIp s.trace.length req) :: s.trace }) := rfl

@[simp] theorem vncGetPublicIp_apply {ρ : Type} (env : Env) (id : String) (s : Run) :
    (vncGetPublicIp env id : Pass ρ (Answer PublicIp)) s =
      (Flow.next (env.getPublicIp s.trace.length id),
        { s with trace := Event.getPublicIp id (env.getPublicIp s.trace.length id) :: s.trace }) :=
  rfl

@[simp] theorem vncUpdatePublicIp_apply {ρ : Type} (env : Env) (req : UpdatePublicIpRequest)
    (s : Run) :
    (vncUpdatePublicIp env req : Pass ρ GoError) s =
      (Flow.next (env.updatePublicIp s.trace.length req),
        { s with trace := Event.updatePublicIp req (env.updatePublicIp s.trace.length req) :: s.trace }) := rfl

@[simp] theorem vncDeletePublicIp_apply {ρ : Type} (env : Env) (id : String) (s : Run) :
    (vncDeletePublicIp env id : Pass ρ GoError) s =
      (Flow.next (env.deletePublicIp s.trace.length id),
        { s with trace := Event.deletePublicIp id (env.deletePublicIp s.trace.length id) :: s.trace }) := rfl

@[simp] theorem vncGetPublicIpByPrivateIpId_apply {ρ : Type} (env : Env) (id : String)
    (s : Run) :
    (vncGetPublicIpByPrivateIpId env id : Pass ρ (Answer PublicIp × StrAddr)) s =
      (Flow.next (env.getPublicIpByPrivateIpId s.trace.length id,
          StrAddr.response s.trace.length),
        { s with trace := Event.getPublicIpByPrivateIpId id (env.getPublicIpByPrivateIpId s.trace.length id) :: s.trace }) := rfl

@[simp] theorem vncListSubnets_apply {ρ : Type} (env : Env) (c v : String) (s : Run) :
    (vncListSubnets env c v : Pass ρ (Answer (List Subnet))) s =
      (Flow.next (env.listSubnets s.trace.length c v),
        { s with trace := Event.listSubnets c v (env.listSubnets s.trace.length c v) :: s.trace }) :=
  rfl

@[simp] theorem vncListPrivateIps_apply {ρ : Type} (env : Env) (ip sn : String) (s : Run) :
    (vncListPrivateIps env ip sn : Pass ρ (Answer (List PrivateIp))) s =
      (Flow.next (env.listPrivateIps s.trace.length ip sn),
        { s with trace := Event.listPrivateIps ip sn (env.listPrivateIps s.trace.length ip sn) :: s.trace }) := rfl

@[simp] theorem call_apply {ρ σ : Type} (body : Pass ρ Empty) (s : Run) :
    (call body : Pass σ ρ) s =
      match body s with
      | (Flow.next e, _) => nomatch e
      | (Flow.ret r, s1) => (Flow.next r, s1)
      | (Flow.panic, s1) => (Flow.panic, s1) := rfl


/-! ## The match rule -/

/-- C7. `r.MatchesSpec spec` holds exactly when `spec` names a pod and the pod names are
equal, or `spec` names no pod and the private addresses are equal; and a descriptor with
only a non-empty pod name never matches a descriptor with only a non-empty private
address, whichever of the two is the receiver. -/
theorem matchesSpec_rule (r spec : ReservedIPAssignment) (p a : String)
    (hp : p ≠ "") (ha : a ≠ "") :
    (r.MatchesSpec spec = true ↔
      (spec.PodName ≠ "" ∧ spec.PodName = r.PodName) ∨
      (spec.PodName = "" ∧ spec.PrivateIPAddress = r.PrivateIPAddress)) ∧
    ReservedIPAssignment.MatchesSpec { PodName := p } { PrivateIPAddress := a } = false ∧
    ReservedIPAssignment.MatchesSpec { PrivateIPAddress := a } { PodName := p } = false := by
  refine ⟨?_, ?_, ?_⟩
  · unfold ReservedIPAssignment.MatchesSpec
    by_cases h : spec.PodName = "" <;> simp [h]
  · simp [ReservedIPAssignment.MatchesSpec, ha]
  · simp [ReservedIPAssignment.MatchesSpec, hp]

/-- Witness for C7 at the descriptors of the spec example: pod `pod-a`, address
`10.0.0.5`. -/
theorem matchesSpec_rule_witness :
    ((ReservedIPAssignment.MatchesSpec { PodName := "pod-a", PrivateIPAddress := "10.0.0.5" }
        { PodName := "pod-a" } = true ↔
      (("pod-a" : String) ≠ "" ∧ ("pod-a" : String) = "pod-a") ∨
      (("pod-a" : String) = "" ∧ ("" : String) = "10.0.0.5")) ∧
    ReservedIPAssignment.MatchesSpec { PodName := "pod-a" } { PrivateIPAddress := "10.0.0.5" }
      = false ∧
    ReservedIPAssignment.MatchesSpec { PrivateIPAddress := "10.0.0.5" } { PodName := "pod-a" }
      = false) :=
  matchesSpec_rule { PodName := "pod-a", PrivateIPAddress := "10.0.0.5" } { PodName := "pod-a" }
    "pod-a" "10.0.0.5" (by decide) (by decide)

/-! ## Composition rules -/

theorem Pass.sat_bind {ρ α β : Type} {m : Pass ρ α} {f : α → Pass ρ β}
    {pre : Run → Prop} {mid : Flow ρ α → Run → Prop} {post : Flow ρ β → Run → Prop}
    (hm : m.sat pre mid)
    (hf : ∀ a, (f a).sat (mid (Flow.next a)) post)
    (hret : ∀ r s, mid (Flow.ret r) s → post (Flow.ret r) s)
    (hpanic : ∀ s, mid Flow.panic s → post Flow.panic s) :
    (Pass.bind m f).sat pre post := by
  intro s hs
  have h := hm s hs
  unfold Pass.bind
  rcases hms : m s with ⟨fl, s1⟩
  rw [hms] at h
  cases fl with
  | next a => exact hf a s1 h
  | ret r => exact hret r s1 h
  | panic => exact hpanic s1 h

theorem Pass.sat_getObj_bind {ρ β : Type} {f : ReservedIP → Pass ρ β}
    {pre : Run → Prop} {post : Flow ρ β → Run → Prop}
    (hf : ∀ o, (f o).sat (fun s => pre s ∧ s.obj = o) post) :
    (Pass.bind getObj f).sat pre post := by
  intro s hs
  exact hf s.obj s ⟨hs, rfl⟩

theorem Pass.sat_weaken {ρ α : Type} {m : Pass ρ α} {pre pre2 : Run → Prop}
    {post : Flow ρ α → Run → Prop} (hm : m.sat pre post) (h : ∀ s, pre2 s → pre s) :
    m.sat pre2 post :=
  fun s hs => hm s (h s hs)

theorem keeps_bind {α β : Type} {d : Bool} {s0 : String} {N N2 R : Run → Prop}
    {m : Pass GoError α} {f : α → Pass GoError β} {pre : Run → Prop}
    (hm : m.sat pre (Keeps d s0 N R))
    (hf : ∀ a, (f a).sat (fun s => Inv d s0 s ∧ N s) (Keeps d s0 N2 R)) :
    (Pass.bind m f).sat pre (Keeps d s0 N2 R) := by
  refine Pass.sat_bind hm hf ?_ ?_
  · intro r s h
    cases r <;> exact h
  · intro s h
    exact h

theorem keeps_goIf {d : Bool} {s0 : String} {N R : Run → Prop} {c : Bool}
    {body : Pass GoError Unit} {pre : Run → Prop}
    (hbody : c = true → body.sat pre (Keeps d s0 N R))
    (hskip : c = false → ∀ s, pre s → Inv d s0 s ∧ N s) :
    (goIf c body).sat pre (Keeps d s0 N R) := by
  intro s hs
  cases c with
  | true => exact hbody rfl s hs
  | false => exact hskip rfl s hs

theorem keeps_call {α : Type} {d : Bool} {s0 : String} {N R M B : Run → Prop}
    {body : Pass GoError Empty} {f : GoError → Pass GoError α} {pre : Run → Prop}
    (hbody : body.sat pre (Keeps d s0 M B))
    (hnil : (f none).sat (fun s => Inv d s0 s ∧ B s) (Keeps d s0 N R))
    (herr : ∀ e s, (f (some e) s).1 = Flow.ret (some e) ∧ (f (some e) s).2 = s) :
    (Pass.bind (call body) f).sat pre (Keeps d s0 N R) := by
  intro s hs
  have h := hbody s hs
  simp only [Pass.bind_apply, call_apply]
  rcases hb : body s with ⟨fl, s1⟩
  rw [hb] at h
  cases fl with
  | next e => exact nomatch e
  | ret err =>
    cases err with
    | none => exact hnil s1 h
    | some e =>
      obtain ⟨h1, h2⟩ := herr e s1
      show Keeps d s0 N R (f (some e) s1).1 (f (some e) s1).2
      rw [h1, h2]
      exact h
  | panic => exact h

theorem keeps_call_returnIfErr {α : Type} {d : Bool} {s0 : String} {N R M B : Run → Prop}
    {body : Pass GoError Empty} {f : Unit → Pass GoError α} {pre : Run → Prop}
    (hbody : body.sat pre (Keeps d s0 M B))
    (hf : ∀ u, (f u).sat (fun s => Inv d s0 s ∧ B s) (Keeps d s0 N R)) :
    (Pass.bind (call body) (fun err => Pass.bind (returnIfErr err) f)).sat pre
      (Keeps d s0 N R) := by
  refine keeps_call hbody ?_ ?_
  · intro s hs
    exact hf () s hs
  · intro e s
    exact ⟨rfl, rfl⟩

theorem keeps_call_ret {α : Type} {d : Bool} {s0 : String} {N R M : Run → Prop}
    {body : Pass GoError Empty} {pre : Run → Prop}
    (hbody : body.sat pre (Keeps d s0 M R)) :
    (Pass.bind (call body) (fun err => (ret err : Pass GoError α))).sat pre
      (Keeps d s0 N R) := by
  refine keeps_call hbody ?_ ?_
  · intro s hs
    exact hs
  · intro e s
    exact ⟨rfl, rfl⟩

/-- A write of the status after an assignment to `Status` that keeps the state or moves
it along an edge. -/
theorem keeps_write {α : Type} {d : Bool} {s0 : String} {N R : Run → Prop} (env : Env)
    {g : ReservedIPStatus → ReservedIPStatus} {f : Unit → Pass GoError α} {pre : Run → Prop}
    (hpre : ∀ s, pre s → Inv d s0 s ∧
      ((g s.obj.Status).State = s.obj.Status.State ∨
        graphEdge d s.obj.Status.State (g s.obj.Status).State = true))
    (hf : ∀ u, (f u).sat
      (fun s1 => Inv d s0 s1 ∧ ∃ s, pre s ∧ s1.obj = { s.obj with Status := g s.obj.Status })
      (Keeps d s0 N R)) :
    (Pass.bind (modifyStatus g) (fun _ => Pass.bind (statusUpdate env)
      (fun err => Pass.bind (returnIfErr err) f))).sat pre (Keeps d s0 N R) := by
  intro s hs
  obtain ⟨⟨h1, h2⟩, h3⟩ := hpre s hs
  simp
  generalize env.storeStatusUpdate _ _ = ans
  cases ans with
  | some e =>
    simp
    show writesFollowGraph d s0 (_ :: s.trace)
    simp [writesFollowGraph, h1, h2, h3]
  | none =>
    simp
    apply hf ()
    refine ⟨?_, s, hs, rfl⟩
    simp [Inv, writesFollowGraph, storedState, h1, h2, h3]

/-- A call that is not a status write, followed by the check of its error. -/
theorem keeps_event_returnIfErr {α : Type} {d : Bool} {s0 : String} {N R : Run → Prop}
    {m : Pass GoError GoError} {f : Unit → Pass GoError α} {pre : Run → Prop}
    (hm : ∀ s, ∃ e err, m s = (Flow.next err, { s with trace := e :: s.trace }) ∧
      storedState s0 (e :: s.trace) = storedState s0 s.trace ∧
      (writesFollowGraph d s0 s.trace → writesFollowGraph d s0 (e :: s.trace)))
    (hpre : ∀ s, pre s → Inv d s0 s)
    (hf : ∀ u, (f u).sat
      (fun s1 => Inv d s0 s1 ∧ ∃ s, pre s ∧ s1.obj = s.obj) (Keeps d s0 N R)) :
    (Pass.bind m (fun err => Pass.bind (returnIfErr err) f)).sat pre (Keeps d s0 N R) := by
  intro s hs
  obtain ⟨e, err, hms, hst, hw⟩ := hm s
  obtain ⟨h1, h2⟩ := hpre s hs
  simp only [Pass.bind_apply, hms]
  cases err with
  | some e2 =>
    simp
    exact hw h1
  | none =>
    simp
    apply hf ()
    exact ⟨⟨hw h1, by rw [hst]; exact h2⟩, s, hs, rfl⟩

theorem vncUpdatePublicIp_event (env : Env) (req : UpdatePublicIpRequest) (d : Bool)
    (s0 : String) (s : Run) :
    ∃ e err, (vncUpdatePublicIp env req : Pass GoError GoError) s =
        (Flow.next err, { s with trace := e :: s.trace }) ∧
      storedState s0 (e :: s.trace) = storedState s0 s.trace ∧
      (writesFollowGraph d s0 s.trace → writesFollowGraph d s0 (e :: s.trace)) :=
  ⟨_, _, rfl, rfl, id⟩

theorem vncDeletePublicIp_event (env : Env) (id : String) (d : Bool)
    (s0 : String) (s : Run) :
    ∃ e err, (vncDeletePublicIp env id : Pass GoError GoError) s =
        (Flow.next err, { s with trace := e :: s.trace }) ∧
      storedState s0 (e :: s.trace) = storedState s0 s.trace ∧
      (writesFollowGraph d s0 s.trace → writesFollowGraph d s0 (e :: s.trace)) :=
  ⟨_, _, rfl, rfl, fun h => h⟩

/-! ## Lookups -/

theorem Run.lookupsFrom_refl (s : Run) : s.lookupsFrom s :=
  ⟨rfl, [], rfl, by simp⟩

theorem Run.lookupsFrom_cons {s s1 : Run} (e : Event) (he : e.isLookup = true)
    (h : Run.lookupsFrom { s with trace := e :: s.trace } s1) : s.lookupsFrom s1 := by
  obtain ⟨ho, evs, ht, hall⟩ := h
  refine ⟨ho, evs ++ [e], by simp [ht], ?_⟩
  intro x hx
  simp at hx
  rcases hx with hx | hx
  · exact hall x hx
  · subst hx; exact he

theorem storedState_lookups (s0 : String) (evs older : List Event)
    (h : ∀ e ∈ evs, e.isLookup = true) :
    storedState s0 (evs ++ older) = storedState s0 older := by
  induction evs with
  | nil => rfl
  | cons e evs ih =>
    have he := h e (by simp)
    have ih := ih (fun x hx => h x (by simp [hx]))
    cases e <;> simp_all [storedState, Event.isLookup]

theorem writesFollowGraph_lookups (d : Bool) (s0 : String) (evs older : List Event)
    (h : ∀ e ∈ evs, e.isLookup = true) :
    writesFollowGraph d s0 (evs ++ older) ↔ writesFollowGraph d s0 older := by
  induction evs with
  | nil => rfl
  | cons e evs ih =>
    have he := h e (by simp)
    have ih := ih (fun x hx => h x (by simp [hx]))
    cases e <;> simp_all [writesFollowGraph, Event.isLookup]

theorem Inv_lookupsFrom {d : Bool} {s0 : String} {s s1 : Run} (h : s.lookupsFrom s1)
    (hI : Inv d s0 s) : Inv d s0 s1 := by
  obtain ⟨ho, evs, ht, hall⟩ := h
  obtain ⟨h1, h2⟩ := hI
  refine ⟨?_, ?_⟩
  · rw [ht]; exact (writesFollowGraph_lookups d s0 evs s.trace hall).2 h1
  · rw [ht, storedState_lookups s0 evs s.trace hall, ho]; exact h2

theorem getPodPrivateIP_lookups (env : Env) (ns podName : String) (s : Run) :
    s.lookupsFrom (getPodPrivateIP env ns podName s).2 := by
  simp only [getPodPrivateIP, bind_eq]
  simp
  apply Run.lookupsFrom_cons (Event.storeGetPod ns podName (env.storeGetPod s.trace.length ns podName)) rfl
  generalize env.storeGetPod _ _ _ = ans
  cases ans <;> exact Run.lookupsFrom_refl _

theorem getPrivateIPID_scan_lookups (env : Env) (privateIP : String) (subnets : List Subnet)
    (s : Run) : s.lookupsFrom (getPrivateIPID.scan env privateIP subnets s).2 := by
  induction subnets generalizing s with
  | nil => exact Run.lookupsFrom_refl s
  | cons subnet rest ih =>
    simp only [getPrivateIPID.scan]
    cases env.cidrContains subnet.CidrBlock privateIP with
    | fail e => exact Run.lookupsFrom_refl s
    | ok b =>
      cases b with
      | false => exact ih s
      | true =>
        simp
        apply Run.lookupsFrom_cons (Event.listPrivateIps privateIP subnet.Id
          (env.listPrivateIps s.trace.length privateIP subnet.Id)) rfl
        generalize env.listPrivateIps _ _ _ = ans
        cases ans with
        | fail e => exact Run.lookupsFrom_refl _
        | ok items =>
          match items with
          | [] => exact ih _
          | [item] => exact Run.lookupsFrom_refl _
          | _ :: _ :: _ => exact ih _

theorem getPrivateIPID_lookups (r : ReservedIPReconciler) (env : Env) (privateIP : String)
    (s : Run) : s.lookupsFrom (getPrivateIPID r env privateIP s).2 := by
  simp only [getPrivateIPID, bind_eq]
  simp
  apply Run.lookupsFrom_cons (Event.listSubnets r.CompartmentID r.VcnID
    (env.listSubnets s.trace.length r.CompartmentID r.VcnID)) rfl
  generalize env.listSubnets _ _ _ = ans
  cases ans with
  | fail e => exact Run.lookupsFrom_refl _
  | ok subnets =>
    simp
    generalize hs1 : Run.mk _ _ = s1
    have := getPrivateIPID_scan_lookups env privateIP subnets s1
    rcases hb : getPrivateIPID.scan env privateIP subnets s1 with ⟨fl, s2⟩
    rw [hb] at this
    cases fl <;> exact this


/-! ## The helper functions keep the state graph -/

theorem keeps_of_inv {α : Type} {d : Bool} {s0 : String} {N R : Run → Prop}
    (fl : Flow GoError α) (s : Run) (hI : Inv d s0 s) (hN : N s) (hR : R s) :
    Keeps d s0 N R fl s := by
  cases fl with
  | next a => exact ⟨hI, hN⟩
  | ret err => cases err with
    | none => exact ⟨hI, hR⟩
    | some e => exact hI.1
  | panic => exact hI.1

theorem reconcileTags_keeps (env : Env) (tags : GoMap) (d : Bool) (s0 : String) :
    (reconcileTags env tags).sat (Inv d s0) (Keeps d s0 (fun _ => True) (fun _ => True)) := by
  intro s hs
  apply keeps_of_inv _ _ _ trivial trivial
  obtain ⟨h1, h2⟩ := hs
  simp only [reconcileTags, bind_eq]
  simp
  cases s.obj.Spec.Tags with
  | none => exact ⟨h1, h2⟩
  | some t =>
    simp
    by_cases hc : deepEqualMap t tags = true
    · simp [hc]; exact ⟨h1, h2⟩
    · simp [hc]
      simp_all [Inv, writesFollowGraph, storedState]

theorem assignEphemeralIP_keeps (r : ReservedIPReconciler) (env : Env) (d : Bool) (s0 : String)
    (st : String) :
    (assignEphemeralIP r env).sat (fun s => Inv d s0 s ∧ s.obj.Status.State = st)
      (Keeps d s0 (fun _ => True) (fun s => s.obj.Status.State = st)) := by
  intro s hs
  obtain ⟨⟨h1, h2⟩, h3⟩ := hs
  simp only [assignEphemeralIP, bind_eq]
  simp
  generalize env.createPublicIp _ _ = ans
  cases ans with
  | fail e => simp [Keeps, writesFollowGraph, h1]
  | ok a =>
    simp
    generalize env.storeStatusUpdate _ _ = ans
    cases ans <;> simp_all [Keeps, Inv, writesFollowGraph, storedState]

theorem allocateReservedIP_keeps (r : ReservedIPReconciler) (env : Env) (d : Bool) (s0 : String) :
    (allocateReservedIP r env).sat
      (fun s => Inv d s0 s ∧ s.obj.Status.State = "allocating")
      (Keeps d s0 (fun _ => True) (fun _ => True)) := by
  unfold allocateReservedIP
  simp only [bind_eq]
  apply Pass.sat_getObj_bind
  intro o
  intro s hs
  obtain ⟨⟨⟨h1, h2⟩, h3⟩, ho⟩ := hs
  simp
  generalize env.createPublicIp _ _ = ans
  cases ans with
  | fail e => simp [Keeps, writesFollowGraph, h1]
  | ok a =>
    simp
    generalize env.storeStatusUpdate _ _ = ans
    cases ans with
    | some e => simp_all [Keeps, Inv, writesFollowGraph, storedState, graphEdge]
    | none =>
      simp
      generalize hs1 : Run.mk _ _ = s1
      have hI : Inv d s0 s1 := by
        subst hs1
        simp_all [Inv, writesFollowGraph, storedState, graphEdge]
      have := reconcileTags_keeps env a.FreeformTags d s0 s1 hI
      rcases hb : reconcileTags env a.FreeformTags s1 with ⟨fl, s2⟩
      rw [hb] at this
      cases fl with
      | next e => exact nomatch e
      | ret err => exact this
      | panic => exact this

theorem releaseReservedIP_keeps (r : ReservedIPReconciler) (env : Env) (d : Bool) (s0 : String) :
    (releaseReservedIP r env).sat (Inv d s0) (Keeps d s0 (fun _ => True) (fun _ => True)) := by
  unfold releaseReservedIP
  simp only [bind_eq]
  apply Pass.sat_getObj_bind
  intro eip
  refine keeps_bind (N := fun _ => True) ?_ ?_
  · intro s hs
    obtain ⟨⟨h1, h2⟩, _⟩ := hs
    simp
    exact ⟨⟨by simpa [writesFollowGraph] using h1, by simpa [storedState] using h2⟩, trivial⟩
  · intro err
    refine keeps_bind (N := fun _ => True) ?_ ?_
    · intro s hs
      cases err with
      | none => exact hs
      | some e =>
        by_cases hc : stringsContains e.msg "NotAuthorizedOrNotFound" = true
        · simp [hc]; exact hs
        · simp [hc]; exact hs.1.1
    · intro _
      apply Pass.sat_getObj_bind
      intro o
      refine keeps_bind (N := fun _ => True) ?_ ?_
      · apply keeps_goIf
        · intro _
          apply keeps_call_ret (M := fun _ => True)
          intro s hs
          have := assignEphemeralIP_keeps r env d s0 s.obj.Status.State s ⟨hs.1.1, rfl⟩
          revert this
          generalize assignEphemeralIP r env s = res
          rcases res with ⟨fl, s2⟩
          cases fl with
          | next e => exact nomatch e
          | ret err => cases err with
            | none => exact fun h => ⟨h.1, trivial⟩
            | some e => exact id
          | panic => exact id
        · intro _ s hs
          exact hs.1
      · intro _ s hs
        exact ⟨hs.1, trivial⟩

theorem unassignReservedIP_keeps (r : ReservedIPReconciler) (env : Env) (d : Bool)
    (s0 : String) :
    (unassignReservedIP r env).sat
      (fun s => Inv d s0 s ∧ s.obj.Status.State = "unassigning")
      (Keeps d s0 (fun _ => True) (fun _ => True)) := by
  unfold unassignReservedIP
  simp only [bind_eq]
  apply Pass.sat_getObj_bind
  intro o
  apply keeps_event_returnIfErr (vncUpdatePublicIp_event env _ d s0) (fun s hs => hs.1.1)
  intro _
  apply Pass.sat_getObj_bind
  intro o2
  refine keeps_bind (N := fun s => s.obj.Status.State = "unassigning") ?_ ?_
  · apply keeps_goIf
    · intro _
      apply keeps_call (B := fun s => s.obj.Status.State = "unassigning")
      · intro s hs
        obtain ⟨⟨hI, s1, ⟨⟨_, h3⟩, _⟩, ho⟩, _⟩ := hs
        exact assignEphemeralIP_keeps r env d s0 "unassigning" s ⟨hI, by rw [ho]; exact h3⟩
      · intro s hs
        exact hs
      · intro e s
        exact ⟨rfl, rfl⟩
    · intro _ s hs
      obtain ⟨⟨hI, s1, ⟨⟨_, h3⟩, _⟩, ho⟩, _⟩ := hs
      exact ⟨hI, by rw [ho]; exact h3⟩
  · intro _
    apply keeps_write
    · intro s hs
      refine ⟨hs.1, Or.inr ?_⟩
      simp [hs.2, graphEdge]
    · intro _ s hs
      exact ⟨hs.1, trivial⟩

theorem call_lookups_keeps {ρ : Type} {d : Bool} {s0 : String} {N R : Run → Prop}
    (body : Pass ρ Empty) (h : ∀ s : Run, s.lookupsFrom (body s).2)
    (hN : ∀ s s1 : Run, s1.obj = s.obj → N s → N s1) :
    (call body : Pass GoError ρ).sat (fun s => Inv d s0 s ∧ N s) (Keeps d s0 N R) := by
  intro s hs
  have hl := h s
  simp only [call_apply]
  rcases hb : body s with ⟨fl, s1⟩
  rw [hb] at hl
  have hI := Inv_lookupsFrom hl hs.1
  cases fl with
  | next e => exact nomatch e
  | ret x => exact ⟨hI, hN s s1 hl.1 hs.2⟩
  | panic => exact hI.1

theorem assignable_of_obj (s s1 : Run) (h : s1.obj = s.obj) (ha : s.assignable) :
    s1.assignable := by
  unfold Run.assignable at *
  rw [h]; exact ha

theorem resolve_keeps (env : Env) (ns : String) (a : ReservedIPAssignment) (d : Bool)
    (s0 : String) (R : Run → Prop) :
    (assignReservedIP.resolve env ns a).sat (fun s => Inv d s0 s ∧ s.assignable)
      (Keeps d s0 Run.assignable R) := by
  unfold assignReservedIP.resolve
  split
  · simp only [bind_eq]
    refine keeps_bind (call_lookups_keeps _ (getPodPrivateIP_lookups env ns a.PodName)
      assignable_of_obj) ?_
    intro x
    rcases x with ⟨podIP, err⟩
    intro s hs
    cases err with
    | none => exact hs
    | some e => exact hs.1.1
  · intro s hs
    exact hs

theorem makeRoom_keeps (env : Env) (res : Answer PublicIp) (idAddr : StrAddr) (d : Bool)
    (s0 : String) :
    (assignReservedIP.makeRoom env res idAddr).sat (fun s => Inv d s0 s ∧ s.assignable)
      (Keeps d s0 Run.assignable (fun _ => True)) := by
  unfold assignReservedIP.makeRoom
  cases res with
  | fail err =>
    apply keeps_goIf
    · intro _ s hs
      exact hs.1.1
    · intro _ s hs
      exact hs
  | ok publicIP =>
    simp only [bind_eq]
    refine keeps_bind (N := Run.assignable) ?_ ?_
    · apply keeps_goIf
      · intro _ s hs
        exact ⟨hs.1, trivial⟩
      · intro _ s hs
        exact hs
    · intro _
      split
      · apply keeps_write
        · intro s hs
          exact ⟨hs.1, Or.inl rfl⟩
        · intro _
          intro s hs
          obtain ⟨⟨h1, h2⟩, s1, hs1, ho⟩ := hs
          have ha : s.assignable := by
            unfold Run.assignable at *
            rw [ho]; exact hs1.2
          simp
          generalize env.deletePublicIp _ _ = ans
          cases ans with
          | none => exact ⟨⟨by simpa [writesFollowGraph] using h1, by simpa [storedState] using h2⟩, ha⟩
          | some e => simpa [Keeps, writesFollowGraph] using h1
      · intro s hs
        obtain ⟨⟨h1, h2⟩, ha⟩ := hs
        simp
        generalize env.updatePublicIp _ _ = ans
        cases ans with
        | none => exact ⟨⟨by simpa [writesFollowGraph] using h1, by simpa [storedState] using h2⟩, ha⟩
        | some e => simpa [Keeps, writesFollowGraph] using h1

theorem assignReservedIP_keeps (r : ReservedIPReconciler) (env : Env) (d : Bool) (s0 : String) :
    (assignReservedIP r env).sat (fun s => Inv d s0 s ∧ s.assignable)
      (Keeps d s0 (fun _ => True) (fun _ => True)) := by
  unfold assignReservedIP
  simp only [bind_eq]
  apply Pass.sat_getObj_bind
  intro o
  split
  · intro s hs
    exact hs.1.1.1
  · rename_i assignment _
    refine keeps_bind (N := Run.assignable) ?_ ?_
    · apply keeps_goIf
      · intro _ s hs
        exact hs.1.1.1
      · intro _ s hs
        exact hs.1
    · intro _
      refine keeps_bind (resolve_keeps env o.Namespace assignment d s0 _) ?_
      intro privateIP
      refine keeps_bind (call_lookups_keeps _ (getPrivateIPID_lookups r env privateIP)
        assignable_of_obj) ?_
      intro x
      rcases x with ⟨privateIPID, err⟩
      refine keeps_bind (N := Run.assignable) ?_ ?_
      · intro s hs
        cases err with
        | none => exact hs
        | some e => exact hs.1.1
      · intro _
        refine keeps_bind (N := Run.assignable) ?_ ?_
        · intro s hs
          obtain ⟨⟨h1, h2⟩, ha⟩ := hs
          exact ⟨⟨by simpa [writesFollowGraph] using h1, by simpa [storedState] using h2⟩, ha⟩
        · intro x
          rcases x with ⟨res, idAddr⟩
          refine keeps_bind (makeRoom_keeps env res idAddr d s0) ?_
          intro _ s hs
          obtain ⟨⟨h1, h2⟩, ha⟩ := hs
          simp
          generalize env.updatePublicIp _ _ = ans
          cases ans with
          | some e => simpa [Keeps, writesFollowGraph] using h1
          | none =>
            simp
            generalize env.storeStatusUpdate _ _ = ans
            unfold Run.assignable at ha
            cases ans with
            | some e =>
              rcases ha with ha | ha <;>
                simp [Keeps, writesFollowGraph, storedState, h1, h2, ha, graphEdge]
            | none =>
              rcases ha with ha | ha <;>
                simp [Keeps, Inv, writesFollowGraph, storedState, h1, h2, ha, graphEdge]

theorem keeps_write_last {d : Bool} {s0 : String} {N R : Run → Prop} (env : Env)
    {g : ReservedIPStatus → ReservedIPStatus} {pre : Run → Prop}
    (hpre : ∀ s, pre s → Inv d s0 s ∧
      ((g s.obj.Status).State = s.obj.Status.State ∨
        graphEdge d s.obj.Status.State (g s.obj.Status).State = true))
    (hN : ∀ s s1 : Run, pre s → s1.obj = { s.obj with Status := g s.obj.Status } → N s1) :
    (Pass.bind (modifyStatus g) (fun _ => Pass.bind (statusUpdate env)
      (fun err => returnIfErr err))).sat pre (Keeps d s0 N R) := by
  intro s hs
  obtain ⟨⟨h1, h2⟩, h3⟩ := hpre s hs
  simp
  generalize env.storeStatusUpdate _ _ = ans
  cases ans with
  | some e =>
    simp
    show writesFollowGraph d s0 (_ :: s.trace)
    simp [writesFollowGraph, h1, h2, h3]
  | none =>
    simp
    refine ⟨?_, hN s _ hs rfl⟩
    simp [Inv, writesFollowGraph, storedState, h1, h2, h3]

theorem transitions_keeps (r : ReservedIPReconciler) (env : Env) (addr : PublicIp) (d : Bool)
    (s0 : String) :
    (handleRequest.transitions r env addr).sat (fun s => Inv d s0 s ∧ True)
      (Keeps d s0 (fun _ => True) (fun _ => True)) := by
  unfold handleRequest.transitions
  simp only [bind_eq]
  apply Pass.sat_getObj_bind
  intro o5
  refine keeps_bind (N := fun _ => True) ?_ ?_
  · apply keeps_goIf
    · intro hc
      apply Pass.sat_getObj_bind
      intro o
      split
      · apply keeps_goIf
        · intro _
          apply keeps_write
          · intro s hs
            refine ⟨hs.1.1.1, Or.inr ?_⟩
            have : s.obj.Status.State = "allocated" := by
              rw [hs.1.2]; simpa using hc
            simp [this, graphEdge]
          · intro _ s hs
            obtain ⟨⟨h1, h2⟩, _⟩ := hs
            exact ⟨⟨by simpa [writesFollowGraph] using h1, by simpa [storedState] using h2⟩,
              trivial⟩
        · intro _ s hs
          exact hs.1.1
      · intro s hs
        exact hs.1.1
    · intro _ s hs
      exact hs.1
  intro _
  apply Pass.sat_getObj_bind
  intro o6
  refine keeps_bind (N := fun _ => True) ?_ ?_
  · apply keeps_goIf
    · intro hc s hs
      obtain ⟨⟨⟨h1, h2⟩, _⟩, ho⟩ := hs
      have hst : s.obj.Status.State = "assigned" := by
        rw [ho]; simpa using hc
      simp only [handleRequest.assignedChanged, bind_eq]
      simp
      cases s.obj.Spec.Assignment with
      | none =>
        simp
        generalize env.storeStatusUpdate _ _ = ans
        cases ans <;>
          simp [Keeps, Inv, writesFollowGraph, storedState, h1, h2, hst, graphEdge]
      | some specAssignment =>
        simp
        cases s.obj.Status.Assignment with
        | none => simpa [Keeps] using h1
        | some statusAssignment =>
          by_cases hm : statusAssignment.MatchesSpec specAssignment = false
              ∨ addr.AssignedEntityId = none
          · simp [hm]
            generalize env.storeStatusUpdate _ _ = ans
            cases ans <;>
              simp [Keeps, Inv, writesFollowGraph, storedState, h1, h2, hst, graphEdge]
          · simp [hm]
            exact ⟨⟨h1, h2⟩, trivial⟩
    · intro _ s hs
      exact hs.1
  intro _
  apply Pass.sat_getObj_bind
  intro o7
  refine keeps_bind (N := fun _ => True) ?_ ?_
  · apply keeps_goIf
    · intro hc
      apply Pass.sat_getObj_bind
      intro o
      apply keeps_goIf
      · intro _
        apply keeps_write_last
        · intro s hs
          refine ⟨hs.1.1.1, Or.inr ?_⟩
          have : s.obj.Status.State = "assigning" := by
            rw [hs.1.2]; simpa using hc
          simp [this, graphEdge]
        · intro _ _ _ _
          trivial
      · intro _ s hs
        exact hs.1.1
    · intro _ s hs
      exact hs.1
  intro _
  apply Pass.sat_getObj_bind
  intro o8
  apply Pass.sat_getObj_bind
  intro o9
  refine keeps_bind (N := fun _ => True) ?_ ?_
  · apply keeps_goIf
    · intro hc
      apply Pass.sat_getObj_bind
      intro o
      split
      · apply keeps_goIf
        · intro _
          apply keeps_call_ret (M := fun _ => True)
          intro s hs
          apply assignReservedIP_keeps r env d s0 s
          refine ⟨hs.1.1.1.1, ?_⟩
          have h8 := hs.1.1.2
          have h9 := hs.1.2
          unfold Run.assignable
          rw [h8] at h9
          subst h9
          rw [h8]
          simpa using hc
        · intro _ s hs
          exact hs.1.1.1
      · intro s hs
        exact hs.1.1.1
    · intro _ s hs
      exact hs.1.1
  intro _
  apply Pass.sat_getObj_bind
  intro o10
  apply keeps_goIf
  · intro hc
    apply keeps_call_ret (M := fun _ => True)
    intro s hs
    apply unassignReservedIP_keeps r env d s0 s
    refine ⟨hs.1.1, ?_⟩
    rw [hs.2]; simpa using hc
  · intro _ s hs
    exact hs.1

theorem live_keeps (r : ReservedIPReconciler) (env : Env) (d : Bool) (s0 : String) :
    (handleRequest.live r env).sat (Inv d s0)
      (Keeps d s0 (fun _ => True) (fun _ => True)) := by
  unfold handleRequest.live
  simp only [bind_eq]
  apply Pass.sat_getObj_bind
  intro o1
  refine keeps_bind (N := fun _ => True) ?_ ?_
  · apply keeps_goIf
    · intro _ s hs
      obtain ⟨⟨h1, h2⟩, _⟩ := hs
      simp
      apply keeps_of_inv _ _ _ trivial trivial
      exact ⟨by simpa [writesFollowGraph] using h1, by simpa [storedState] using h2⟩
    · intro _ s hs
      exact ⟨hs.1, trivial⟩
  intro _
  apply Pass.sat_getObj_bind
  intro o2
  refine keeps_bind (N := fun _ => True) ?_ ?_
  · apply keeps_goIf
    · intro hc
      apply keeps_write_last
      · intro s hs
        refine ⟨hs.1.1, Or.inr ?_⟩
        have : s.obj.Status.State = "" := by
          rw [hs.2]; simpa using hc
        simp [this, graphEdge]
      · intro _ _ _ _
        trivial
    · intro _ s hs
      exact hs.1
  intro _
  apply Pass.sat_getObj_bind
  intro o3
  refine keeps_bind (N := fun _ => True) ?_ ?_
  · apply keeps_goIf
    · intro hc
      apply keeps_call_returnIfErr (B := fun _ => True)
      · intro s hs
        apply allocateReservedIP_keeps r env d s0 s
        refine ⟨hs.1.1, ?_⟩
        rw [hs.2]; simpa using hc
      · intro _ s hs
        obtain ⟨⟨h1, h2⟩, _⟩ := hs
        exact ⟨⟨by simpa [writesFollowGraph] using h1, by simpa [storedState] using h2⟩, trivial⟩
    · intro _ s hs
      exact hs.1
  intro _
  apply Pass.sat_getObj_bind
  intro o4
  refine keeps_bind (N := fun _ => True) ?_ ?_
  · intro s hs
    obtain ⟨⟨⟨h1, h2⟩, _⟩, _⟩ := hs
    exact ⟨⟨by simpa [writesFollowGraph] using h1, by simpa [storedState] using h2⟩, trivial⟩
  intro ans
  cases ans with
  | fail err =>
    intro s hs
    exact hs.1.1
  | ok addr =>
  simp only []
  apply keeps_call_returnIfErr (B := fun _ => True)
  · exact Pass.sat_weaken (reconcileTags_keeps env addr.FreeformTags d s0) (fun s hs => hs.1)
  intro _
  exact transitions_keeps r env addr d s0

theorem deleting_keeps (r : ReservedIPReconciler) (env : Env) (s0 : String) :
    (handleRequest.deleting r env).sat (Inv true s0)
      (Keeps true s0 (fun _ => True) (fun _ => True)) := by
  unfold handleRequest.deleting
  simp only [bind_eq]
  apply Pass.sat_getObj_bind
  intro o1
  apply keeps_goIf
  · intro _
    apply Pass.sat_getObj_bind
    intro o2
    refine keeps_bind (N := fun _ => True) ?_ ?_
    · apply keeps_goIf
      · intro _
        apply Pass.sat_getObj_bind
        intro o3
        refine keeps_bind (N := fun _ => True) ?_ ?_
        · apply keeps_goIf
          · intro _
            apply keeps_write_last
            · intro s hs
              refine ⟨hs.1.1.1, Or.inr ?_⟩
              simp [graphEdge]
            · intro _ _ _ _
              trivial
          · intro _ s hs
            exact ⟨hs.1.1.1, trivial⟩
        intro _
        apply Pass.sat_getObj_bind
        intro o4
        apply keeps_goIf
        · intro _
          apply keeps_call (B := fun _ => True)
          · exact Pass.sat_weaken (releaseReservedIP_keeps r env true s0) (fun s hs => hs.1.1)
          · intro s hs
            exact hs
          · intro e s
            exact ⟨rfl, rfl⟩
        · intro _ s hs
          exact hs.1
      · intro _ s hs
        exact ⟨hs.1.1, trivial⟩
    intro _ s hs
    obtain ⟨⟨h1, h2⟩, _⟩ := hs
    simp
    apply keeps_of_inv _ _ _ trivial trivial
    exact ⟨by simpa [writesFollowGraph] using h1, by simpa [storedState] using h2⟩
  · intro _ s hs
    exact ⟨hs.1, trivial⟩

theorem handleRequest_keeps (r : ReservedIPReconciler) (env : Env) (reservedIP : ReservedIP) :
    writesFollowGraph (!reservedIP.DeletionTimestampIsZero) reservedIP.Status.State
      (runHandleRequest r env reservedIP).2.trace := by
  unfold runHandleRequest handleRequest
  simp only [bind_eq]
  simp
  have hI : ∀ d, Inv d reservedIP.Status.State { obj := reservedIP } :=
    fun d => ⟨trivial, rfl⟩
  cases hd : reservedIP.DeletionTimestampIsZero with
  | true =>
    simp
    have := live_keeps r env false reservedIP.Status.State _ (hI false)
    revert this
    generalize handleRequest.live r env _ = res
    rcases res with ⟨fl, s1⟩
    intro h
    cases fl with
    | next u => exact h.1.1
    | ret err => cases err with
      | none => exact h.1.1
      | some e => exact h
    | panic => exact h
  | false =>
    simp
    have := deleting_keeps r env reservedIP.Status.State _ (hI true)
    revert this
    generalize handleRequest.deleting r env _ = res
    rcases res with ⟨fl, s1⟩
    intro h
    cases fl with
    | next u => exact h.1.1
    | ret err => cases err with
      | none => exact h.1.1
      | some e => exact h
    | panic => exact h


theorem writesFollowGraph_split (d : Bool) (s0 : String) (newer older : List Event)
    (status : ReservedIPStatus) (err : GoError)
    (h : writesFollowGraph d s0 (newer ++ Event.storeStatusUpdate status err :: older)) :
    status.State = storedState s0 older ∨
      graphEdge d (storedState s0 older) status.State = true := by
  induction newer with
  | nil => exact h.1
  | cons e newer ih =>
    apply ih
    cases e <;> first | exact h | exact h.2

/-- C1. Take any pass of `handleRequest` on an object just fetched from the store, under
any answers of the outside world, and any status write of that pass (accepted by the
store or not). If the state it carries differs from the state the store holds at that
moment, the two are joined by an edge of the state graph (the edge to `releasing` only
for an object that is being deleted); in particular the write does not go from
`allocating` to `assigned`. -/
theorem handleRequest_state_writes_follow_graph (r : ReservedIPReconciler) (env : Env)
    (reservedIP : ReservedIP) (newer older : List Event) (status : ReservedIPStatus)
    (err : GoError)
    (hwrite : (runHandleRequest r env reservedIP).2.trace =
      newer ++ Event.storeStatusUpdate status err :: older)
    (hchange : status.State ≠ storedState reservedIP.Status.State older) :
    graphEdge (!reservedIP.DeletionTimestampIsZero)
        (storedState reservedIP.Status.State older) status.State = true ∧
      ¬ (storedState reservedIP.Status.State older = "allocating" ∧
          status.State = "assigned") := by
  have h := handleRequest_keeps r env reservedIP
  rw [hwrite] at h
  have hedge := writesFollowGraph_split _ _ _ _ _ _ h
  rcases hedge with hsame | hedge
  · exact absurd hsame hchange
  · refine ⟨hedge, ?_⟩
    rintro ⟨hfrom, hto⟩
    rw [hfrom, hto] at hedge
    revert hedge
    cases reservedIP.DeletionTimestampIsZero <;> decide

/-- Witness for C1: a fresh object that carries the finalizer, in a world where creating
the public address fails; the pass writes `allocating` over the empty state. -/
theorem handleRequest_state_writes_follow_graph_witness :
    graphEdge false "" "allocating" = true ∧
      ¬ (("" : String) = "allocating" ∧ ("allocating" : String) = "assigned") :=
  handleRequest_state_writes_follow_graph exampleReconciler
    { Env.allOk with createPublicIp := fun _ _ => Answer.fail { msg := "TooManyRequests" } }
    { Finalizers := ["fin"] }
    [Event.createPublicIp
      { CompartmentId := "", DisplayName := some "---", Lifetime := Lifetime.Reserved,
        OpcRetryToken := some "" }
      (Answer.fail { msg := "TooManyRequests" })]
    [] { State := "allocating" } none (by decide) (by decide)

/-! ## The assign operation -/

theorem resolve_lookups (env : Env) (ns : String) (a : ReservedIPAssignment) (s : Run) :
    s.lookupsFrom (assignReservedIP.resolve env ns a s).2 := by
  unfold assignReservedIP.resolve
  split
  · have hl := getPodPrivateIP_lookups env ns a.PodName s
    simp only [bind_eq, Pass.bind_apply, call_apply]
    revert hl
    generalize getPodPrivateIP env ns a.PodName s = res
    rcases res with ⟨fl, s1⟩
    intro hl
    cases fl with
    | next e => exact nomatch e
    | ret x =>
      rcases x with ⟨ip, err⟩
      cases err <;> exact hl
    | panic => exact hl
  · exact Run.lookupsFrom_refl s

/-- What `assignReservedIP` does when the private address and its identifier resolve and
the calls that follow succeed. -/
theorem assignReservedIP_ok (r : ReservedIPReconciler) (env : Env) (s : Run)
    (assignment : ReservedIPAssignment) (privateIP privateIPID : String)
    (hspec : s.obj.Spec.Assignment = some assignment)
    (hone : (assignment.PodName == "") ≠ (assignment.PrivateIPAddress == ""))
    (hpod : assignment.PodName ≠ "" →
      env.storeGetPod s.trace.length s.obj.Namespace assignment.PodName = Answer.ok privateIP)
    (haddr : assignment.PodName = "" → privateIP = assignment.PrivateIPAddress)
    (hid : (getPrivateIPID r env privateIP
      (assignReservedIP.resolve env s.obj.Namespace assignment s).2).1 =
        Flow.ret (privateIPID, none))
    (hget : ∀ n e, env.getPublicIpByPrivateIpId n privateIPID = Answer.fail e →
      stringsContains e.msg "NotAuthorizedOrNotFound" = true)
    (hupd : ∀ n req, env.updatePublicIp n req = none)
    (hdel : ∀ n id, env.deletePublicIp n id = none)
    (hst : ∀ n obj, env.storeStatusUpdate n obj = none) :
    (assignReservedIP r env s).1 = Flow.ret none ∧
      (assignReservedIP r env s).2.obj.Status.State = "assigned" ∧
      (assignReservedIP r env s).2.obj.Status.Assignment =
        some { assignment with PrivateIPAddress := privateIP } ∧
      (assignReservedIP r env s).2.obj.Status.PrivateIPAddressID = privateIPID ∧
      (∃ older, (assignReservedIP r env s).2.trace =
        Event.storeStatusUpdate (assignReservedIP r env s).2.obj.Status none :: older) ∧
      ∀ E : PublicIp, (∀ n, env.getPublicIpByPrivateIpId n privateIPID = Answer.ok E) →
        E.Lifetime = Lifetime.Ephemeral →
        Event.deletePublicIp E.Id none ∈ (assignReservedIP r env s).2.trace ∧
        (assignReservedIP r env s).2.obj.Status.EphemeralIPWasUnassigned = true := by
  have hres : (assignReservedIP.resolve env s.obj.Namespace assignment s).1 =
      Flow.next privateIP := by
    unfold assignReservedIP.resolve
    by_cases hp : assignment.PodName = ""
    · simp [hp, haddr hp]
    · simp [hp, getPodPrivateIP, hpod hp]
  have hvalid : ((assignment.PodName == "") == (assignment.PrivateIPAddress == "")) = false := by
    by_cases h1 : assignment.PodName = "" <;> by_cases h2 : assignment.PrivateIPAddress = "" <;>
      simp_all
  revert hres hid
  generalize hs1 : assignReservedIP.resolve env s.obj.Namespace assignment s = res1
  rcases res1 with ⟨fl1, s1⟩
  intro hid hres
  simp only at hid hres
  subst hres
  revert hid
  generalize hs2 : getPrivateIPID r env privateIP s1 = res2
  rcases res2 with ⟨fl2, s2⟩
  intro hid
  simp only at hid
  subst hid
  simp only [assignReservedIP, bind_eq, Pass.bind_apply, getObj_apply, hspec, goIf_apply, hvalid]
  simp only [Bool.false_eq_true, if_false, hs1, call_apply, hs2, returnIfErr_apply,
    vncGetPublicIpByPrivateIpId_apply, assignReservedIP.makeRoom]
  cases hans : env.getPublicIpByPrivateIpId s2.trace.length privateIPID with
  | fail e =>
    have := hget _ _ hans
    simp [this, hupd, hst]
    intro E hE
    rw [hE] at hans
    cases hans
  | ok publicIP =>
    cases hl : publicIP.Lifetime
    · simp [hl, hupd, hst, hdel]
      intro E hE _
      rw [hE] at hans
      cases hans
      exact Or.inl rfl
    · simp [hl, hupd, hst, hdel]
      intro E hE hEl
      rw [hE] at hans
      cases hans
      rw [hl] at hEl
      cases hEl

/-- The scan of the subnets returns the identifier of the one private address that the
first subnet not passed over lists. -/
theorem getPrivateIPID_scan_finds (env : Env) (privateIP privateIPID : String)
    (before after : List Subnet) (subnet : Subnet)
    (hbefore : ∀ x ∈ before, env.passesOver privateIP x)
    (hin : env.cidrContains subnet.CidrBlock privateIP = Answer.ok true)
    (hpriv : ∀ n, env.listPrivateIps n privateIP subnet.Id = Answer.ok [{ Id := privateIPID }])
    (s : Run) :
    (getPrivateIPID.scan env privateIP (before ++ subnet :: after) s).1 =
      Flow.ret (privateIPID, none) := by
  induction before generalizing s with
  | nil =>
    simp [getPrivateIPID.scan, hin, hpriv]
  | cons x rest ih =>
    have ih := ih (fun y hy => hbefore y (List.mem_cons_of_mem _ hy))
    rcases hbefore x (List.mem_cons_self _ _) with h | ⟨h, hl⟩
    · simp only [List.cons_append, getPrivateIPID.scan, h]
      exact ih s
    · obtain ⟨items, hitems, hlen⟩ := hl s.trace.length
      simp only [List.cons_append, getPrivateIPID.scan, h, bind_eq, Pass.bind_apply,
        vncListPrivateIps_apply, hitems]
      match items, hlen with
      | [], _ => exact ih _
      | [_], hlen => exact absurd rfl hlen
      | _ :: _ :: _, _ => exact ih _

/-- Go `getPrivateIPID` returns the identifier that the scan finds. -/
theorem getPrivateIPID_finds (r : ReservedIPReconciler) (env : Env)
    (privateIP privateIPID : String) (before after : List Subnet) (subnet : Subnet)
    (hsubnets : ∀ n, env.listSubnets n r.CompartmentID r.VcnID =
      Answer.ok (before ++ subnet :: after))
    (hbefore : ∀ x ∈ before, env.passesOver privateIP x)
    (hin : env.cidrContains subnet.CidrBlock privateIP = Answer.ok true)
    (hpriv : ∀ n, env.listPrivateIps n privateIP subnet.Id = Answer.ok [{ Id := privateIPID }])
    (s : Run) :
    (getPrivateIPID r env privateIP s).1 = Flow.ret (privateIPID, none) := by
  simp only [getPrivateIPID, bind_eq, Pass.bind_apply, vncListSubnets_apply, hsubnets]
  generalize Run.mk _ _ = s1
  have h := getPrivateIPID_scan_finds env privateIP privateIPID before after subnet hbefore hin
    hpriv s1
  revert h
  generalize getPrivateIPID.scan env privateIP (before ++ subnet :: after) s1 = res
  rcases res with ⟨fl, s2⟩
  intro h
  simp only at h
  subst h
  rfl

/-- C2 as amended. Take an object whose spec assignment has exactly one of pod name and
private address set (in particular one in state `assigning` or `reassigning`). Let every
call answer without error: the pod lookup answers with `privateIP` when the spec names a
pod (the literal of the spec is `privateIP` otherwise), the subnets are listed, the lookup
of the public address bound to the private address answers or reports not found, and every
update, delete and status write is accepted. Let moreover the private address be found:
the listing holds a subnet whose block contains `privateIP` and which lists exactly one
private address object, with identifier `privateIPID`, and the scan passes over every
subnet listed before it. Then `assignReservedIP` returns nil, the state is `assigned`, the
realized assignment is the spec assignment with `privateIP` as its private address,
`PrivateIPAddressID` is `privateIPID`, and this status is the last thing written to the
store. -/
theorem assignReservedIP_success (r : ReservedIPReconciler) (env : Env) (s : Run)
    (assignment : ReservedIPAssignment) (privateIP privateIPID : String)
    (before after : List Subnet) (subnet : Subnet)
    (hspec : s.obj.Spec.Assignment = some assignment)
    (hone : (assignment.PodName == "") ≠ (assignment.PrivateIPAddress == ""))
    (hpod : assignment.PodName ≠ "" →
      env.storeGetPod s.trace.length s.obj.Namespace assignment.PodName = Answer.ok privateIP)
    (haddr : assignment.PodName = "" → privateIP = assignment.PrivateIPAddress)
    (hsubnets : ∀ n, env.listSubnets n r.CompartmentID r.VcnID =
      Answer.ok (before ++ subnet :: after))
    (hbefore : ∀ x ∈ before, env.passesOver privateIP x)
    (hin : env.cidrContains subnet.CidrBlock privateIP = Answer.ok true)
    (hpriv : ∀ n, env.listPrivateIps n privateIP subnet.Id = Answer.ok [{ Id := privateIPID }])
    (hget : ∀ n e, env.getPublicIpByPrivateIpId n privateIPID = Answer.fail e →
      stringsContains e.msg "NotAuthorizedOrNotFound" = true)
    (hupd : ∀ n req, env.updatePublicIp n req = none)
    (hdel : ∀ n id, env.deletePublicIp n id = none)
    (hst : ∀ n obj, env.storeStatusUpdate n obj = none) :
    (assignReservedIP r env s).1 = Flow.ret none ∧
      (assignReservedIP r env s).2.obj.Status.State = "assigned" ∧
      (assignReservedIP r env s).2.obj.Status.Assignment =
        some { assignment with PrivateIPAddress := privateIP } ∧
      (assignReservedIP r env s).2.obj.Status.PrivateIPAddressID = privateIPID ∧
      ∃ older, (assignReservedIP r env s).2.trace =
        Event.storeStatusUpdate (assignReservedIP r env s).2.obj.Status none :: older := by
  have h := assignReservedIP_ok r env s assignment privateIP privateIPID hspec hone hpod haddr
    (getPrivateIPID_finds r env privateIP privateIPID before after subnet hsubnets hbefore hin
      hpriv _) hget hupd hdel hst
  exact ⟨h.1, h.2.1, h.2.2.1, h.2.2.2.1, h.2.2.2.2.1⟩

/-- What `unassignReservedIP` does on an object with the eviction flag set when every call
succeeds. -/
theorem unassignReservedIP_ok (r : ReservedIPReconciler) (env : Env) (s : Run)
    (hflag : s.obj.Status.EphemeralIPWasUnassigned = true)
    (hupd : ∀ n req, env.updatePublicIp n req = none)
    (hcreate : ∀ n req, ∃ a, env.createPublicIp n req = Answer.ok a)
    (hst : ∀ n obj, env.storeStatusUpdate n obj = none) :
    (unassignReservedIP r env s).1 = Flow.ret none ∧
      (∃ a, Event.createPublicIp
        { CompartmentId := r.CompartmentID, Lifetime := Lifetime.Ephemeral,
          PrivateIpId := some s.obj.Status.PrivateIPAddressID } (Answer.ok a)
          ∈ (unassignReservedIP r env s).2.trace) ∧
      (unassignReservedIP r env s).2.obj.Status =
        { s.obj.Status with
          State := "allocated", Assignment := none, PrivateIPAddressID := "",
          EphemeralIPWasUnassigned := false } ∧
      ∃ older, (unassignReservedIP r env s).2.trace =
        Event.storeStatusUpdate (unassignReservedIP r env s).2.obj.Status none :: older := by
  simp only [unassignReservedIP, assignEphemeralIP, assignEphemeralIP.input, bind_eq,
    Pass.bind_apply, getObj_apply, vncUpdatePublicIp_apply, hupd, returnIfErr_apply, goIf_apply,
    hflag, if_true, call_apply, vncCreatePublicIp_apply]
  obtain ⟨a, ha⟩ := hcreate (s.trace.length + 1)
    { CompartmentId := r.CompartmentID, Lifetime := Lifetime.Ephemeral,
      PrivateIpId := some s.obj.Status.PrivateIPAddressID }
  simp [ha, hst]

/-- C4. Let the private address identifier `privateIPID` hold the ephemeral public
address `E`. An assign whose calls succeed returns nil, issues the delete of `E` and sets
the eviction flag. An unassign in a later pass, on the status that assign left (moved to
state `unassigning`), whose calls succeed returns nil, issues a create of an ephemeral
public address for `privateIPID`, and leaves the flag cleared, the state `allocated`, the
realized assignment removed and `PrivateIPAddressID` empty, as the last status written. -/
theorem eviction_restoration_round_trip (r : ReservedIPReconciler) (env env2 : Env) (s : Run)
    (assignment : ReservedIPAssignment) (privateIP privateIPID : String) (E : PublicIp)
    (reservedIP2 : ReservedIP) (trace2 : List Event)
    (hspec : s.obj.Spec.Assignment = some assignment)
    (hone : (assignment.PodName == "") ≠ (assignment.PrivateIPAddress == ""))
    (hpod : assignment.PodName ≠ "" →
      env.storeGetPod s.trace.length s.obj.Namespace assignment.PodName = Answer.ok privateIP)
    (haddr : assignment.PodName = "" → privateIP = assignment.PrivateIPAddress)
    (hid : (getPrivateIPID r env privateIP
      (assignReservedIP.resolve env s.obj.Namespace assignment s).2).1 =
        Flow.ret (privateIPID, none))
    (hE : ∀ n, env.getPublicIpByPrivateIpId n privateIPID = Answer.ok E)
    (hEph : E.Lifetime = Lifetime.Ephemeral)
    (hupd : ∀ n req, env.updatePublicIp n req = none)
    (hdel : ∀ n id, env.deletePublicIp n id = none)
    (hst : ∀ n obj, env.storeStatusUpdate n obj = none)
    (hnext : reservedIP2.Status =
      { (assignReservedIP r env s).2.obj.Status with State := "unassigning" })
    (hupd2 : ∀ n req, env2.updatePublicIp n req = none)
    (hcreate2 : ∀ n req, ∃ a, env2.createPublicIp n req = Answer.ok a)
    (hst2 : ∀ n obj, env2.storeStatusUpdate n obj = none) :
    ((assignReservedIP r env s).1 = Flow.ret none ∧
      Event.deletePublicIp E.Id none ∈ (assignReservedIP r env s).2.trace ∧
      (assignReservedIP r env s).2.obj.Status.EphemeralIPWasUnassigned = true) ∧
    ((unassignReservedIP r env2 { obj := reservedIP2, trace := trace2 }).1 = Flow.ret none ∧
      (∃ a, Event.createPublicIp
        { CompartmentId := r.CompartmentID, Lifetime := Lifetime.Ephemeral,
          PrivateIpId := some privateIPID } (Answer.ok a)
          ∈ (unassignReservedIP r env2 { obj := reservedIP2, trace := trace2 }).2.trace) ∧
      (unassignReservedIP r env2 { obj := reservedIP2, trace := trace2 }).2.obj.Status =
        { reservedIP2.Status with
          State := "allocated", Assignment := none, PrivateIPAddressID := "",
          EphemeralIPWasUnassigned := false } ∧
      ∃ older, (unassignReservedIP r env2 { obj := reservedIP2, trace := trace2 }).2.trace =
        Event.storeStatusUpdate
          (unassignReservedIP r env2 { obj := reservedIP2, trace := trace2 }).2.obj.Status none
            :: older) := by
  have hget : ∀ n e, env.getPublicIpByPrivateIpId n privateIPID = Answer.fail e →
      stringsContains e.msg "NotAuthorizedOrNotFound" = true := by
    intro n e h
    rw [hE] at h
    cases h
  have h := assignReservedIP_ok r env s assignment privateIP privateIPID hspec hone hpod haddr
    hid hget hupd hdel hst
  obtain ⟨h1, _, _, h4, _, h6⟩ := h
  obtain ⟨h7, h8⟩ := h6 E hE hEph
  have hflag : (Run.mk reservedIP2 trace2).obj.Status.EphemeralIPWasUnassigned = true := by
    show reservedIP2.Status.EphemeralIPWasUnassigned = true
    rw [hnext]; exact h8
  have hP : (Run.mk reservedIP2 trace2).obj.Status.PrivateIPAddressID = privateIPID := by
    show reservedIP2.Status.PrivateIPAddressID = privateIPID
    rw [hnext]; exact h4
  have hu := unassignReservedIP_ok r env2 _ hflag hupd2 hcreate2 hst2
  rw [hP] at hu
  obtain ⟨u1, u2, u3, u4⟩ := hu
  exact ⟨⟨h1, h7, h8⟩, u1, u2, u3, u4⟩

/-- Witness for C2: the pod `w1` at `10.0.0.7` in the world where every call succeeds and
the one subnet lists the private address `ocid.privateip`. -/
theorem assignReservedIP_success_witness :
    (assignReservedIP exampleReconciler Env.allOk exampleAssigning).1 = Flow.ret none ∧
      (assignReservedIP exampleReconciler Env.allOk exampleAssigning).2.obj.Status.State
        = "assigned" ∧
      (assignReservedIP exampleReconciler Env.allOk exampleAssigning).2.obj.Status.Assignment =
        some { PodName := "w1", PrivateIPAddress := "10.0.0.7" } ∧
      (assignReservedIP exampleReconciler Env.allOk exampleAssigning).2.obj.Status.PrivateIPAddressID
        = "ocid.privateip" ∧
      ∃ older, (assignReservedIP exampleReconciler Env.allOk exampleAssigning).2.trace =
        Event.storeStatusUpdate
          (assignReservedIP exampleReconciler Env.allOk exampleAssigning).2.obj.Status none ::
            older :=
  assignReservedIP_success exampleReconciler Env.allOk exampleAssigning { PodName := "w1" }
    "10.0.0.7" "ocid.privateip" [] [] { Id := "ocid.subnet", CidrBlock := "10.0.0.0/24" }
    rfl (by decide) (fun _ => rfl) (fun h => absurd h (by decide))
    (fun _ => rfl) (fun _ h => absurd h (List.not_mem_nil _)) rfl (fun _ => rfl)
    (fun _ e h => by cases h; decide) (fun _ _ => rfl) (fun _ _ => rfl)
    (fun _ _ => rfl)

/-- C2 as stated fails. The object is in state `assigning` and its spec names the pod `w1`
only. Every call of the assign operation answers without error: the pod lookup with
`10.0.0.7`, the listing of the subnets with one subnet that contains the address, the
listing of the private addresses of that subnet with no entry. `assignReservedIP` returns
the error that the private address is not found, makes no further call, and the state
stays `assigning` with no realized assignment. -/
theorem assignReservedIP_address_not_listed_counterexample :
    exampleAssigning.obj.DeletionTimestampIsZero = true ∧
    exampleAssigning.obj.Status.State = "assigning" ∧
    exampleAssigning.obj.Spec.Assignment = some { PodName := "w1", PrivateIPAddress := "" } ∧
    assignReservedIP exampleReconciler Env.notListed exampleAssigning =
      (Flow.ret (some (fmtErrorf "Private IP 10.0.0.7 not found in VCN ")),
        { obj := exampleAssigning.obj
          trace :=
            [ Event.listPrivateIps "10.0.0.7" "ocid.subnet" (Answer.ok []),
              Event.listSubnets "" ""
                (Answer.ok [{ Id := "ocid.subnet", CidrBlock := "10.0.0.0/24" }]),
              Event.storeGetPod "default" "w1" (Answer.ok "10.0.0.7") ] }) ∧
    (assignReservedIP exampleReconciler Env.notListed exampleAssigning).2.obj.Status.State
      = "assigning" ∧
    (assignReservedIP exampleReconciler Env.notListed exampleAssigning).2.obj.Status.Assignment
      = none := by
  decide

/-- C3 fails on the code: the object is in state `assigning` and its own address
`ocid.publicip.R` is already the public address bound to the private address of pod `w1`
(a pass that crashed after the bind). The comparison `publicIP.Id == &reservedIP.Status.OCID`
compares addresses and is false, so `assignReservedIP` detaches `ocid.publicip.R` and binds
it again: two update calls. -/
theorem assignReservedIP_own_address_rebound :
    (assignReservedIP exampleReconciler Env.ownBound exampleAssigning).1 = Flow.ret none ∧
    (assignReservedIP exampleReconciler Env.ownBound exampleAssigning).2.trace =
      [ Event.storeStatusUpdate
          { State := "assigned", OCID := "ocid.publicip.R", PublicIPAddress := "192.0.2.1",
            Assignment := some { PodName := "w1", PrivateIPAddress := "10.0.0.7" },
            PrivateIPAddressID := "ocid.privateip" } none,
        Event.updatePublicIp
          { PublicIpId := "ocid.publicip.R", PrivateIpId := some "ocid.privateip" } none,
        Event.updatePublicIp { PublicIpId := "ocid.publicip.R", PrivateIpId := some "" } none,
        Event.getPublicIpByPrivateIpId "ocid.privateip"
          (Answer.ok { Id := "ocid.publicip.R", IpAddress := "192.0.2.1",
                       Lifetime := Lifetime.Reserved,
                       AssignedEntityId := some "ocid.privateip" }),
        Event.listPrivateIps "10.0.0.7" "ocid.subnet" (Answer.ok [{ Id := "ocid.privateip" }]),
        Event.listSubnets "" ""
          (Answer.ok [{ Id := "ocid.subnet", CidrBlock := "10.0.0.0/24" }]),
        Event.storeGetPod "default" "w1" (Answer.ok "10.0.0.7") ] := by
  decide

/-- Witness for C4: the ephemeral address `ocid.publicip.E` on the private address of pod
`w1`, and a later pass in the world where every call succeeds. -/
theorem eviction_restoration_round_trip_witness :
    ((assignReservedIP exampleReconciler Env.ephemeralBound exampleAssigning).1 = Flow.ret none ∧
      Event.deletePublicIp "ocid.publicip.E" none ∈
        (assignReservedIP exampleReconciler Env.ephemeralBound exampleAssigning).2.trace ∧
      (assignReservedIP exampleReconciler Env.ephemeralBound
        exampleAssigning).2.obj.Status.EphemeralIPWasUnassigned = true) ∧
    ((unassignReservedIP exampleReconciler Env.allOk { obj := exampleEvicted, trace := [] }).1
        = Flow.ret none ∧
      (∃ a, Event.createPublicIp
        { CompartmentId := "", Lifetime := Lifetime.Ephemeral,
          PrivateIpId := some "ocid.privateip" } (Answer.ok a)
          ∈ (unassignReservedIP exampleReconciler Env.allOk
              { obj := exampleEvicted, trace := [] }).2.trace) ∧
      (unassignReservedIP exampleReconciler Env.allOk
          { obj := exampleEvicted, trace := [] }).2.obj.Status =
        { exampleEvicted.Status with
          State := "allocated", Assignment := none, PrivateIPAddressID := "",
          EphemeralIPWasUnassigned := false } ∧
      ∃ older, (unassignReservedIP exampleReconciler Env.allOk
          { obj := exampleEvicted, trace := [] }).2.trace =
        Event.storeStatusUpdate
          (unassignReservedIP exampleReconciler Env.allOk
            { obj := exampleEvicted, trace := [] }).2.obj.Status none :: older) :=
  eviction_restoration_round_trip exampleReconciler Env.ephemeralBound Env.allOk
    exampleAssigning { PodName := "w1" } "10.0.0.7" "ocid.privateip"
    { Id := "ocid.publicip.E", IpAddress := "192.0.2.9", Lifetime := Lifetime.Ephemeral,
      AssignedEntityId := some "ocid.privateip" }
    exampleEvicted [] rfl (by decide) (fun _ => rfl) (fun h => absurd h (by decide))
    (by decide) (fun _ => rfl) rfl (fun _ _ => rfl) (fun _ _ => rfl) (fun _ _ => rfl)
    (by decide) (fun _ _ => rfl) (fun _ _ => ⟨_, rfl⟩) (fun _ _ => rfl)

/-! ## The release operation -/

theorem assignEphemeralIP_run (r : ReservedIPReconciler) (env : Env) (s : Run) :
    assignEphemeralIP r env s =
      match env.createPublicIp s.trace.length
          (assignEphemeralIP.input r s.obj) with
      | Answer.fail e =>
        (Flow.ret (some e),
          { s with
            trace := (Event.createPublicIp (assignEphemeralIP.input r s.obj)
              (Answer.fail e)) :: s.trace })
      | Answer.ok a =>
        (Flow.ret (env.storeStatusUpdate (s.trace.length + 1)
            { s.obj with Status := { s.obj.Status with EphemeralIPWasUnassigned := false } }),
          { obj := { s.obj with
              Status := { s.obj.Status with EphemeralIPWasUnassigned := false } }
            trace := Event.storeStatusUpdate
                { s.obj.Status with EphemeralIPWasUnassigned := false }
                (env.storeStatusUpdate (s.trace.length + 1)
                  { s.obj with
                    Status := { s.obj.Status with EphemeralIPWasUnassigned := false } }) ::
              (Event.createPublicIp (assignEphemeralIP.input r s.obj)
                (Answer.ok a) :: s.trace) }) := by
  simp only [assignEphemeralIP, bind_eq]
  simp
  cases env.createPublicIp s.trace.length _ with
  | fail e => rfl
  | ok a =>
    simp
    cases env.storeStatusUpdate (s.trace.length + 1) _ <;> rfl

theorem releaseReservedIP_run (r : ReservedIPReconciler) (env : Env) (s : Run) :
    releaseReservedIP r env s =
      match env.deletePublicIp s.trace.length s.obj.Status.OCID with
      | some e =>
        if stringsContains e.msg "NotAuthorizedOrNotFound" then
          if s.obj.Status.EphemeralIPWasUnassigned then
            assignEphemeralIP r env
              { s with trace := Event.deletePublicIp s.obj.Status.OCID (some e) :: s.trace }
          else
            (Flow.ret none,
              { s with trace := Event.deletePublicIp s.obj.Status.OCID (some e) :: s.trace })
        else
          (Flow.ret (some e),
            { s with trace := Event.deletePublicIp s.obj.Status.OCID (some e) :: s.trace })
      | none =>
        if s.obj.Status.EphemeralIPWasUnassigned then
          assignEphemeralIP r env
            { s with trace := Event.deletePublicIp s.obj.Status.OCID none :: s.trace }
        else
          (Flow.ret none,
            { s with trace := Event.deletePublicIp s.obj.Status.OCID none :: s.trace }) := by
  simp only [releaseReservedIP, bind_eq]
  simp
  cases env.deletePublicIp s.trace.length s.obj.Status.OCID with
  | none =>
    simp
    by_cases hfl : s.obj.Status.EphemeralIPWasUnassigned = true
    · simp [hfl]
      generalize assignEphemeralIP r env _ = res
      rcases res with ⟨fl, s2⟩
      cases fl with
      | next e => exact nomatch e
      | ret x => rfl
      | panic => rfl
    · simp [hfl]
  | some e =>
    by_cases hc : stringsContains e.msg "NotAuthorizedOrNotFound" = true
    · simp [hc]
      by_cases hfl : s.obj.Status.EphemeralIPWasUnassigned = true
      · simp [hfl]
        generalize assignEphemeralIP r env _ = res
        rcases res with ⟨fl, s2⟩
        cases fl with
        | next e => exact nomatch e
        | ret x => rfl
        | panic => rfl
      · simp [hfl]
    · simp [hc]

theorem deleting_releasing (r : ReservedIPReconciler) (env : Env) (s : Run) (started : Prop)
    (hfin : containsString s.obj.Finalizers r.finalizerName = true)
    (hocid : s.obj.Status.OCID ≠ "")
    (hst : s.obj.Status.State = "releasing")
    (hmem : ∀ d, Event.deletePublicIp s.obj.Status.OCID d ∉ s.trace)
    (hmem2 : ∀ o u, Event.storeUpdate o u ∉ s.trace) :
    ReleaseSpec r env s.obj.Status.OCID s.obj.Status.EphemeralIPWasUnassigned s.obj.Finalizers
      started (handleRequest.deleting r env s) := by
  have hocid2 : (s.obj.Status.OCID != "") = true := by simpa using hocid
  simp only [handleRequest.deleting, bind_eq]
  simp only [Pass.bind_apply, getObj_apply, hfin, goIf_apply, hocid2, if_true, hst,
    bne_self_eq_false, beq_self_eq_true, Bool.false_eq_true, if_false, call_apply,
    releaseReservedIP_run]
  cases hd : env.deletePublicIp s.trace.length s.obj.Status.OCID with
  | none =>
    by_cases hfl : s.obj.Status.EphemeralIPWasUnassigned = true
    · simp only [hfl, if_true, assignEphemeralIP_run]
      cases hc : env.createPublicIp (s.trace.length + 1)
        (assignEphemeralIP.input r s.obj) with
      | fail ce =>
        simp only [List.length_cons, hc]
        refine ⟨?_, ?_, ?_, ?_⟩
        · intro _; exact ⟨none, by simp⟩
        · intro derr _ _ hr
          obtain ⟨a, ha⟩ := (hr rfl).1 (s.trace.length + 1)
            (assignEphemeralIP.input r s.obj)
          rw [hc] at ha
          cases ha
        · intro e he
          simp [hmem] at he
        · intro o uerr ho
          simp [hmem2] at ho
      | ok a =>
        simp only [List.length_cons, hc]
        cases hw : env.storeStatusUpdate (s.trace.length + 1 + 1)
            { s.obj with Status := { s.obj.Status with EphemeralIPWasUnassigned := false } } with
        | some we =>
          simp only [returnIfErr_apply]
          refine ⟨?_, ?_, ?_, ?_⟩
          · intro _; exact ⟨none, by simp⟩
          · intro derr _ _ hr
            have := (hr rfl).2 (s.trace.length + 1 + 1)
              { s.obj with Status := { s.obj.Status with EphemeralIPWasUnassigned := false } }
            rw [hw] at this
            cases this
          · intro e he
            simp [hmem] at he
          · intro o uerr ho
            simp [hmem2] at ho
        | none =>
          simp only [returnIfErr_apply, modifyObj_apply, storeUpdate_apply, ret_apply]
          refine ⟨?_, ?_, ?_, ?_⟩
          · intro _; exact ⟨none, by simp⟩
          · intro derr _ _ _
            exact ⟨_, _, List.mem_cons_self _ _, rfl, rfl⟩
          · intro e he
            simp [hmem] at he
          · intro o uerr _
            exact ⟨none, by simp, Or.inl rfl⟩
    · simp only [hfl, Bool.false_eq_true, if_false, returnIfErr_apply, modifyObj_apply,
        storeUpdate_apply, ret_apply]
      refine ⟨?_, ?_, ?_, ?_⟩
      · intro _; exact ⟨none, by simp⟩
      · intro derr _ _ _
        exact ⟨_, _, List.mem_cons_self _ _, rfl, rfl⟩
      · intro e he
        simp [hmem] at he
      · intro o uerr _
        exact ⟨none, by simp, Or.inl rfl⟩
  | some e =>
    by_cases hcont : stringsContains e.msg "NotAuthorizedOrNotFound" = true
    · have hgone : goneOrDeleted (some e) := Or.inr ⟨e, rfl, hcont⟩
      simp only [hcont, if_true]
      by_cases hfl : s.obj.Status.EphemeralIPWasUnassigned = true
      · simp only [hfl, if_true, assignEphemeralIP_run]
        cases hc : env.createPublicIp (s.trace.length + 1)
          (assignEphemeralIP.input r s.obj) with
        | fail ce =>
          simp only [List.length_cons, hc]
          refine ⟨?_, ?_, ?_, ?_⟩
          · intro _; exact ⟨some e, by simp⟩
          · intro derr _ _ hr
            obtain ⟨a, ha⟩ := (hr rfl).1 (s.trace.length + 1)
              (assignEphemeralIP.input r s.obj)
            rw [hc] at ha
            cases ha
          · intro e2 he hne
            simp [hmem] at he
            subst he
            rw [hcont] at hne
            cases hne
          · intro o uerr ho
            simp [hmem2] at ho
        | ok a =>
          simp only [List.length_cons, hc]
          cases hw : env.storeStatusUpdate (s.trace.length + 1 + 1)
              { s.obj with Status := { s.obj.Status with EphemeralIPWasUnassigned := false } } with
          | some we =>
            simp only [returnIfErr_apply]
            refine ⟨?_, ?_, ?_, ?_⟩
            · intro _; exact ⟨some e, by simp⟩
            · intro derr _ _ hr
              have := (hr rfl).2 (s.trace.length + 1 + 1)
                { s.obj with Status := { s.obj.Status with EphemeralIPWasUnassigned := false } }
              rw [hw] at this
              cases this
            · intro e2 he hne
              simp [hmem] at he
              subst he
              rw [hcont] at hne
              cases hne
            · intro o uerr ho
              simp [hmem2] at ho
          | none =>
            simp only [returnIfErr_apply, modifyObj_apply, storeUpdate_apply, ret_apply]
            refine ⟨?_, ?_, ?_, ?_⟩
            · intro _; exact ⟨some e, by simp⟩
            · intro derr _ _ _
              exact ⟨_, _, List.mem_cons_self _ _, rfl, rfl⟩
            · intro e2 he hne
              simp [hmem] at he
              subst he
              rw [hcont] at hne
              cases hne
            · intro o uerr _
              exact ⟨some e, by simp, hgone⟩
      · simp only [hfl, Bool.false_eq_true, if_false, returnIfErr_apply, modifyObj_apply,
          storeUpdate_apply, ret_apply]
        refine ⟨?_, ?_, ?_, ?_⟩
        · intro _; exact ⟨some e, by simp⟩
        · intro derr _ _ _
          exact ⟨_, _, List.mem_cons_self _ _, rfl, rfl⟩
        · intro e2 he hne
          simp [hmem] at he
          subst he
          rw [hcont] at hne
          cases hne
        · intro o uerr _
          exact ⟨some e, by simp, hgone⟩
    · simp only [hcont, Bool.false_eq_true, if_false, returnIfErr_apply]
      refine ⟨?_, ?_, ?_, ?_⟩
      · intro _; exact ⟨some e, by simp⟩
      · intro derr hin hg
        simp [hmem] at hin
        subst hin
        rcases hg with hg | ⟨e2, he2, hc2⟩
        · cases hg
        · cases he2
          exact absurd hc2 hcont
      · intro e2 he _
        simp [hmem] at he
        subst he
        exact ⟨rfl, fun o uerr ho => hmem2 o uerr (by simpa using ho)⟩
      · intro o uerr ho
        simp [hmem2] at ho

theorem handleRequest_apply (r : ReservedIPReconciler) (env : Env) (s : Run) :
    handleRequest r env s =
      Pass.bind (if s.obj.DeletionTimestampIsZero then handleRequest.live r env
        else handleRequest.deleting r env) (fun _ => (ret none : Pass GoError Empty)) s := rfl

theorem ReleaseSpec_handleRequest (r : ReservedIPReconciler) (env : Env) (ocid : String)
    (flag : Bool) (finalizers : List String) (started : Prop) (m : Pass GoError Unit) (s : Run)
    (h : ReleaseSpec r env ocid flag finalizers started (m s)) :
    ReleaseSpec r env ocid flag finalizers started
      (Pass.bind m (fun _ => (ret none : Pass GoError Empty)) s) := by
  simp only [Pass.bind_apply]
  revert h
  generalize m s = res
  intro h
  rcases res with ⟨fl, s1⟩
  obtain ⟨hA, hB, hC, hD⟩ := h
  cases fl with
  | next u =>
    refine ⟨hA, ?_, ?_, hD⟩
    · intro derr h1 h2 h3
      obtain ⟨_, _, _, _, h4⟩ := hB derr h1 h2 h3
      cases h4
    · intro e h1 h2
      have := (hC e h1 h2).1
      cases this
  | ret x =>
    refine ⟨hA, ?_, ?_, hD⟩
    · intro derr h1 h2 h3
      obtain ⟨o, u, h4, h5, h6⟩ := hB derr h1 h2 h3
      cases h6
      exact ⟨o, _, h4, h5, rfl⟩
    · intro e h1 h2
      obtain ⟨h3, h4⟩ := hC e h1 h2
      cases h3
      exact ⟨rfl, h4⟩
  | panic =>
    refine ⟨hA, ?_, ?_, hD⟩
    · intro derr h1 h2 h3
      obtain ⟨_, _, _, _, h4⟩ := hB derr h1 h2 h3
      cases h4
    · intro e h1 h2
      have := (hC e h1 h2).1
      cases this

theorem deleting_first_write (r : ReservedIPReconciler) (env : Env) (s : Run)
    (hfin : containsString s.obj.Finalizers r.finalizerName = true)
    (hocid : s.obj.Status.OCID ≠ "")
    (hst : s.obj.Status.State ≠ "releasing") :
    handleRequest.deleting r env s =
      match env.storeStatusUpdate s.trace.length
          { s.obj with Status := { s.obj.Status with State := "releasing" } } with
      | some e =>
        (Flow.ret (some e),
          { obj := { s.obj with Status := { s.obj.Status with State := "releasing" } }
            trace := (Event.storeStatusUpdate { s.obj.Status with State := "releasing" }
              (some e)) :: s.trace })
      | none =>
        handleRequest.deleting r env
          { obj := { s.obj with Status := { s.obj.Status with State := "releasing" } }
            trace := (Event.storeStatusUpdate { s.obj.Status with State := "releasing" }
              none) :: s.trace } := by
  have hocid2 : (s.obj.Status.OCID != "") = true := by simpa using hocid
  have hst2 : (s.obj.Status.State != "releasing") = true := by simpa using hst
  simp only [handleRequest.deleting, bind_eq]
  simp only [Pass.bind_apply, getObj_apply, hfin, goIf_apply, hocid2, if_true, hst2,
    modifyStatus_apply, statusUpdate_apply]
  cases env.storeStatusUpdate s.trace.length _ with
  | some e => rfl
  | none => simp

theorem release_pass (r : ReservedIPReconciler) (env : Env) (reservedIP : ReservedIP)
    (hdel : reservedIP.DeletionTimestampIsZero = false)
    (hfin : containsString reservedIP.Finalizers r.finalizerName = true)
    (hocid : reservedIP.Status.OCID ≠ "") :
    ReleaseSpec r env reservedIP.Status.OCID reservedIP.Status.EphemeralIPWasUnassigned
      reservedIP.Finalizers
      (reservedIP.Status.State = "releasing" ∨
        env.storeStatusUpdate 0
          { reservedIP with Status := { reservedIP.Status with State := "releasing" } } = none)
      (runHandleRequest r env reservedIP) := by
  simp only [runHandleRequest, handleRequest_apply, hdel, Bool.false_eq_true, if_false]
  apply ReleaseSpec_handleRequest
  by_cases hst : reservedIP.Status.State = "releasing"
  · exact deleting_releasing r env { obj := reservedIP } _ hfin hocid hst (by simp) (by simp)
  · rw [deleting_first_write r env { obj := reservedIP } hfin hocid hst]
    cases hw : env.storeStatusUpdate 0
        { reservedIP with Status := { reservedIP.Status with State := "releasing" } } with
    | some e =>
      simp only [List.length_nil, hw]
      refine ⟨?_, ?_, ?_, ?_⟩
      · rintro (h | h)
        · exact absurd h hst
        · have h2 := hw
          simp only [hdel] at h2
          rw [h2] at h
          cases h
      · intro derr h; simp at h
      · intro e2 h; simp at h
      · intro o u h; simp at h
    | none =>
      simp only [List.length_nil, hw]
      exact deleting_releasing r env
        { obj := { reservedIP with Status := { reservedIP.Status with State := "releasing" } }
          trace := [Event.storeStatusUpdate { reservedIP.Status with State := "releasing" } none] }
        _ hfin hocid rfl (by simp) (by simp)

/-- The deletion branch when the store refuses the status write that records `releasing`:
the pass returns the error of the write, and the write is its only call. -/
theorem release_refused (r : ReservedIPReconciler) (env : Env) (reservedIP : ReservedIP)
    (e : GoErr)
    (hdel : reservedIP.DeletionTimestampIsZero = false)
    (hfin : containsString reservedIP.Finalizers r.finalizerName = true)
    (hocid : reservedIP.Status.OCID ≠ "")
    (hst : reservedIP.Status.State ≠ "releasing")
    (hw : env.storeStatusUpdate 0
      { reservedIP with Status := { reservedIP.Status with State := "releasing" } } = some e) :
    (runHandleRequest r env reservedIP).1 = Flow.ret (some e) ∧
      (runHandleRequest r env reservedIP).2.trace =
        [Event.storeStatusUpdate { reservedIP.Status with State := "releasing" } (some e)] := by
  simp only [runHandleRequest, handleRequest_apply, hdel, Bool.false_eq_true, if_false,
    Pass.bind_apply]
  rw [deleting_first_write r env { obj := reservedIP } hfin hocid hst]
  simp only [List.length_nil, hw]
  exact ⟨trivial, trivial⟩

/-- C5 as amended. Take an object that is being deleted, carries the finalizer and has a
non-empty OCID. (1) If its state already is `releasing` or the store accepts the status
write that records `releasing`, made as first call, the pass issues the delete of the OCID.
(2) If the store refuses that write, the pass returns the error of the write and makes no
other call: no delete and no store update. (3) If the delete succeeds or reports
`NotAuthorizedOrNotFound` (and, when the eviction flag is set, the create of the ephemeral
address and the status writes succeed), the pass issues the store update that drops the
finalizer and returns its result. (4) If the delete fails with another error, the pass
returns that error and issues no store update. (5) Whatever the outside world answers, a
store update is issued only after a delete of the OCID that succeeded or reported
`NotAuthorizedOrNotFound`. -/
theorem release_before_finalizer (r : ReservedIPReconciler) (env : Env)
    (reservedIP : ReservedIP)
    (hdel : reservedIP.DeletionTimestampIsZero = false)
    (hfin : containsString reservedIP.Finalizers r.finalizerName = true)
    (hocid : reservedIP.Status.OCID ≠ "") :
    ((reservedIP.Status.State = "releasing" ∨
        env.storeStatusUpdate 0
          { reservedIP with Status := { reservedIP.Status with State := "releasing" } } = none) →
      ∃ derr, Event.deletePublicIp reservedIP.Status.OCID derr ∈
        (runHandleRequest r env reservedIP).2.trace) ∧
    (∀ e, reservedIP.Status.State ≠ "releasing" →
      env.storeStatusUpdate 0
        { reservedIP with Status := { reservedIP.Status with State := "releasing" } } = some e →
      (runHandleRequest r env reservedIP).1 = Flow.ret (some e) ∧
      (runHandleRequest r env reservedIP).2.trace =
        [Event.storeStatusUpdate { reservedIP.Status with State := "releasing" } (some e)]) ∧
    (∀ derr, Event.deletePublicIp reservedIP.Status.OCID derr ∈
        (runHandleRequest r env reservedIP).2.trace → goneOrDeleted derr →
      (reservedIP.Status.EphemeralIPWasUnassigned = true →
        (∀ n req, ∃ a, env.createPublicIp n req = Answer.ok a) ∧
        (∀ n o, env.storeStatusUpdate n o = none)) →
      ∃ finalObj uerr, Event.storeUpdate finalObj uerr ∈
          (runHandleRequest r env reservedIP).2.trace ∧
        finalObj.Finalizers = removeString reservedIP.Finalizers r.finalizerName ∧
        (runHandleRequest r env reservedIP).1 = Flow.ret uerr) ∧
    (∀ e, Event.deletePublicIp reservedIP.Status.OCID (some e) ∈
        (runHandleRequest r env reservedIP).2.trace →
      stringsContains e.msg "NotAuthorizedOrNotFound" = false →
      (runHandleRequest r env reservedIP).1 = Flow.ret (some e) ∧
      ∀ o uerr, Event.storeUpdate o uerr ∉ (runHandleRequest r env reservedIP).2.trace) ∧
    (∀ o uerr, Event.storeUpdate o uerr ∈ (runHandleRequest r env reservedIP).2.trace →
      ∃ derr, Event.deletePublicIp reservedIP.Status.OCID derr ∈
        (runHandleRequest r env reservedIP).2.trace ∧ goneOrDeleted derr) := by
  obtain ⟨h1, h2, h3, h4⟩ := release_pass r env reservedIP hdel hfin hocid
  exact ⟨h1, fun e hst hw => release_refused r env reservedIP e hdel hfin hocid hst hw,
    h2, h3, h4⟩

/-- Witness for C5: the deletion of an assigned object in the world where every call
succeeds. -/
theorem release_before_finalizer_witness :
    ∃ derr, Event.deletePublicIp "ocid.publicip.R" derr ∈
      (runHandleRequest exampleReconciler Env.allOk exampleDeleting).2.trace :=
  (release_before_finalizer exampleReconciler Env.allOk exampleDeleting rfl (by decide)
    (by decide)).1 (Or.inr rfl)

/-- C5 as stated fails: the object is being deleted, carries the finalizer and has an OCID,
but the store refuses the status write that records `releasing`; the pass returns that
error and issues no delete. -/
theorem release_refused_write_counterexample :
    exampleDeleting.DeletionTimestampIsZero = false ∧
    containsString exampleDeleting.Finalizers exampleReconciler.finalizerName = true ∧
    exampleDeleting.Status.OCID ≠ "" ∧
    (runHandleRequest exampleReconciler Env.statusRefused exampleDeleting).1 =
      Flow.ret (some { msg := "Conflict" }) ∧
    ¬ ∃ derr, Event.deletePublicIp exampleDeleting.Status.OCID derr ∈
      (runHandleRequest exampleReconciler Env.statusRefused exampleDeleting).2.trace := by
  refine ⟨rfl, by decide, by decide, by decide, ?_⟩
  have h : (runHandleRequest exampleReconciler Env.statusRefused exampleDeleting).2.trace =
      [Event.storeStatusUpdate { exampleDeleting.Status with State := "releasing" }
        (some { msg := "Conflict" })] := by decide
  rw [h]
  simp

/-! ## The allocate operation -/

/-- What `reconcileTags` does. -/
theorem reconcileTags_run (env : Env) (existingTags : GoMap) (s : Run) :
    reconcileTags env existingTags s =
      match s.obj.Spec.Tags with
      | some tags =>
        if deepEqualMap tags existingTags then (Flow.ret none, s)
        else
          (Flow.ret (env.updatePublicIp s.trace.length
              { PublicIpId := s.obj.Status.OCID, FreeformTags := tags }),
            { s with
              trace := (Event.updatePublicIp
                { PublicIpId := s.obj.Status.OCID, FreeformTags := tags }
                (env.updatePublicIp s.trace.length
                  { PublicIpId := s.obj.Status.OCID, FreeformTags := tags })) :: s.trace })
      | none => (Flow.ret none, s) := by
  simp only [reconcileTags, bind_eq]
  simp
  cases s.obj.Spec.Tags with
  | none => rfl
  | some tags =>
    by_cases h : deepEqualMap tags existingTags = true <;> simp [h]

/-- What `allocateReservedIP` does. -/
theorem allocateReservedIP_run (r : ReservedIPReconciler) (env : Env) (s : Run) :
    allocateReservedIP r env s =
      match env.createPublicIp s.trace.length (allocateReservedIP.input r s.obj) with
      | Answer.fail e =>
        (Flow.ret (some e),
          { s with
            trace := (Event.createPublicIp (allocateReservedIP.input r s.obj)
              (Answer.fail e)) :: s.trace })
      | Answer.ok resp =>
        match env.storeStatusUpdate (s.trace.length + 1)
            { s.obj with
              Status := { s.obj.Status with
                State := "allocated", OCID := resp.Id, PublicIPAddress := resp.IpAddress } } with
        | some e =>
          (Flow.ret (some e),
            { obj := { s.obj with
                Status := { s.obj.Status with
                  State := "allocated", OCID := resp.Id, PublicIPAddress := resp.IpAddress } }
              trace := (Event.storeStatusUpdate
                  { s.obj.Status with
                    State := "allocated", OCID := resp.Id, PublicIPAddress := resp.IpAddress }
                  (some e)) ::
                (Event.createPublicIp (allocateReservedIP.input r s.obj) (Answer.ok resp) ::
                  s.trace) })
        | none =>
          reconcileTags env resp.FreeformTags
            { obj := { s.obj with
                Status := { s.obj.Status with
                  State := "allocated", OCID := resp.Id, PublicIPAddress := resp.IpAddress } }
              trace := (Event.storeStatusUpdate
                  { s.obj.Status with
                    State := "allocated", OCID := resp.Id, PublicIPAddress := resp.IpAddress }
                  none) ::
                (Event.createPublicIp (allocateReservedIP.input r s.obj) (Answer.ok resp) ::
                  s.trace) } := by
  simp only [allocateReservedIP, bind_eq]
  simp
  cases env.createPublicIp s.trace.length _ with
  | fail e => rfl
  | ok resp =>
    simp
    cases env.storeStatusUpdate (s.trace.length + 1) _ with
    | some e => rfl
    | none =>
      simp
      generalize reconcileTags env resp.FreeformTags _ = res
      rcases res with ⟨fl, s2⟩
      cases fl with
      | next e => exact nomatch e
      | ret x => rfl
      | panic => rfl

/-- The create calls that `allocateReservedIP` adds to the trace are the one call with
the request `allocateReservedIP.input`. -/
theorem allocateReservedIP_creates (r : ReservedIPReconciler) (env : Env) (s : Run)
    (req : CreatePublicIpRequest) (res : Answer PublicIp)
    (h : Event.createPublicIp req res ∈ (allocateReservedIP r env s).2.trace) :
    Event.createPublicIp req res ∈ s.trace ∨
      (req = allocateReservedIP.input r s.obj ∧
        res = env.createPublicIp s.trace.length (allocateReservedIP.input r s.obj)) := by
  rw [allocateReservedIP_run] at h
  cases hc : env.createPublicIp s.trace.length (allocateReservedIP.input r s.obj) with
  | fail e =>
    rw [hc] at h
    simp at h
    rcases h with h | h
    · exact Or.inr ⟨h.1, h.2⟩
    · exact Or.inl h
  | ok resp =>
    rw [hc] at h
    simp only at h
    cases hw : env.storeStatusUpdate (s.trace.length + 1)
        { s.obj with
          Status := { s.obj.Status with
            State := "allocated", OCID := resp.Id, PublicIPAddress := resp.IpAddress } } with
    | some e =>
      rw [hw] at h
      simp at h
      rcases h with h | h
      · exact Or.inr ⟨h.1, h.2⟩
      · exact Or.inl h
    | none =>
      rw [hw, reconcileTags_run] at h
      simp only at h
      split at h
      · split at h
        · simp at h
          rcases h with h | h
          · exact Or.inr ⟨h.1, h.2⟩
          · exact Or.inl h
        · simp at h
          rcases h with h | h
          · exact Or.inr ⟨h.1, h.2⟩
          · exact Or.inl h
      · simp at h
        rcases h with h | h
        · exact Or.inr ⟨h.1, h.2⟩
        · exact Or.inl h

/-- The token and lifetime of the request of `allocateReservedIP`. -/
theorem allocateInput_token (r : ReservedIPReconciler) (reservedIP : ReservedIP) :
    (allocateReservedIP.input r reservedIP).OpcRetryToken = some reservedIP.UID ∧
      (allocateReservedIP.input r reservedIP).Lifetime = Lifetime.Reserved := by
  unfold allocateReservedIP.input
  cases reservedIP.Spec.Tags <;> by_cases h : reservedIP.Spec.PublicIPPoolID = "" <;> simp [h]

/-- What the second attempt of `allocateReservedIP` records when its create call answers
with `resp`: the OCID in memory and in the status write is `resp.Id`. -/
theorem allocateReservedIP_records (r : ReservedIPReconciler) (env : Env) (s : Run)
    (resp : PublicIp)
    (hc : env.createPublicIp s.trace.length (allocateReservedIP.input r s.obj) = Answer.ok resp) :
    (allocateReservedIP r env s).2.obj.Status.OCID = resp.Id ∧
      (allocateReservedIP r env s).2.obj.Status.State = "allocated" ∧
      ∃ err, Event.storeStatusUpdate
        { s.obj.Status with
          State := "allocated", OCID := resp.Id, PublicIPAddress := resp.IpAddress } err ∈
        (allocateReservedIP r env s).2.trace := by
  rw [allocateReservedIP_run, hc]
  simp only
  cases hw : env.storeStatusUpdate (s.trace.length + 1)
      { s.obj with
        Status := { s.obj.Status with
          State := "allocated", OCID := resp.Id, PublicIPAddress := resp.IpAddress } } with
  | some e => exact ⟨rfl, rfl, some e, by simp⟩
  | none =>
    simp only [reconcileTags_run]
    split
    · split
      · exact ⟨rfl, rfl, none, by simp⟩
      · exact ⟨rfl, rfl, none, by simp⟩
    · exact ⟨rfl, rfl, none, by simp⟩

/-- The calls of `allocateReservedIP`: the create with the request `allocateReservedIP.input`
comes first and is the only create; when it is answered with `resp`, the status write that
follows it carries state `allocated`, the OCID `resp.Id` and the address of `resp`, which
are also what the object in memory holds at the end. -/
theorem allocateReservedIP_calls (r : ReservedIPReconciler) (env : Env) (s : Run) :
    ∃ later, (allocateReservedIP r env s).2.trace =
        later ++ Event.createPublicIp (allocateReservedIP.input r s.obj)
          (env.createPublicIp s.trace.length (allocateReservedIP.input r s.obj)) :: s.trace ∧
      (∀ req res, Event.createPublicIp req res ∉ later) ∧
      (∀ e, env.createPublicIp s.trace.length (allocateReservedIP.input r s.obj) = Answer.fail e →
        later = [] ∧ (allocateReservedIP r env s).1 = Flow.ret (some e) ∧
        (allocateReservedIP r env s).2.obj = s.obj) ∧
      (∀ resp, env.createPublicIp s.trace.length (allocateReservedIP.input r s.obj) =
          Answer.ok resp →
        (allocateReservedIP r env s).2.obj.Status =
          { s.obj.Status with
            State := "allocated", OCID := resp.Id, PublicIPAddress := resp.IpAddress } ∧
        ∃ err newer, later = newer ++
          [Event.storeStatusUpdate
            { s.obj.Status with
              State := "allocated", OCID := resp.Id, PublicIPAddress := resp.IpAddress } err]) := by
  rw [allocateReservedIP_run]
  cases hc : env.createPublicIp s.trace.length (allocateReservedIP.input r s.obj) with
  | fail e =>
    refine ⟨[], rfl, by simp, ?_, ?_⟩
    · intro e2 h
      cases h
      exact ⟨rfl, rfl, rfl⟩
    · intro resp h
      cases h
  | ok resp =>
    simp only
    cases hw : env.storeStatusUpdate (s.trace.length + 1)
        { s.obj with
          Status := { s.obj.Status with
            State := "allocated", OCID := resp.Id, PublicIPAddress := resp.IpAddress } } with
    | some e =>
      refine ⟨[_], rfl, by simp, ?_, ?_⟩
      · intro e2 h
        cases h
      · intro resp2 h
        cases h
        exact ⟨rfl, some e, [], rfl⟩
    | none =>
      simp only [reconcileTags_run]
      split
      · split
        · refine ⟨[_], rfl, by simp, ?_, ?_⟩
          · intro e2 h
            cases h
          · intro resp2 h
            cases h
            exact ⟨rfl, none, [], rfl⟩
        · refine ⟨[_, _], rfl, by simp, ?_, ?_⟩
          · intro e2 h
            cases h
          · intro resp2 h
            cases h
            exact ⟨rfl, none, [_], rfl⟩
      · refine ⟨[_], rfl, by simp, ?_, ?_⟩
        · intro e2 h
          cases h
        · intro resp2 h
          cases h
          exact ⟨rfl, none, [], rfl⟩

/-- C6. Run `allocateReservedIP` on two objects with the same UID, which may differ in
every other field (a first attempt, and a second attempt after a crash), in any two worlds.
Each attempt issues a create call as its first call and no other create; the request of
each carries the UID as its retry token and lifetime `Reserved`, so the two tokens are
equal. Against a cloud whose create answers two requests with the same token with the same
identifier, if the create of the first attempt was answered with `a1` and the create of the
second is answered, the second attempt leaves in memory state `allocated` with the OCID
`a1.Id`, and the call that follows its create is the status write that carries this
OCID. -/
theorem allocate_at_most_once (r : ReservedIPReconciler) (env1 env2 : Env) (s1 s2 : Run)
    (hUID : s1.obj.UID = s2.obj.UID)
    (hidem : ∀ token n1 n2 q1 q2 a1 a2, q1.OpcRetryToken = some token →
      q2.OpcRetryToken = some token → env1.createPublicIp n1 q1 = Answer.ok a1 →
      env2.createPublicIp n2 q2 = Answer.ok a2 → a1.Id = a2.Id) :
    ∃ q1 q2 later1 later2,
      (allocateReservedIP r env1 s1).2.trace =
        later1 ++ Event.createPublicIp q1 (env1.createPublicIp s1.trace.length q1) :: s1.trace ∧
      (allocateReservedIP r env2 s2).2.trace =
        later2 ++ Event.createPublicIp q2 (env2.createPublicIp s2.trace.length q2) :: s2.trace ∧
      (∀ req res, Event.createPublicIp req res ∉ later1) ∧
      (∀ req res, Event.createPublicIp req res ∉ later2) ∧
      q1.OpcRetryToken = some s1.obj.UID ∧ q1.Lifetime = Lifetime.Reserved ∧
      q2.OpcRetryToken = some s1.obj.UID ∧ q2.Lifetime = Lifetime.Reserved ∧
      ∀ a1 a2, env1.createPublicIp s1.trace.length q1 = Answer.ok a1 →
        env2.createPublicIp s2.trace.length q2 = Answer.ok a2 →
        (allocateReservedIP r env2 s2).2.obj.Status.OCID = a1.Id ∧
        (allocateReservedIP r env2 s2).2.obj.Status.State = "allocated" ∧
        ∃ status err newer, status.OCID = a1.Id ∧ status.State = "allocated" ∧
          later2 = newer ++ [Event.storeStatusUpdate status err] := by
  obtain ⟨later1, ht1, hn1, _, _⟩ := allocateReservedIP_calls r env1 s1
  obtain ⟨later2, ht2, hn2, _, hok2⟩ := allocateReservedIP_calls r env2 s2
  have hk1 := allocateInput_token r s1.obj
  have hk2 := allocateInput_token r s2.obj
  rw [← hUID] at hk2
  refine ⟨_, _, later1, later2, ht1, ht2, hn1, hn2, hk1.1, hk1.2, hk2.1, hk2.2, ?_⟩
  intro a1 a2 h1 h2
  have hid := hidem _ _ _ _ _ _ _ hk1.1 hk2.1 h1 h2
  obtain ⟨hst, err, newer, hl⟩ := hok2 a2 h2
  rw [hst]
  exact ⟨hid.symm, rfl, _, err, newer, hid.symm, rfl, hl⟩

/-- Witness for C6: a first attempt and, after a crash, a second attempt on the same UID
with a changed spec, against a cloud that is idempotent per token and answers creates
without a token per private address: the second attempt records the OCID that the token
`uid-1` names, in state `allocated`. -/
theorem allocate_at_most_once_witness :
    (allocateReservedIP exampleReconciler Env.idempotent exampleAllocatingAgain).2.obj.Status.OCID
        = "ocid.publicip.uid-1" ∧
      (allocateReservedIP exampleReconciler Env.idempotent
        exampleAllocatingAgain).2.obj.Status.State = "allocated" := by
  obtain ⟨q1, q2, _, _, _, _, _, _, hk1, _, hk2, _, hrec⟩ :=
    allocate_at_most_once exampleReconciler Env.idempotent Env.idempotent
      exampleAllocating exampleAllocatingAgain rfl
      (fun token _ _ q1 q2 a1 a2 h1 h2 h3 h4 => by
        simp only [Env.idempotent, h1, h2] at h3 h4
        cases h3
        cases h4
        rfl)
  have c1 : Env.idempotent.createPublicIp exampleAllocating.trace.length q1 =
      Answer.ok { Id := "ocid.publicip." ++ "uid-1", IpAddress := "192.0.2.1" } := by
    simp only [Env.idempotent, hk1]
    rfl
  have c2 : Env.idempotent.createPublicIp exampleAllocatingAgain.trace.length q2 =
      Answer.ok { Id := "ocid.publicip." ++ "uid-1", IpAddress := "192.0.2.1" } := by
    simp only [Env.idempotent, hk2]
    rfl
  have h := hrec _ _ c1 c2
  exact ⟨h.1.trans (by decide), h.2.1⟩

/-! ## Invalid assignment descriptors -/

theorem assignReservedIP_invalid (r : ReservedIPReconciler) (env : Env) (s : Run)
    (a : ReservedIPAssignment) (hspec : s.obj.Spec.Assignment = some a)
    (hv : ((a.PodName == "") == (a.PrivateIPAddress == "")) = true) :
    assignReservedIP r env s = (Flow.ret (some validationError), s) := by
  simp only [assignReservedIP, bind_eq, Pass.bind_apply, getObj_apply]
  rw [hspec]
  simp only [goIf_apply, hv, if_true, Pass.bind_apply, ret_apply]

theorem transitions_invalid (r : ReservedIPReconciler) (env : Env) (addr : PublicIp) (s : Run)
    (a : ReservedIPAssignment)
    (hstate : s.obj.Status.State = "assigning" ∨ s.obj.Status.State = "reassigning")
    (hspec : s.obj.Spec.Assignment = some a)
    (hsel : (a.PodName == "") = (a.PrivateIPAddress == "")) :
    handleRequest.transitions r env addr s =
      if a.PodName = "" then (Flow.next (), s) else (Flow.ret (some validationError), s) := by
  simp only [handleRequest.transitions, bind_eq]
  by_cases hp : a.PodName = ""
  · have hq : a.PrivateIPAddress = "" := by simpa [hp] using hsel
    rcases hstate with h | h <;>
      simp [h, hspec, hp, hq]
  · have hq : a.PrivateIPAddress ≠ "" := by
      intro hq
      simp [hp, hq] at hsel
    have hv : ((a.PodName == "") == (a.PrivateIPAddress == "")) = true := by simp [hp, hq]
    have hassign := assignReservedIP_invalid r env s a hspec hv
    rcases hstate with h | h <;>
      simp [h, hspec, hp, hq, hassign]

theorem invalid_core (r : ReservedIPReconciler) (env : Env) (reservedIP : ReservedIP)
    (a : ReservedIPAssignment)
    (hlive : reservedIP.DeletionTimestampIsZero = true)
    (hstate : reservedIP.Status.State = "assigning" ∨ reservedIP.Status.State = "reassigning")
    (hspec : reservedIP.Spec.Assignment = some a)
    (hsel : (a.PodName == "") = (a.PrivateIPAddress == "")) :
    InvalidSpec r env reservedIP a (runHandleRequest r env reservedIP) := by
  simp only [runHandleRequest, handleRequest_apply, hlive, if_true, handleRequest.live, bind_eq]
  have h1 : (reservedIP.Status.State == "") = false := by
    rcases hstate with h | h <;> simp [h]
  have h2 : (reservedIP.Status.State == "allocating") = false := by
    rcases hstate with h | h <;> simp [h]
  by_cases hfin : containsString reservedIP.Finalizers r.finalizerName = true
  · simp only [Pass.bind_apply, getObj_apply, goIf_apply, hfin, Bool.not_true,
      Bool.false_eq_true, if_false, h1, h2, vncGetPublicIp_apply, List.length_nil]
    cases hg : env.getPublicIp 0 reservedIP.Status.OCID with
    | fail e =>
      simp only [ret_apply]
      refine ⟨?_, ?_, rfl, ?_⟩
      · intro e he; simp at he; subst he; rfl
      · intro st err he; simp at he
      · intro _ ⟨addr, haddr⟩
        rw [hg] at haddr
        cases haddr
    | ok addr =>
      simp only [Pass.bind_apply, call_apply, reconcileTags_run]
      cases ht : reservedIP.Spec.Tags with
      | none =>
        simp only [returnIfErr_apply]
        rw [transitions_invalid r env addr _ a hstate hspec hsel]
        by_cases hp : a.PodName = ""
        · simp only [hp, if_true, ret_apply]
          refine ⟨?_, ?_, rfl, ?_⟩
          · intro e he; simp at he; subst he; rfl
          · intro st err he; simp at he
          · intro _ _ _
            exact ⟨fun h => absurd hp h, fun _ => rfl⟩
        · simp only [hp, if_false]
          refine ⟨?_, ?_, rfl, ?_⟩
          · intro e he; simp at he; subst he; rfl
          · intro st err he; simp at he
          · intro _ _ _
            exact ⟨fun _ => rfl, fun h => absurd h hp⟩
      | some tags =>
        by_cases hde : deepEqualMap tags addr.FreeformTags = true
        · simp only [hde, if_true, returnIfErr_apply]
          rw [transitions_invalid r env addr _ a hstate hspec hsel]
          by_cases hp : a.PodName = ""
          · simp only [hp, if_true, ret_apply]
            refine ⟨?_, ?_, rfl, ?_⟩
            · intro e he; simp at he; subst he; rfl
            · intro st err he; simp at he
            · intro _ _ _
              exact ⟨fun h => absurd hp h, fun _ => rfl⟩
          · simp only [hp, if_false]
            refine ⟨?_, ?_, rfl, ?_⟩
            · intro e he; simp at he; subst he; rfl
            · intro st err he; simp at he
            · intro _ _ _
              exact ⟨fun _ => rfl, fun h => absurd h hp⟩
        · simp only [hde, Bool.false_eq_true, if_false, List.length_cons, List.length_nil]
          cases hu : env.updatePublicIp (0 + 1)
              { PublicIpId := reservedIP.Status.OCID, FreeformTags := tags } with
          | some ue =>
            simp only [returnIfErr_apply]
            refine ⟨?_, ?_, rfl, ?_⟩
            · intro e he
              simp at he
              rcases he with he | he <;> subst he <;> rfl
            · intro st err he; simp at he
            · intro _ _ hall
              rw [hall] at hu
              cases hu
          | none =>
            simp only [returnIfErr_apply]
            rw [transitions_invalid r env addr _ a hstate hspec hsel]
            by_cases hp : a.PodName = ""
            · simp only [hp, if_true, ret_apply]
              refine ⟨?_, ?_, rfl, ?_⟩
              · intro e he
                simp at he
                rcases he with he | he <;> subst he <;> rfl
              · intro st err he; simp at he
              · intro _ _ _
                exact ⟨fun h => absurd hp h, fun _ => rfl⟩
            · simp only [hp, if_false]
              refine ⟨?_, ?_, rfl, ?_⟩
              · intro e he
                simp at he
                rcases he with he | he <;> subst he <;> rfl
              · intro st err he; simp at he
              · intro _ _ _
                exact ⟨fun _ => rfl, fun h => absurd h hp⟩
  · simp only [Pass.bind_apply, getObj_apply, goIf_apply, hfin, Bool.not_false, if_true,
      modifyObj_apply, storeUpdate_apply, ret_apply]
    refine ⟨?_, ?_, rfl, ?_⟩
    · intro e he; simp at he; subst he; rfl
    · intro st err he; simp at he
    · intro h
      exact absurd h hfin

/-- C8 as amended. Take a live object in state `assigning` or `reassigning` whose spec
descriptor has both selectors set or neither. Whatever the outside world answers, the pass
issues no bind, detach or delete call, writes no status, and leaves the status in memory as
it was. If the pass reaches the assign step (the finalizer is present, `GetPublicIp`
answers, the tag update is accepted), then with both selectors set it returns the
validation error, and with neither set it returns nil. -/
theorem invalid_descriptor_pass (r : ReservedIPReconciler) (env : Env) (reservedIP : ReservedIP)
    (a : ReservedIPAssignment)
    (hlive : reservedIP.DeletionTimestampIsZero = true)
    (hstate : reservedIP.Status.State = "assigning" ∨ reservedIP.Status.State = "reassigning")
    (hspec : reservedIP.Spec.Assignment = some a)
    (hsel : (a.PodName == "") = (a.PrivateIPAddress == "")) :
    (∀ e ∈ (runHandleRequest r env reservedIP).2.trace, e.isBindDetachOrDelete = false) ∧
    (∀ st err, Event.storeStatusUpdate st err ∉ (runHandleRequest r env reservedIP).2.trace) ∧
    (runHandleRequest r env reservedIP).2.obj.Status = reservedIP.Status ∧
    (containsString reservedIP.Finalizers r.finalizerName = true →
      (∃ addr, env.getPublicIp 0 reservedIP.Status.OCID = Answer.ok addr) →
      (∀ n req, env.updatePublicIp n req = none) →
      (a.PodName ≠ "" →
        (runHandleRequest r env reservedIP).1 = Flow.ret (some validationError)) ∧
      (a.PodName = "" → (runHandleRequest r env reservedIP).1 = Flow.ret none)) :=
  invalid_core r env reservedIP a hlive hstate hspec hsel

/-- Witness for C8: both selectors set, in the world where every call succeeds. -/
theorem invalid_descriptor_pass_witness :
    (runHandleRequest exampleReconciler Env.allOk exampleBothSelectors).1 =
      Flow.ret (some validationError) :=
  ((invalid_descriptor_pass exampleReconciler Env.allOk exampleBothSelectors
    { PodName := "w1", PrivateIPAddress := "10.0.0.7" } rfl (Or.inl rfl) rfl
    (by decide)).2.2.2 (by decide) ⟨_, rfl⟩ (fun _ _ => rfl)).1 (by decide)

/-- C8 as stated fails: the object is live, in state `assigning`, and its spec descriptor
has neither selector set; every call succeeds and the pass returns nil, not a validation
error. -/
theorem invalid_descriptor_neither_counterexample :
    exampleNoSelector.DeletionTimestampIsZero = true ∧
    exampleNoSelector.Status.State = "assigning" ∧
    exampleNoSelector.Spec.Assignment = some { PodName := "", PrivateIPAddress := "" } ∧
    (runHandleRequest exampleReconciler Env.allOk exampleNoSelector).1 = Flow.ret none := by
  decide

/-! ## The association reconciler -/

/-- C9 as amended. Take a live association without the finalizer whose reserved address
is fetched. If the state of the reserved address is not `allocated` or it has a spec
assignment, the pass returns an error and issues no store update of either object. If the
state is `allocated` and there is no spec assignment, the pass issues the store update of
the reserved address with the descriptor of the association as spec assignment; if the
store accepts it, the pass issues the store update of the association with the finalizer
added and returns its result; if the store refuses it, the pass returns that error and
does not update the association. -/
theorem association_bind (finalizerName : String) (env : Env) (ns name : String)
    (association : ReservedIPAssociation) (reservedIP : ReservedIP)
    (hget : env.storeGetAssociation 0 ns name = Answer.ok association)
    (hlive : association.DeletionTimestampIsZero = true)
    (hnew : containsString association.Finalizers finalizerName = false)
    (hip : env.storeGet 1 ns association.Spec.ReservedIPName = Answer.ok reservedIP) :
    ((reservedIP.Status.State ≠ "allocated" ∨ reservedIP.Spec.Assignment ≠ none) →
      (∃ e, (ReservedIPAssociationReconciler.Reconcile finalizerName env ns name).1 =
        Flow.ret (some e)) ∧
      ∀ ev ∈ (ReservedIPAssociationReconciler.Reconcile finalizerName env ns name).2,
        (∀ o err, ev ≠ Event.storeUpdate o err) ∧
        (∀ o err, ev ≠ Event.storeUpdateAssociation o err)) ∧
    ((reservedIP.Status.State = "allocated" ∧ reservedIP.Spec.Assignment = none) →
      Event.storeUpdate
          { reservedIP with
            Spec := { reservedIP.Spec with Assignment := association.Spec.Assignment } }
          (env.storeUpdate 2
            { reservedIP with
              Spec := { reservedIP.Spec with Assignment := association.Spec.Assignment } }) ∈
        (ReservedIPAssociationReconciler.Reconcile finalizerName env ns name).2 ∧
      (env.storeUpdate 2
          { reservedIP with
            Spec := { reservedIP.Spec with Assignment := association.Spec.Assignment } } = none →
        ∃ aerr, Event.storeUpdateAssociation
            { association with Finalizers := association.Finalizers ++ [finalizerName] } aerr ∈
            (ReservedIPAssociationReconciler.Reconcile finalizerName env ns name).2 ∧
          (ReservedIPAssociationReconciler.Reconcile finalizerName env ns name).1 =
            Flow.ret aerr) ∧
      (∀ e, env.storeUpdate 2
          { reservedIP with
            Spec := { reservedIP.Spec with Assignment := association.Spec.Assignment } } =
            some e →
        (ReservedIPAssociationReconciler.Reconcile finalizerName env ns name).1 =
          Flow.ret (some e) ∧
        ∀ o err, Event.storeUpdateAssociation o err ∉
          (ReservedIPAssociationReconciler.Reconcile finalizerName env ns name).2)) := by
  simp only [ReservedIPAssociationReconciler.Reconcile, hget, hlive, if_true, hnew,
    Bool.not_false, ReservedIPAssociationReconciler.bind, List.length_singleton, hip]
  refine ⟨?_, ?_⟩
  · intro h
    have hc : (reservedIP.Spec.Assignment.isNone && reservedIP.Status.State == "allocated")
        = false := by
      rcases h with h | h
      · simp [h]
      · cases hs : reservedIP.Spec.Assignment with
        | none => exact absurd hs h
        | some x => simp
    simp [hc]
  · rintro ⟨h1, h2⟩
    have hc : (reservedIP.Spec.Assignment.isNone && reservedIP.Status.State == "allocated")
        = true := by simp [h1, h2]
    simp only [hc, if_true, List.length_cons, List.length_singleton]
    refine ⟨?_, ?_, ?_⟩
    · split <;> simp
    · intro hu
      simp [hu]
    · intro e hu
      simp [hu]

/-- Witness for C9: an allocated address without assignment in a world that accepts every
write. -/
theorem association_bind_witness :
    ∃ aerr, Event.storeUpdateAssociation
        { exampleAssociation with Finalizers := exampleAssociation.Finalizers ++ ["fin"] } aerr ∈
        (ReservedIPAssociationReconciler.Reconcile "fin" Env.binding "default" "assoc-a").2 ∧
      (ReservedIPAssociationReconciler.Reconcile "fin" Env.binding "default" "assoc-a").1 =
        Flow.ret aerr :=
  ((association_bind "fin" Env.binding "default" "assoc-a" exampleAssociation exampleAllocated
    rfl rfl (by decide) rfl).2 ⟨rfl, rfl⟩).2.1 rfl

/-- C9 as stated fails: the reserved address is allocated and has no spec assignment, but
the store refuses its update; the pass returns that error and the association is not
updated. -/
theorem association_bind_refused_counterexample :
    Env.bindingRefused.storeGetAssociation 0 "default" "assoc-a" = Answer.ok exampleAssociation ∧
    exampleAssociation.DeletionTimestampIsZero = true ∧
    containsString exampleAssociation.Finalizers "fin" = false ∧
    Env.bindingRefused.storeGet 1 "default" "ip-a" = Answer.ok exampleAllocated ∧
    exampleAllocated.Status.State = "allocated" ∧
    exampleAllocated.Spec.Assignment = none ∧
    (ReservedIPAssociationReconciler.Reconcile "fin" Env.bindingRefused "default" "assoc-a").1 =
      Flow.ret (some { msg := "Conflict" }) ∧
    ∀ o err, Event.storeUpdateAssociation o err ∉
      (ReservedIPAssociationReconciler.Reconcile "fin" Env.bindingRefused "default" "assoc-a").2 := by
  refine ⟨rfl, rfl, by decide, rfl, rfl, rfl, by decide, ?_⟩
  have h : (ReservedIPAssociationReconciler.Reconcile "fin" Env.bindingRefused "default"
      "assoc-a").2 =
      [ Event.storeUpdate
          { exampleAllocated with Spec := { Assignment := some { PodName := "w1" } } }
          (some { msg := "Conflict" }),
        Event.storeGet "default" "ip-a" (Answer.ok exampleAllocated),
        Event.storeGetAssociation "default" "assoc-a" (Answer.ok exampleAssociation) ] := by
    decide
  rw [h]
  intro o err hmem
  simp at hmem

/-- C10 fails on the code: the association asked for the private address `10.0.0.5`, the
reserved address is now assigned to `10.0.0.9`, and the two descriptors do not match in
either direction; both have an empty pod name, `Reconcile` compares only the pod names,
and it clears the spec assignment of the reserved address. -/
theorem association_unbind_clears_unrelated :
    ReservedIPAssignment.MatchesSpec { PrivateIPAddress := "10.0.0.9" }
      { PrivateIPAddress := "10.0.0.5" } = false ∧
    ReservedIPAssignment.MatchesSpec { PrivateIPAddress := "10.0.0.5" }
      { PrivateIPAddress := "10.0.0.9" } = false ∧
    ReservedIPAssociationReconciler.Reconcile "fin" Env.unbinding "default" "assoc-b" =
      (Flow.ret none,
        [ Event.storeUpdateAssociation { exampleAddressAssociation with Finalizers := [] } none,
          Event.storeUpdate { exampleReassigned with Spec := { Assignment := none } } none,
          Event.storeGet "default" "ip-a" (Answer.ok exampleReassigned),
          Event.storeGetAssociation "default" "assoc-b"
            (Answer.ok exampleAddressAssociation) ]) := by
  decide

/-! ## Deleting an association -/

/-- The unbind branch on a failed lookup of the reserved address: whatever the error, also
not found, `Reconcile` returns it right after the lookup and does not write the
association. -/
theorem association_unbind_lookup_failed (finalizerName : String) (env : Env)
    (ns name : String) (association : ReservedIPAssociation) (e : GoErr)
    (hget : env.storeGetAssociation 0 ns name = Answer.ok association)
    (hdel : association.DeletionTimestampIsZero = false)
    (hfin : containsString association.Finalizers finalizerName = true)
    (hip : env.storeGet 1 ns association.Spec.ReservedIPName = Answer.fail e) :
    ReservedIPAssociationReconciler.Reconcile finalizerName env ns name =
      (Flow.ret (some e),
        [ Event.storeGet ns association.Spec.ReservedIPName (Answer.fail e),
          Event.storeGetAssociation ns name (Answer.ok association) ]) := by
  simp [ReservedIPAssociationReconciler.Reconcile, hget, hdel, hfin,
    ReservedIPAssociationReconciler.unbind, hip]

/-- The unbind branch when the reserved address is fetched and its realized assignment
names another pod than the association: the reserved address is not written, and the
association is written back without the finalizer. -/
theorem association_unbind_other_pod (finalizerName : String) (env : Env)
    (ns name : String) (association : ReservedIPAssociation) (reservedIP : ReservedIP)
    (sa a : ReservedIPAssignment)
    (hget : env.storeGetAssociation 0 ns name = Answer.ok association)
    (hdel : association.DeletionTimestampIsZero = false)
    (hfin : containsString association.Finalizers finalizerName = true)
    (hip : env.storeGet 1 ns association.Spec.ReservedIPName = Answer.ok reservedIP)
    (hsa : reservedIP.Status.Assignment = some sa)
    (ha : association.Spec.Assignment = some a)
    (hne : sa.PodName ≠ a.PodName) :
    ReservedIPAssociationReconciler.Reconcile finalizerName env ns name =
      (Flow.ret (env.storeUpdateAssociation 2
          { association with Finalizers := removeString association.Finalizers finalizerName }),
        [ Event.storeUpdateAssociation
            { association with Finalizers := removeString association.Finalizers finalizerName }
            (env.storeUpdateAssociation 2
              { association with
                Finalizers := removeString association.Finalizers finalizerName }),
          Event.storeGet ns association.Spec.ReservedIPName (Answer.ok reservedIP),
          Event.storeGetAssociation ns name (Answer.ok association) ]) := by
  simp [ReservedIPAssociationReconciler.Reconcile, hget, hdel, hfin,
    ReservedIPAssociationReconciler.unbind, hip, hsa, ha, hne]

/-- C11 fails on the code. The association `assoc-b` is being deleted and carries the
finalizer; the reserved address it names no longer exists, and the lookup reports not
found. `Reconcile` returns that error right after the lookup: the association is not
written back and keeps its finalizer. When the reserved address exists and is assigned to
another pod, the association is written back without the finalizer. -/
theorem association_unbind_target_gone :
    exampleAddressAssociation.DeletionTimestampIsZero = false ∧
    containsString exampleAddressAssociation.Finalizers "fin" = true ∧
    storeNotFound.apiNotFound = true ∧
    ReservedIPAssociationReconciler.Reconcile "fin" Env.targetGone "default" "assoc-b" =
      (Flow.ret (some storeNotFound),
        [ Event.storeGet "default" "ip-a" (Answer.fail storeNotFound),
          Event.storeGetAssociation "default" "assoc-b"
            (Answer.ok exampleAddressAssociation) ]) ∧
    ReservedIPAssociationReconciler.Reconcile "fin" Env.otherPod "default" "assoc-c" =
      (Flow.ret none,
        [ Event.storeUpdateAssociation { examplePodAssociation with Finalizers := [] } none,
          Event.storeGet "default" "ip-a" (Answer.ok exampleOtherPod),
          Event.storeGetAssociation "default" "assoc-c" (Answer.ok examplePodAssociation) ]) := by
  decide

/-! ## The cloud address is gone -/

/-- A pass of `Reconcile` on a live object past allocation whose `GetPublicIp` fails:
whatever the error, also not found, the pass returns it, records it as a warning event,
and makes no other call after the lookup. -/
theorem Reconcile_address_lookup_failed (r : ReservedIPReconciler) (env : Env)
    (ns name : String) (reservedIP : ReservedIP) (e : GoErr)
    (hfetch : env.storeGet 0 ns name = Answer.ok reservedIP)
    (hlive : reservedIP.DeletionTimestampIsZero = true)
    (hfin : containsString reservedIP.Finalizers r.finalizerName = true)
    (hs1 : reservedIP.Status.State ≠ "")
    (hs2 : reservedIP.Status.State ≠ "allocating")
    (hget : env.getPublicIp 1 reservedIP.Status.OCID = Answer.fail e) :
    Reconcile r env ns name =
      (Flow.ret (some e),
        [ Event.recorderEvent "Warning" "ReconcileError" e.msg,
          Event.getPublicIp reservedIP.Status.OCID (Answer.fail e),
          Event.storeGet ns name (Answer.ok reservedIP) ]) := by
  simp [Reconcile, hfetch, handleRequest, handleRequest.live, hlive, hfin, hs1, hs2, hget]

/-- C12 fails on the code. The object `ip-a` is live, carries the finalizer and is in
state `allocated`; `GetPublicIp` on its OCID reports `NotAuthorizedOrNotFound`. The pass
makes no further cloud call and no status write, but it returns the error of the lookup,
not nil, and `Reconcile` records it as a warning event. -/
theorem Reconcile_address_gone_returns_error :
    exampleAllocated.DeletionTimestampIsZero = true ∧
    exampleAllocated.Status.State = "allocated" ∧
    stringsContains cloudNotFound.msg "NotAuthorizedOrNotFound" = true ∧
    Reconcile exampleReconciler Env.addressGone "default" "ip-a" =
      (Flow.ret (some cloudNotFound),
        [ Event.recorderEvent "Warning" "ReconcileError" cloudNotFound.msg,
          Event.getPublicIp "ocid.publicip.R" (Answer.fail cloudNotFound),
          Event.storeGet "default" "ip-a" (Answer.ok exampleAllocated) ]) := by
  decide

/-! ## Tag reconciliation -/

theorem mapLookup_ne_none_iff (k : String) (kvs : List (String × String)) :
    mapLookup k kvs ≠ none ↔ k ∈ kvs.map Prod.fst := by
  induction kvs with
  | nil => simp [mapLookup]
  | cons kv rest ih =>
    rcases kv with ⟨k2, v⟩
    by_cases h : k2 = k
    · simp [mapLookup, h]
    · have h2 : ¬ k = k2 := fun e => h e.symm
      simp only [mapLookup, h, if_false, List.map_cons, List.mem_cons, h2, false_or]
      exact ih

theorem mapLen_eq_card (kvs : List (String × String)) :
    mapLen kvs = (kvs.map Prod.fst).toFinset.card := by
  unfold mapLen
  rw [List.card_toFinset]

/-- Go `reflect.DeepEqual` on two non-nil maps holds exactly when they hold the same value
at every key. -/
theorem deepEqualMap_some_iff (a b : List (String × String)) :
    deepEqualMap (some a) (some b) = true ↔ ∀ k, mapLookup k a = mapLookup k b := by
  simp only [deepEqualMap, Bool.and_eq_true, beq_iff_eq, List.all_eq_true, Prod.forall,
    mapLen_eq_card]
  constructor
  · rintro ⟨hlen, hall⟩ k
    have hsub : (a.map Prod.fst).toFinset ⊆ (b.map Prod.fst).toFinset := by
      intro x hx
      rw [List.mem_toFinset] at hx ⊢
      obtain ⟨kv, hkv, rfl⟩ := List.mem_map.1 hx
      have h1 := hall kv.1 kv.2 hkv
      have h2 : mapLookup kv.1 a ≠ none := (mapLookup_ne_none_iff _ _).2 hx
      exact (mapLookup_ne_none_iff _ _).1 (by rw [← h1]; exact h2)
    have heq := Finset.eq_of_subset_of_card_le hsub (le_of_eq hlen.symm)
    by_cases hk : k ∈ a.map Prod.fst
    · obtain ⟨kv, hkv, rfl⟩ := List.mem_map.1 hk
      exact hall kv.1 kv.2 hkv
    · have hkb : k ∉ b.map Prod.fst := by
        intro hb
        apply hk
        have : k ∈ (b.map Prod.fst).toFinset := List.mem_toFinset.2 hb
        rw [← heq] at this
        exact List.mem_toFinset.1 this
      have h1 : mapLookup k a = none := by
        by_contra hne
        exact hk ((mapLookup_ne_none_iff _ _).1 hne)
      have h2 : mapLookup k b = none := by
        by_contra hne
        exact hkb ((mapLookup_ne_none_iff _ _).1 hne)
      rw [h1, h2]
  · intro h
    refine ⟨?_, fun k _ _ => h k⟩
    congr 1
    ext x
    rw [List.mem_toFinset, List.mem_toFinset, ← mapLookup_ne_none_iff, ← mapLookup_ne_none_iff,
      h x]

/-- Go `reflect.DeepEqual` on two maps implies that they hold the same tag set. -/
theorem tagSet_eq_of_deepEqualMap (a b : GoMap) (h : deepEqualMap a b = true) :
    tagSet a = tagSet b := by
  cases a with
  | none =>
    cases b with
    | none => rfl
    | some kb => simp [deepEqualMap] at h
  | some ka =>
    cases b with
    | none => simp [deepEqualMap] at h
    | some kb =>
      funext k
      exact (deepEqualMap_some_iff ka kb).1 h k

/-- Two maps that hold the same tag set and are both nil or both non-nil are equal under
Go `reflect.DeepEqual`. -/
theorem deepEqualMap_of_tagSet_eq (a b : GoMap) (h : tagSet a = tagSet b)
    (hnil : a.isSome = b.isSome) : deepEqualMap a b = true := by
  cases a with
  | none =>
    cases b with
    | none => rfl
    | some kb => simp at hnil
  | some ka =>
    cases b with
    | none => simp at hnil
    | some kb => exact (deepEqualMap_some_iff ka kb).2 (fun k => congrFun h k)

/-- C13 as amended. (1) With no tag set in the spec, `reconcileTags` makes no call and
returns nil. (2) With a tag set in the spec that differs from the tags of the cloud object,
it makes exactly one call, the update of the public address `Status.OCID` with the tag set
of the spec as tags, and returns the result of that call. (3) With a tag set in the spec
that equals the tags of the cloud object, both maps being nil or both being non-nil, it
makes no call and returns nil. -/
theorem reconcileTags_overwrites (env : Env) (existingTags : GoMap) (s : Run) :
    (s.obj.Spec.Tags = none → reconcileTags env existingTags s = (Flow.ret none, s)) ∧
    (∀ tags, s.obj.Spec.Tags = some tags → tagSet tags ≠ tagSet existingTags →
      reconcileTags env existingTags s =
        (Flow.ret (env.updatePublicIp s.trace.length
            { PublicIpId := s.obj.Status.OCID, FreeformTags := tags }),
          { s with
            trace := Event.updatePublicIp
              { PublicIpId := s.obj.Status.OCID, FreeformTags := tags }
              (env.updatePublicIp s.trace.length
                { PublicIpId := s.obj.Status.OCID, FreeformTags := tags }) :: s.trace })) ∧
    (∀ tags, s.obj.Spec.Tags = some tags → tagSet tags = tagSet existingTags →
      tags.isSome = existingTags.isSome →
      reconcileTags env existingTags s = (Flow.ret none, s)) := by
  refine ⟨?_, ?_, ?_⟩
  · intro h
    rw [reconcileTags_run, h]
  · intro tags h hne
    have hd : deepEqualMap tags existingTags = false := by
      cases hc : deepEqualMap tags existingTags with
      | false => rfl
      | true => exact absurd (tagSet_eq_of_deepEqualMap _ _ hc) hne
    rw [reconcileTags_run, h]
    simp [hd]
  · intro tags h heq hnil
    rw [reconcileTags_run, h]
    simp [deepEqualMap_of_tagSet_eq _ _ heq hnil]

/-- Witness for C13: the spec asks for `team=net` and the cloud object has no tags; the one
call of `reconcileTags` is the update that sets `team=net`. -/
theorem reconcileTags_overwrites_witness :
    (reconcileTags Env.allOk (some []) exampleTagged).2.trace =
      [ Event.updatePublicIp
          { PublicIpId := "ocid.publicip.R", FreeformTags := some [("team", "net")] } none ] :=
  congrArg (fun res => res.2.trace)
    ((reconcileTags_overwrites Env.allOk (some []) exampleTagged).2.1
      (some [("team", "net")]) rfl (fun h => absurd (congrFun h "team") (by decide)))

/-- C13 as stated fails. (1) The spec has no tag set, which counts as the empty set, and
the cloud object carries the tag `team=net`: the two differ, and `reconcileTags` makes no
call. (2) The spec asks for the empty tag set and the cloud object has no tags (a nil
map): the two are equal, and `reconcileTags` makes an update call. -/
theorem reconcileTags_absent_spec_tags_counterexample :
    (specTagSet exampleUntagged.obj ≠ tagSet (some [("team", "net")]) ∧
      reconcileTags Env.allOk (some [("team", "net")]) exampleUntagged =
        (Flow.ret none, exampleUntagged)) ∧
    (specTagSet exampleEmptyTags.obj = tagSet none ∧
      (reconcileTags Env.allOk none exampleEmptyTags).2.trace =
        [ Event.updatePublicIp
            { PublicIpId := "ocid.publicip.R", FreeformTags := some [] } none ]) := by
  refine ⟨⟨fun h => absurd (congrFun h "team") (by decide), by decide⟩, ?_, by decide⟩
  funext k
  rfl

/-! ## The realized assignment in state assigned -/

theorem AssignedHasAssignment.of_state {st : ReservedIPStatus} (h : st.State ≠ "assigned") :
    AssignedHasAssignment st :=
  fun h2 => absurd h2 h

theorem Run.sound_event {s : Run} (hs : s.sound) (e : Event)
    (he : ∀ st err, e ≠ Event.storeStatusUpdate st err) :
    Run.sound { s with trace := e :: s.trace } := by
  refine ⟨hs.1, ?_⟩
  intro st err hmem
  rcases List.mem_cons.1 hmem with h | h
  · exact absurd h.symm (he st err)
  · exact hs.2 st err h

theorem Run.sound_write {s : Run} (hs : s.sound) (err : GoError) :
    Run.sound { s with trace := Event.storeStatusUpdate s.obj.Status err :: s.trace } := by
  refine ⟨hs.1, ?_⟩
  intro st e hmem
  rcases List.mem_cons.1 hmem with h | h
  · cases h; exact hs.1
  · exact hs.2 st e h

theorem Run.sound_obj {s : Run} (hs : s.sound) (o : ReservedIP)
    (ho : AssignedHasAssignment o.Status) : Run.sound { s with obj := o } :=
  ⟨ho, hs.2⟩

theorem sound_bind {ρ α β : Type} {m : Pass ρ α} {f : α → Pass ρ β} {pre : Run → Prop}
    (hm : m.sat pre Sound) (hf : ∀ a, (f a).sat Run.sound Sound) :
    (Pass.bind m f).sat pre Sound := by
  refine Pass.sat_bind hm (fun a => Pass.sat_weaken (hf a) (fun s hs => hs.2)) ?_ ?_
  · intro r s h
    exact ⟨by simp, h.2⟩
  · intro s h
    exact absurd rfl h.1

theorem sound_goIf {ρ : Type} {c : Bool} {body : Pass ρ Unit} {pre : Run → Prop}
    (hbody : c = true → body.sat pre Sound) (hpre : ∀ s, pre s → s.sound) :
    (goIf c body).sat pre Sound := by
  intro s hs
  cases c with
  | true => exact hbody rfl s hs
  | false => exact ⟨by simp [goIf], hpre s hs⟩

theorem sound_call {ρ σ : Type} {body : Pass ρ Empty} {pre : Run → Prop}
    (hbody : body.sat pre Sound) : (call body : Pass σ ρ).sat pre Sound := by
  intro s hs
  have h := hbody s hs
  simp only [call_apply]
  rcases hb : body s with ⟨fl, s1⟩
  rw [hb] at h
  cases fl with
  | next e => exact nomatch e
  | ret x => exact ⟨by simp, h.2⟩
  | panic => exact absurd rfl h.1

theorem sound_ret {ρ α : Type} (x : ρ) : (ret x : Pass ρ α).sat Run.sound Sound :=
  fun _ hs => ⟨by simp, hs⟩

theorem sound_pure {ρ α : Type} (a : α) : (Pass.pure a : Pass ρ α).sat Run.sound Sound :=
  fun _ hs => ⟨by simp, hs⟩

theorem sound_returnIfErr (err : GoError) : (returnIfErr err).sat Run.sound Sound := by
  intro s hs
  cases err with
  | none => exact ⟨by simp, hs⟩
  | some e => exact ⟨by simp, hs⟩

theorem sound_statusUpdate {ρ : Type} (env : Env) :
    (statusUpdate env : Pass ρ GoError).sat Run.sound Sound :=
  fun _ hs => ⟨by simp, Run.sound_write hs _⟩

theorem sound_storeUpdate {ρ : Type} (env : Env) :
    (storeUpdate env : Pass ρ GoError).sat Run.sound Sound :=
  fun _ hs => ⟨by simp, Run.sound_event hs _ (by simp)⟩

theorem sound_recorderEvent {ρ : Type} (t rs m : String) :
    (recorderEvent t rs m : Pass ρ Unit).sat Run.sound Sound :=
  fun _ hs => ⟨by simp, Run.sound_event hs _ (by simp)⟩

theorem sound_storeGetPod {ρ : Type} (env : Env) (ns name : String) :
    (storeGetPod env ns name : Pass ρ (Answer String)).sat Run.sound Sound :=
  fun _ hs => ⟨by simp, Run.sound_event hs _ (by simp)⟩

theorem sound_vncCreatePublicIp {ρ : Type} (env : Env) (req : CreatePublicIpRequest) :
    (vncCreatePublicIp env req : Pass ρ (Answer PublicIp)).sat Run.sound Sound :=
  fun _ hs => ⟨by simp, Run.sound_event hs _ (by simp)⟩

theorem sound_vncGetPublicIp {ρ : Type} (env : Env) (id : String) :
    (vncGetPublicIp env id : Pass ρ (Answer PublicIp)).sat Run.sound Sound :=
  fun _ hs => ⟨by simp, Run.sound_event hs _ (by simp)⟩

theorem sound_vncUpdatePublicIp {ρ : Type} (env : Env) (req : UpdatePublicIpRequest) :
    (vncUpdatePublicIp env req : Pass ρ GoError).sat Run.sound Sound :=
  fun _ hs => ⟨by simp, Run.sound_event hs _ (by simp)⟩

theorem sound_vncDeletePublicIp {ρ : Type} (env : Env) (id : String) :
    (vncDeletePublicIp env id : Pass ρ GoError).sat Run.sound Sound :=
  fun _ hs => ⟨by simp, Run.sound_event hs _ (by simp)⟩

theorem sound_vncGetPublicIpByPrivateIpId {ρ : Type} (env : Env) (id : String) :
    (vncGetPublicIpByPrivateIpId env id : Pass ρ (Answer PublicIp × StrAddr)).sat
      Run.sound Sound :=
  fun _ hs => ⟨by simp, Run.sound_event hs _ (by simp)⟩

theorem sound_vncListSubnets {ρ : Type} (env : Env) (c v : String) :
    (vncListSubnets env c v : Pass ρ (Answer (List Subnet))).sat Run.sound Sound :=
  fun _ hs => ⟨by simp, Run.sound_event hs _ (by simp)⟩

theorem sound_vncListPrivateIps {ρ : Type} (env : Env) (ip sn : String) :
    (vncListPrivateIps env ip sn : Pass ρ (Answer (List PrivateIp))).sat Run.sound Sound :=
  fun _ hs => ⟨by simp, Run.sound_event hs _ (by simp)⟩

/-- An assignment to fields of the status that keeps the property. -/
theorem sound_modifyStatus {ρ : Type} (g : ReservedIPStatus → ReservedIPStatus)
    (hg : ∀ st, AssignedHasAssignment st → AssignedHasAssignment (g st)) :
    (modifyStatus g : Pass ρ Unit).sat Run.sound Sound :=
  fun s hs => ⟨by simp, Run.sound_obj hs _ (hg _ hs.1)⟩

/-- An assignment to fields of the object that keeps the property of its status. -/
theorem sound_modifyObj {ρ : Type} (g : ReservedIP → ReservedIP)
    (hg : ∀ o, AssignedHasAssignment o.Status → AssignedHasAssignment (g o).Status) :
    (modifyObj g : Pass ρ Unit).sat Run.sound Sound :=
  fun s hs => ⟨by simp, Run.sound_obj hs _ (hg _ hs.1)⟩

theorem sound_getObj_bind {ρ β : Type} {f : ReservedIP → Pass ρ β}
    (hf : ∀ o, (f o).sat Run.sound Sound) : (Pass.bind getObj f).sat Run.sound Sound :=
  Pass.sat_getObj_bind (fun o => Pass.sat_weaken (hf o) (fun _ hs => hs.1))

theorem reconcileTags_sound (env : Env) (tags : GoMap) :
    (reconcileTags env tags).sat Run.sound Sound := by
  unfold reconcileTags
  simp only [bind_eq]
  apply sound_getObj_bind
  intro o
  split
  · split
    · exact sound_bind (sound_vncUpdatePublicIp env _) (fun x => sound_ret x)
    · exact sound_ret none
  · exact sound_ret none

theorem assignEphemeralIP_sound (r : ReservedIPReconciler) (env : Env) :
    (assignEphemeralIP r env).sat Run.sound Sound := by
  unfold assignEphemeralIP
  simp only [bind_eq]
  apply sound_getObj_bind
  intro o
  refine sound_bind (sound_vncCreatePublicIp env _) ?_
  intro ans
  split
  · exact sound_ret _
  · refine sound_bind (sound_modifyStatus _ (fun st h => h)) ?_
    intro _
    refine sound_bind (sound_statusUpdate env) ?_
    intro err
    exact sound_bind (sound_returnIfErr err) (fun _ => sound_ret none)

theorem allocateReservedIP_sound (r : ReservedIPReconciler) (env : Env) :
    (allocateReservedIP r env).sat Run.sound Sound := by
  unfold allocateReservedIP
  simp only [bind_eq]
  apply sound_getObj_bind
  intro o
  refine sound_bind (sound_vncCreatePublicIp env _) ?_
  intro ans
  split
  · exact sound_ret _
  · refine sound_bind (sound_modifyStatus _ (fun st _ => AssignedHasAssignment.of_state (by simp))) ?_
    intro _
    refine sound_bind (sound_statusUpdate env) ?_
    intro err
    refine sound_bind (sound_returnIfErr err) ?_
    intro _
    exact sound_bind (sound_call (reconcileTags_sound env _)) (fun x => sound_ret x)

theorem releaseReservedIP_sound (r : ReservedIPReconciler) (env : Env) :
    (releaseReservedIP r env).sat Run.sound Sound := by
  unfold releaseReservedIP
  simp only [bind_eq]
  apply sound_getObj_bind
  intro eip
  refine sound_bind (sound_vncDeletePublicIp env _) ?_
  intro err
  refine sound_bind ?_ ?_
  · cases err with
    | none => exact sound_pure ()
    | some e => exact sound_goIf (fun _ => sound_ret _) (fun _ hs => hs)
  · intro _
    apply sound_getObj_bind
    intro o
    refine sound_bind (sound_goIf (fun _ => ?_) (fun _ hs => hs)) (fun _ => sound_ret none)
    exact sound_bind (sound_call (assignEphemeralIP_sound r env)) (fun x => sound_ret x)

theorem getPodPrivateIP_sound (env : Env) (ns podName : String) :
    (getPodPrivateIP env ns podName).sat Run.sound Sound := by
  unfold getPodPrivateIP
  simp only [bind_eq]
  refine sound_bind (sound_storeGetPod env ns podName) ?_
  intro ans
  split
  · exact sound_ret _
  · exact sound_ret _

theorem getPrivateIPID_scan_sound (env : Env) (privateIP : String) (subnets : List Subnet) :
    (getPrivateIPID.scan env privateIP subnets).sat Run.sound Sound := by
  induction subnets with
  | nil => exact sound_pure ()
  | cons subnet rest ih =>
    unfold getPrivateIPID.scan
    split
    · exact sound_ret _
    · exact ih
    · simp only [bind_eq]
      refine sound_bind (sound_vncListPrivateIps env _ _) ?_
      intro ans
      split
      · exact sound_ret _
      · exact sound_ret _
      · exact ih

theorem getPrivateIPID_sound (r : ReservedIPReconciler) (env : Env) (privateIP : String) :
    (getPrivateIPID r env privateIP).sat Run.sound Sound := by
  unfold getPrivateIPID
  simp only [bind_eq]
  refine sound_bind (sound_vncListSubnets env _ _) ?_
  intro ans
  split
  · exact sound_ret _
  · exact sound_bind (getPrivateIPID_scan_sound env privateIP _) (fun _ => sound_ret _)

theorem resolve_sound (env : Env) (ns : String) (a : ReservedIPAssignment) :
    (assignReservedIP.resolve env ns a).sat Run.sound Sound := by
  unfold assignReservedIP.resolve
  split
  · simp only [bind_eq]
    refine sound_bind (sound_call (getPodPrivateIP_sound env ns a.PodName)) ?_
    intro x
    rcases x with ⟨podIP, err⟩
    exact sound_bind (sound_returnIfErr err) (fun _ => sound_pure _)
  · exact sound_pure _

theorem makeRoom_sound (env : Env) (res : Answer PublicIp) (idAddr : StrAddr) :
    (assignReservedIP.makeRoom env res idAddr).sat Run.sound Sound := by
  unfold assignReservedIP.makeRoom
  cases res with
  | fail err => exact sound_goIf (fun _ => sound_ret _) (fun _ hs => hs)
  | ok publicIP =>
    simp only [bind_eq]
    refine sound_bind (sound_goIf (fun _ => sound_ret _) (fun _ hs => hs)) ?_
    intro _
    split
    · refine sound_bind (sound_modifyStatus _ (fun st h => h)) ?_
      intro _
      refine sound_bind (sound_statusUpdate env) ?_
      intro err
      refine sound_bind (sound_returnIfErr err) ?_
      intro _
      exact sound_bind (sound_vncDeletePublicIp env _) (fun err => sound_returnIfErr err)
    · exact sound_bind (sound_vncUpdatePublicIp env _) (fun err => sound_returnIfErr err)

theorem assignReservedIP_sound (r : ReservedIPReconciler) (env : Env) :
    (assignReservedIP r env).sat (fun s => s.sound ∧ s.obj.Spec.Assignment.isSome = true)
      Sound := by
  unfold assignReservedIP
  simp only [bind_eq]
  apply Pass.sat_getObj_bind
  intro o
  split
  · rename_i h
    intro s hs
    have h2 := hs.1.2
    rw [hs.2, h] at h2
    simp at h2
  · rename_i assignment _
    refine sound_bind ?_ ?_
    · exact sound_goIf (fun _ s hs => ⟨by simp, hs.1.1⟩) (fun s hs => hs.1.1)
    intro _
    refine sound_bind (resolve_sound env _ assignment) ?_
    intro privateIP
    refine sound_bind (sound_call (getPrivateIPID_sound r env privateIP)) ?_
    intro x
    rcases x with ⟨privateIPID, err⟩
    refine sound_bind (sound_returnIfErr err) ?_
    intro _
    refine sound_bind (sound_vncGetPublicIpByPrivateIpId env privateIPID) ?_
    intro x
    rcases x with ⟨res, idAddr⟩
    refine sound_bind (makeRoom_sound env res idAddr) ?_
    intro _
    apply sound_getObj_bind
    intro o2
    refine sound_bind (sound_vncUpdatePublicIp env _) ?_
    intro err
    refine sound_bind (sound_returnIfErr err) ?_
    intro _
    refine sound_bind (sound_modifyObj _ (fun _ _ _ => rfl)) ?_
    intro _
    refine sound_bind (sound_statusUpdate env) ?_
    intro err
    exact sound_bind (sound_returnIfErr err) (fun _ => sound_ret none)

theorem unassignReservedIP_sound (r : ReservedIPReconciler) (env : Env) :
    (unassignReservedIP r env).sat Run.sound Sound := by
  unfold unassignReservedIP
  simp only [bind_eq]
  apply sound_getObj_bind
  intro o
  refine sound_bind (sound_vncUpdatePublicIp env _) ?_
  intro err
  refine sound_bind (sound_returnIfErr err) ?_
  intro _
  apply sound_getObj_bind
  intro o2
  refine sound_bind (sound_goIf (fun _ => ?_) (fun _ hs => hs)) ?_
  · exact sound_bind (sound_call (assignEphemeralIP_sound r env))
      (fun err => sound_returnIfErr err)
  intro _
  refine sound_bind (sound_modifyStatus _
    (fun st _ => AssignedHasAssignment.of_state (by simp))) ?_
  intro _
  refine sound_bind (sound_statusUpdate env) ?_
  intro err
  exact sound_bind (sound_returnIfErr err) (fun _ => sound_ret none)

/-- The `assigned` branch: entered in state `assigned`, it finds the realized assignment
present. -/
theorem assignedChanged_sound (addr : PublicIp) :
    (handleRequest.assignedChanged addr).sat
      (fun s => s.sound ∧ s.obj.Status.State = "assigned") Sound := by
  intro s hs
  obtain ⟨hs, hst⟩ := hs
  have hsome := hs.1 hst
  simp only [handleRequest.assignedChanged, bind_eq]
  simp
  cases s.obj.Spec.Assignment with
  | none =>
    simp
    exact ⟨by simp, Run.sound_obj hs _ (AssignedHasAssignment.of_state (by simp))⟩
  | some specAssignment =>
    simp
    cases hA : s.obj.Status.Assignment with
    | none => simp [hA] at hsome
    | some statusAssignment =>
      simp
      split
      · exact ⟨by simp, Run.sound_obj hs _ (AssignedHasAssignment.of_state (by simp))⟩
      · exact ⟨by simp, hs⟩

theorem transitions_sound (r : ReservedIPReconciler) (env : Env) (addr : PublicIp) :
    (handleRequest.transitions r env addr).sat Run.sound Sound := by
  unfold handleRequest.transitions
  simp only [bind_eq]
  apply sound_getObj_bind
  intro o5
  refine sound_bind (sound_goIf (fun _ => ?_) (fun _ hs => hs)) ?_
  · apply sound_getObj_bind
    intro o
    split
    · refine sound_goIf (fun _ => ?_) (fun _ hs => hs)
      refine sound_bind (sound_modifyStatus _
        (fun st _ => AssignedHasAssignment.of_state (by simp))) ?_
      intro _
      refine sound_bind (sound_statusUpdate env) ?_
      intro err
      exact sound_bind (sound_returnIfErr err) (fun _ => sound_recorderEvent _ _ _)
    · exact sound_pure ()
  intro _
  apply Pass.sat_getObj_bind
  intro o6
  refine sound_bind (sound_goIf (fun hc => ?_) (fun _ hs => hs.1)) ?_
  · refine sound_bind (Pass.sat_weaken (assignedChanged_sound addr)
      (fun s hs => ⟨hs.1, by rw [hs.2]; simpa using hc⟩)) ?_
    intro changed
    refine sound_goIf (fun _ => ?_) (fun _ hs => hs)
    exact sound_bind (sound_statusUpdate env) (fun err => sound_returnIfErr err)
  intro _
  apply sound_getObj_bind
  intro o7
  refine sound_bind (sound_goIf (fun _ => ?_) (fun _ hs => hs)) ?_
  · apply sound_getObj_bind
    intro o
    refine sound_goIf (fun _ => ?_) (fun _ hs => hs)
    refine sound_bind (sound_modifyStatus _
      (fun st _ => AssignedHasAssignment.of_state (by simp))) ?_
    intro _
    exact sound_bind (sound_statusUpdate env) (fun err => sound_returnIfErr err)
  intro _
  apply sound_getObj_bind
  intro o8
  apply sound_getObj_bind
  intro o9
  refine sound_bind (sound_goIf (fun _ => ?_) (fun _ hs => hs)) ?_
  · apply Pass.sat_getObj_bind
    intro o
    split
    · rename_i assignment h
      refine sound_goIf (fun _ => ?_) (fun _ hs => hs.1)
      refine sound_bind (sound_call ?_) (fun x => sound_ret x)
      exact Pass.sat_weaken (assignReservedIP_sound r env)
        (fun s hs => ⟨hs.1, by rw [hs.2, h]; rfl⟩)
    · exact fun s hs => ⟨by simp, hs.1⟩
  intro _
  apply sound_getObj_bind
  intro o10
  refine sound_goIf (fun _ => ?_) (fun _ hs => hs)
  exact sound_bind (sound_call (unassignReservedIP_sound r env)) (fun x => sound_ret x)

theorem live_sound (r : ReservedIPReconciler) (env : Env) :
    (handleRequest.live r env).sat Run.sound Sound := by
  unfold handleRequest.live
  simp only [bind_eq]
  apply sound_getObj_bind
  intro o1
  refine sound_bind (sound_goIf (fun _ => ?_) (fun _ hs => hs)) ?_
  · refine sound_bind (sound_modifyObj _ (fun _ h => h)) ?_
    intro _
    exact sound_bind (sound_storeUpdate env) (fun x => sound_ret x)
  intro _
  apply sound_getObj_bind
  intro o2
  refine sound_bind (sound_goIf (fun _ => ?_) (fun _ hs => hs)) ?_
  · refine sound_bind (sound_modifyStatus _
      (fun st _ => AssignedHasAssignment.of_state (by simp))) ?_
    intro _
    exact sound_bind (sound_statusUpdate env) (fun err => sound_returnIfErr err)
  intro _
  apply sound_getObj_bind
  intro o3
  refine sound_bind (sound_goIf (fun _ => ?_) (fun _ hs => hs)) ?_
  · refine sound_bind (sound_call (allocateReservedIP_sound r env)) ?_
    intro err
    exact sound_bind (sound_returnIfErr err) (fun _ => sound_recorderEvent _ _ _)
  intro _
  apply sound_getObj_bind
  intro o4
  refine sound_bind (sound_vncGetPublicIp env _) ?_
  intro ans
  split
  · exact sound_ret _
  · rename_i addr
    refine sound_bind (sound_call (reconcileTags_sound env addr.FreeformTags)) ?_
    intro err
    exact sound_bind (sound_returnIfErr err) (fun _ => transitions_sound r env addr)

theorem deleting_sound (r : ReservedIPReconciler) (env : Env) :
    (handleRequest.deleting r env).sat Run.sound Sound := by
  unfold handleRequest.deleting
  simp only [bind_eq]
  apply sound_getObj_bind
  intro o1
  refine sound_goIf (fun _ => ?_) (fun _ hs => hs)
  apply sound_getObj_bind
  intro o2
  refine sound_bind (sound_goIf (fun _ => ?_) (fun _ hs => hs)) ?_
  · apply sound_getObj_bind
    intro o3
    refine sound_bind (sound_goIf (fun _ => ?_) (fun _ hs => hs)) ?_
    · refine sound_bind (sound_modifyStatus _
        (fun st _ => AssignedHasAssignment.of_state (by simp))) ?_
      intro _
      exact sound_bind (sound_statusUpdate env) (fun err => sound_returnIfErr err)
    intro _
    apply sound_getObj_bind
    intro o4
    refine sound_goIf (fun _ => ?_) (fun _ hs => hs)
    exact sound_bind (sound_call (releaseReservedIP_sound r env))
      (fun err => sound_returnIfErr err)
  intro _
  refine sound_bind (sound_modifyObj _ (fun _ h => h)) ?_
  intro _
  exact sound_bind (sound_storeUpdate env) (fun x => sound_ret x)

/-- A pass of `handleRequest` that starts on a sound run state does not panic and ends on
a sound run state. -/
theorem handleRequest_sound (r : ReservedIPReconciler) (env : Env) :
    (handleRequest r env).sat Run.sound Sound := by
  unfold handleRequest
  simp only [bind_eq]
  apply sound_getObj_bind
  intro reservedIP
  refine sound_bind ?_ (fun _ => sound_ret none)
  split
  · exact live_sound r env
  · exact deleting_sound r env

theorem reachableStatus_sound (r : ReservedIPReconciler) (status : ReservedIPStatus)
    (h : ReachableStatus r status) : AssignedHasAssignment status := by
  induction h with
  | init => exact AssignedHasAssignment.of_state (by decide)
  | write env reservedIP status _ accepted ih =>
    exact (handleRequest_sound r env { obj := reservedIP }
      ⟨ih, fun _ _ hmem => by simp at hmem⟩).2.2 status none accepted

/-- C14. Every status that the store can come to hold through status writes of the
reserved-address reconciler, starting from the status of a new object, under any spec and
any answers of the outside world, has a realized assignment when its state is `assigned`;
and a pass of `handleRequest` on an object that holds such a status, with any spec and
metadata, does not panic: the dereference of `status.Assignment` in the `assigned` branch
finds a descriptor, and the branch that calls `assignReservedIP` is entered only with a spec
assignment. -/
theorem assigned_status_has_assignment (r : ReservedIPReconciler) (status : ReservedIPStatus)
    (hreach : ReachableStatus r status) :
    (status.State = "assigned" → ∃ a, status.Assignment = some a) ∧
    ∀ (env : Env) (reservedIP : ReservedIP), reservedIP.Status = status →
      (runHandleRequest r env reservedIP).1 ≠ Flow.panic := by
  have h := reachableStatus_sound r status hreach
  refine ⟨fun hst => Option.isSome_iff_exists.1 (h hst), ?_⟩
  intro env reservedIP hstatus
  exact (handleRequest_sound r env { obj := reservedIP }
    ⟨by rw [hstatus]; exact h, fun _ _ hmem => by simp at hmem⟩).1

/-- Witness for C14: the status written by the pass that assigns `ip-a` to the pod `w1` is
reached from the status of a new object in two passes (allocation, then assignment) in the
world where every call succeeds; its state is `assigned` and it has a realized
assignment. -/
theorem assigned_status_has_assignment_witness :
    ReachableStatus exampleReconciler exampleAssignedStatus ∧
    exampleAssignedStatus.State = "assigned" ∧
    ∃ a, exampleAssignedStatus.Assignment = some a :=
  have h : ReachableStatus exampleReconciler exampleAssignedStatus :=
    ReachableStatus.write Env.allOk exampleAllocatedForPod exampleAssignedStatus
      (ReachableStatus.write Env.allOk exampleNew exampleAllocatedForPod.Status
        ReachableStatus.init (by decide))
      (by decide)
  ⟨h, rfl, (assigned_status_has_assignment exampleReconciler exampleAssignedStatus h).1 rfl⟩

end OciOperator
